import Mathlib

/-!
# Verification of the `simple` terminal dashboard (package `internal/tui`)

Shallow embedding of the pure utilities (`layout.go`, the fuzzy matcher of
`browser.go`) and of the Browser / Domain-Dashboard state machines
(`browser.go`, `domain_dashboard.go`).

Conventions of the embedding
* Go `int` values are Lean `Int`.  In `windowRange`, whose contract is stated
  for every `int`, each addition and subtraction is wrapped to 64 bits; the
  state machines only add and subtract `1` on lengths and indices of
  in-memory slices, which stay far below the machine word bound.
* Go `string` values are Lean `String`; `[]rune(s)` is `s.data`.
* A method with a pointer receiver `func (m *T) f(x) R` becomes a function
  `T → X → T × R` returning the updated receiver.
* A function whose Go body can panic on a slice index returns an `Option`;
  `none` is the panic.
* `tea.Cmd` values are first-order descriptions (`Cmd`) of the closures the
  source builds, with the values they capture; `nil` is the empty list.
-/

namespace Tui

/-! ## layout.go -/

/-- Go `maxInt` of `layout.go`. -/
def maxInt (a b : Int) : Int := if a > b then a else b

/-- Go `minInt` of `layout.go`. -/
def minInt (a b : Int) : Int := if a < b then a else b

/-- Two's-complement wrap of a mathematical integer to a 64-bit Go `int`. -/
def wrap64 (x : Int) : Int := (x + 2 ^ 63) % 2 ^ 64 - 2 ^ 63

/-- Go `windowRange(total, selected, capacity) (start, end)` of `layout.go`.
The arguments are Go `int` values (64 bits wide), and each addition and
subtraction of the body is wrapped to 64 bits, as the machine executes it. -/
def windowRange (total selected capacity : Int) : Int × Int :=
  if total ≤ 0 then (0, 0)
  else if capacity ≤ 0 ∨ total ≤ capacity then (0, total)
  else
    let selected := if selected < 0 then 0 else selected
    let selected := if selected ≥ total then wrap64 (total - 1) else selected
    let start := wrap64 (selected - Int.tdiv capacity 2)
    let start := if start < 0 then 0 else start
    let endIdx := wrap64 (start + capacity)
    if endIdx > total then (wrap64 (total - capacity), total) else (start, endIdx)

/-- The body of `windowRange` in unbounded integer arithmetic: what the
function computes as long as no step leaves the 64-bit range. -/
def windowRangeIdeal (total selected capacity : Int) : Int × Int :=
  if total ≤ 0 then (0, 0)
  else if capacity ≤ 0 ∨ total ≤ capacity then (0, total)
  else
    let selected := if selected < 0 then 0 else selected
    let selected := if selected ≥ total then total - 1 else selected
    let start := selected - Int.tdiv capacity 2
    let start := if start < 0 then 0 else start
    let endIdx := start + capacity
    if endIdx > total then (total - capacity, total) else (start, endIdx)

/-! ## Library boundary

The program is built on the Go standard library (`strings`, `unicode`,
`sort`) and on the terminal toolkit (`tea.KeyMsg`, `textinput.Model`).  The
standard-library helpers are modelled directly; the behaviours that are
tables or editors of their own (`unicode.ToLower`, the key handling of a
focused `textinput.Model`) are parameters bundled in `Lib`, so every theorem
quantified over `L : Lib` holds for whatever those libraries do. -/

/-- Go `unicode.IsSpace`: the Unicode `White_Space` property. -/
def isSpace (c : Char) : Bool :=
  let n := c.toNat
  (0x09 ≤ n ∧ n ≤ 0x0D) ∨ n = 0x20 ∨ n = 0x85 ∨ n = 0xA0 ∨ n = 0x1680 ∨
    (0x2000 ≤ n ∧ n ≤ 0x200A) ∨ n = 0x2028 ∨ n = 0x2029 ∨ n = 0x202F ∨
    n = 0x205F ∨ n = 0x3000

/-- Go `strings.TrimSpace`, on the runes of the string: leading and trailing
white space removed. -/
def trimSpace (s : List Char) : List Char :=
  (s.dropWhile isSpace).rdropWhile isSpace

/-- A `tea.KeyMsg`, observed the two ways the program observes it:
`name` is the value of `msg.String()` (what `matches` and every
`msg.String() == ...` test compare), `runes` is `msg.Runes` (what a text
input inserts). -/
structure KeyMsg where
  name : String
  runes : List Char
deriving DecidableEq, Repr

/-- The state of a `textinput.Model` the program reads or sets: its text
(`Value()` / `SetValue`), cursor position, focus flag (`Focus()` / `Blur()`)
and `CharLimit`. -/
structure TextInput where
  value : List Char
  pos : Nat
  focus : Bool
  charLimit : Nat
deriving DecidableEq, Repr

/-! ## Data carried by the program

The `dnsimple` API structs, with the fields the program reads; a Go pointer
result is an `Option`, a Go `error` is an `Option String` holding
`err.Error()` (`none` is `nil`). -/

/-- The Go struct `dnsimple.Domain`. -/
structure Domain where
  ID : Int
  Name : String
  UnicodeName : String
  State : String
  AutoRenew : Bool
  PrivateWhois : Bool
  ExpiresAt : String
  CreatedAt : String
  UpdatedAt : String
deriving DecidableEq, Repr

/-- The Go struct `dnsimple.Zone`. -/
structure Zone where
  ID : Int
  Name : String
  Reverse : Bool
  Secondary : Bool
  Active : Bool
  CreatedAt : String
  UpdatedAt : String
deriving DecidableEq, Repr

/-- The Go struct `dnsimple.ZoneRecord`. -/
structure ZoneRecord where
  ID : Int
  ZoneID : String
  Name : String
  Content : String
  TTL : Int
  Priority : Int
  Type_ : String
  Regions : List String
  SystemRecord : Bool
  CreatedAt : String
  UpdatedAt : String
deriving DecidableEq, Repr

/-- The Go struct `dnsimple.Account`. -/
structure Account where
  ID : Int
  Email : String
  PlanIdentifier : String
deriving DecidableEq, Repr

/-- The Go struct `dnsimple.User`. -/
structure User where
  ID : Int
  Email : String
deriving DecidableEq, Repr

/-- The Go struct `dnsimple.WhoamiData`. -/
structure WhoamiData where
  User : Option User
  Account : Option Account
deriving DecidableEq, Repr

/-- Go `type category int` of `browser.go`. -/
inductive category where
  | categoryDomains
  | categoryZones
  | categoryRecords
deriving DecidableEq, Repr

/-- Go `type browserScreen int` of `browser.go`. -/
inductive browserScreen where
  | browserDomainsList
  | browserDomainDashboard
  | browserZonesList
  | browserRecordsZones
  | browserRecordsList
deriving DecidableEq, Repr

/-- Go `type browserItem struct` of `browser.go`. -/
structure browserItem where
  Key : String
  Title : String
  Subtitle : String
  ID : Int
deriving DecidableEq, Repr

/-- Go `type browserListLoadedMsg struct` of `browser.go`. -/
structure browserListLoadedMsg where
  screen : browserScreen
  header : String
  items : List browserItem
  statusMsg : String
  err : Option String
deriving DecidableEq, Repr

/-- Go `type browserDetailLoadedMsg struct` of `browser.go`. -/
structure browserDetailLoadedMsg where
  title : String
  body : String
  err : Option String
deriving DecidableEq, Repr

/-- Go `type domainDashSection int` of `domain_dashboard.go`. -/
inductive domainDashSection where
  | domainSectionOverview
  | domainSectionRecords
  | domainSectionZone
  | domainSectionDiagnostics
  | domainSectionActions
deriving DecidableEq, Repr

/-- Go `type confirmMutation int` of `domain_dashboard.go`. -/
inductive confirmMutation where
  | mutationNone
  | mutationZoneActivate
  | mutationZoneDeactivate
  | mutationDeleteRecord
  | mutationDeleteDomain
deriving DecidableEq, Repr

/-- Go `type domainDashboardLoadedMsg struct`. -/
structure domainDashboardLoadedMsg where
  domain : Option Domain
  zone : Option Zone
  records : List ZoneRecord
  warnings : List String
  err : Option String
deriving DecidableEq, Repr

/-- Go `type domainDashboardRecordDetailMsg struct`. -/
structure domainDashboardRecordDetailMsg where
  record : Option ZoneRecord
  err : Option String
deriving DecidableEq, Repr

/-- Go `type domainDashboardZoneFileMsg struct`. -/
structure domainDashboardZoneFileMsg where
  zoneFile : String
  err : Option String
deriving DecidableEq, Repr

/-- Go `type domainDashboardZoneDistributionMsg struct`. -/
structure domainDashboardZoneDistributionMsg where
  distributed : Bool
  err : Option String
deriving DecidableEq, Repr

/-- Go `type domainDashboardRecordDistributionMsg struct`. -/
structure domainDashboardRecordDistributionMsg where
  recordID : Int
  distributed : Bool
  err : Option String
deriving DecidableEq, Repr

/-- Go `type domainDashboardMutationMsg struct`. -/
structure domainDashboardMutationMsg where
  kind : String
  domain : String
  status : String
  reload : Bool
  exit : Bool
  err : Option String
deriving DecidableEq, Repr

/-- Go `type tokenValidatedMsg struct` of `auth.go`. -/
structure tokenValidatedMsg where
  token : String
  data : Option WhoamiData
  err : Option String
deriving DecidableEq, Repr

/-- Go `type homeWhoamiMsg struct` of `home.go`. -/
structure homeWhoamiMsg where
  data : Option WhoamiData
  err : Option String
deriving DecidableEq, Repr

/-- A `tea.Msg`: one constructor per message type the program switches on.
`spinnerTick` carries the (abstract) payload of a `spinner.TickMsg`; `other`
stands for every message type no `switch` of the program names. -/
inductive Msg where
  | key (k : KeyMsg)
  | windowSize (width height : Int)
  | spinnerTick (payload : Nat)
  | navigateCategory (c : category)
  | browserBack
  | browserListLoaded (m : browserListLoadedMsg)
  | browserDetailLoaded (m : browserDetailLoadedMsg)
  | domainDashboardExit
  | domainDashboardDeleted (domain : String)
  | domainDashboardLoaded (m : domainDashboardLoadedMsg)
  | domainDashboardRecordDetail (m : domainDashboardRecordDetailMsg)
  | domainDashboardZoneFile (m : domainDashboardZoneFileMsg)
  | domainDashboardZoneDistribution (m : domainDashboardZoneDistributionMsg)
  | domainDashboardRecordDistribution (m : domainDashboardRecordDistributionMsg)
  | domainDashboardMutation (m : domainDashboardMutationMsg)
  | tokenValidated (m : tokenValidatedMsg)
  | authDone (data : Option WhoamiData)
  | homeWhoami (m : homeWhoamiMsg)
  | other (tag : Nat)
deriving DecidableEq, Repr

/-- One closure the program hands to the runtime as (part of) a `tea.Cmd`,
with the values the closure captured.  `homeNavigate` is the closure of the
Enter arm of `(*HomeModel).Update`: it captures the pointer to the model and
reads the selection when the runtime runs it (`HomeModel.runNavigate`). -/
inductive CmdAtom where
  | spinnerTick
  | textinputBlink
  | inputCmd
  | quit
  | emit (msg : Msg)
  | homeNavigate
  | loadList (cat : category) (screen : browserScreen) (zone : String)
  | loadDetail (item : browserItem) (cat : category) (screen : browserScreen) (zone : String)
  | loadZoneFile (item : browserItem)
  | loadZoneDistribution (item : browserItem)
  | loadRecordDistribution (zone : String) (item : browserItem)
  | loadDashboard (domain : String)
  | dashRecordDetail (domain : String) (recordID : Int)
  | dashZoneFile (domain : String)
  | dashZoneDistribution (domain : String)
  | dashRecordDistribution (domain : String) (recordID : Int)
  | mutation (action : confirmMutation) (domain : String) (recordID : Int)
  | validateToken (token : String)
  | fetchWhoami
deriving DecidableEq, Repr

/-- A `tea.Cmd`, as the list of closures the runtime will run: `nil` is the
empty list and `tea.Batch` (which drops `nil` members and is `nil` when
nothing is left) is concatenation. -/
abbrev Cmd := List CmdAtom

/-- Go `tea.Batch(cmds...)`. -/
def teaBatch (cmds : List Cmd) : Cmd := cmds.flatten

/-- What the external libraries compute.
* `toLower` is `unicode.ToLower`; `strings.ToLower` maps it over the runes.
* `sanitize` is the rune sanitizer `textinput.SetValue` applies.
* `inputUpdate ti msg` is what a focused `textinput.Model` becomes when its
  `Update` handles `msg`, with a flag telling whether it returned a
  (cursor) command.
* `spinnerUpdate sp payload` is `spinner.Model.Update` on a tick, with a flag
  telling whether it returned the next tick command. -/
structure Lib where
  toLower : Char → Char
  sanitize : List Char → List Char
  sanitize_nil : sanitize [] = []
  inputUpdate : TextInput → Msg → TextInput × Bool
  spinnerUpdate : Nat → Nat → Nat × Bool

/-- Go `textinput.New()` with the given `CharLimit`: empty and not focused. -/
def TextInput.new (charLimit : Nat) : TextInput :=
  { value := [], pos := 0, focus := false, charLimit := charLimit }

/-- Go `(*textinput.Model).SetValue(s)`: the sanitized runes, cut at
`CharLimit`; the cursor goes to the end when the input was empty with the
cursor at `0`, or when it would lie beyond the new text. -/
def TextInput.SetValue (L : Lib) (ti : TextInput) (s : List Char) : TextInput :=
  let runes := L.sanitize s
  let value := if 0 < ti.charLimit ∧ ti.charLimit < runes.length then runes.take ti.charLimit else runes
  let pos := if (ti.pos = 0 ∧ ti.value.length = 0) ∨ value.length < ti.pos then value.length else ti.pos
  { ti with value := value, pos := pos }

/-- Go `(*textinput.Model).Focus()` (the returned command is dropped by every caller). -/
def TextInput.Focus (ti : TextInput) : TextInput := { ti with focus := true }

/-- Go `(*textinput.Model).Blur()`. -/
def TextInput.Blur (ti : TextInput) : TextInput := { ti with focus := false }

/-- Go `textinput.Model.Update(msg)`: an input without focus ignores the
message (`if !m.focus { return m, nil }`). -/
def TextInput.Update (L : Lib) (ti : TextInput) (msg : Msg) : TextInput × Cmd :=
  if ti.focus = false then (ti, [])
  else ((L.inputUpdate ti msg).1, if (L.inputUpdate ti msg).2 then [CmdAtom.inputCmd] else [])

/-- Go `spinner.Model.Update(msg)` on a `spinner.TickMsg`. -/
def spinnerUpdate (L : Lib) (sp payload : Nat) : Nat × Cmd :=
  ((L.spinnerUpdate sp payload).1, if (L.spinnerUpdate sp payload).2 then [CmdAtom.spinnerTick] else [])

/-- Go `fmt.Errorf("%s: %w", prefix, err)` inside `wrapErr(prefix, err)` of
`domain_dashboard.go`. -/
def wrapErr (pfx : String) (err : Option String) : Option String :=
  match err with
  | none => none
  | some e => some (pfx ++ ": " ++ e)

/-- Go slice indexing `xs[i]` with an `int` index; `none` is the run-time
panic of an index out of range. -/
def index? {α : Type} (xs : List α) (i : Int) : Option α :=
  if i < 0 then none else xs[i.toNat]?

/-! ## keys.go -/

/-- Go `type keyMap struct`: each `key.Binding` is the list of its keys (all
bindings are enabled). -/
structure keyMap where
  Quit : List String
  Back : List String
  Enter : List String
  Up : List String
  Down : List String
  TabNext : List String
  TabPrev : List String

/-- Go `var keys = keyMap{...}` of `keys.go`. -/
def keys : keyMap where
  Quit := ["q", "ctrl+c"]
  Back := ["esc", "backspace"]
  Enter := ["enter"]
  Up := ["up", "k"]
  Down := ["down", "j"]
  TabNext := ["tab", "l"]
  TabPrev := ["shift+tab", "H"]

/-- Go `matches(msg, binding)` (a reserved word in Lean, hence the name):
`key.Matches` compares `msg.String()` with the keys of the binding. -/
def keyMatches (msg : KeyMsg) (binding : List String) : Bool :=
  binding.contains msg.name

/-- Go `strings.ToLower(s)`, as runes. -/
def toLower (L : Lib) (s : List Char) : List Char := s.map L.toLower

/-! ## browser.go: fuzzy matching -/

/-- Inner loop of `fuzzyScore`: `for ti < len(tr) { if tr[ti] == qc { found = ti; break }; ti++ }`.
The slice still to scan, `tr[ti:]`, is carried next to `ti`; the result is
`found` together with `tr[found+1:]`, or `none` for `found == -1`. -/
def fuzzyFind (qc : Char) : List Char → Nat → Option (Nat × List Char)
  | [], _ => none
  | c :: rest, ti => if c = qc then some (ti, rest) else fuzzyFind qc rest (ti + 1)

/-- The bonus of one match inside the outer loop of `fuzzyScore`: `+10`, the
start / separator bonus, and the adjacency bonus or gap penalty. -/
def fuzzyStep (tr : List Char) (found : Nat) (prev : Int) (score : Int) : Int :=
  let score := score + 10
  let score :=
    if found = 0 then score + 12
    else if tr[found - 1]? = some '.' ∨ tr[found - 1]? = some '-' ∨ tr[found - 1]? = some '_' then
      score + 8
    else score
  if prev ≥ 0 then
    let gap := (found : Int) - prev - 1
    if gap = 0 then score + 10 else score - minInt gap 6
  else score

/-- Outer loop of `fuzzyScore` (`for _, qc := range qr`), with the loop
state `ti` (and `tr[ti:]`), `prev`, `score`; `none` is the early
`return 0, false`. -/
def fuzzyLoop (tr : List Char) : List Char → List Char → Nat → Int → Int → Option Int
  | [], _, _, _, score => some score
  | qc :: qs, rest, ti, prev, score =>
    match fuzzyFind qc rest ti with
    | none => none
    | some (found, rest') =>
      fuzzyLoop tr qs rest' (found + 1) (found : Int) (fuzzyStep tr found prev score)

/-- Go `fuzzyScore(query, target string) (int, bool)` of `browser.go`. -/
def fuzzyScore (L : Lib) (query target : String) : Int × Bool :=
  let q := toLower L (trimSpace query.data)
  let t := toLower L target.data
  if q = [] then (0, true)
  else
    match fuzzyLoop t q t 0 (-1) 0 with
    | none => (0, false)
    | some score => (score - minInt (Int.tdiv (t.length : Int) 8) 6, true)

/-- Reference library used to evaluate concrete inputs; the theorems about
all inputs take the library as a parameter `L` and do not depend on it.
It agrees with the real libraries on the inputs it is evaluated on, and only
there:
* `toLower` is `Char.toLower`, which lower-cases the ASCII letters `A`..`Z`
  only; `unicode.ToLower` agrees with it on ASCII text.
* `sanitize` is the identity, as the sanitizer of `textinput` is on text
  without tabs, line breaks and control characters.
* `inputUpdate` inserts the runes of a key at the cursor up to `CharLimit`
  and deletes the rune before the cursor on `backspace`; the keys that move
  the cursor or delete words are not modelled, and the runs evaluated with
  this library type runes and `backspace` only.
* `spinnerUpdate` advances one frame per tick. -/
def refLib : Lib where
  toLower := Char.toLower
  sanitize := id
  sanitize_nil := rfl
  inputUpdate := fun ti msg =>
    match msg with
    | .key k =>
      if k.name = "backspace" then
        ({ ti with value := ti.value.take (ti.pos - 1) ++ ti.value.drop ti.pos, pos := ti.pos - 1 },
          decide (0 < ti.pos))
      else
        let room := if ti.charLimit = 0 then k.runes.length else ti.charLimit - ti.value.length
        let ins := k.runes.take room
        ({ ti with value := ti.value.take ti.pos ++ ins ++ ti.value.drop ti.pos,
                   pos := ti.pos + ins.length }, decide (ins ≠ []))
    | _ => (ti, false)
  spinnerUpdate := fun sp _ => (sp + 1, true)

/-! ## The backend capability -/

/-- Go `type Backend interface` of `data.go`, as the answers its methods give
while one command runs: a value-and-error pair for each query, an error for
each mutation. -/
structure Backend where
  Whoami : Option WhoamiData × Option String
  ListDomains : List Domain × Option String
  GetDomain : String → Option Domain × Option String
  DeleteDomain : String → Option String
  ListZones : List Zone × Option String
  GetZone : String → Option Zone × Option String
  GetZoneFile : String → String × Option String
  CheckZoneDistribution : String → Bool × Option String
  ActivateZoneDNS : String → Option String
  DeactivateZoneDNS : String → Option String
  ListRecords : String → List ZoneRecord × Option String
  GetRecord : String → Int → Option ZoneRecord × Option String
  CheckRecordDistribution : String → Int → Bool × Option String
  DeleteRecord : String → Int → Option String

/-! ## domain_dashboard.go -/

/-- Go `type confirmModal struct`. -/
structure confirmModal where
  visible : Bool
  busy : Bool
  action : confirmMutation
  title : String
  body : String
  input : TextInput
  errMsg : String
deriving DecidableEq, Repr

/-- Go `type DomainDashboardModel struct`; the field `section` is `sectionId`
here and `spinner` is the abstract spinner state. -/
structure DomainDashboardModel where
  width : Int
  height : Int
  domain : String
  sectionId : domainDashSection
  loading : Bool
  spinner : Nat
  errMsg : String
  status : String
  warnings : List String
  dataDomain : Option Domain
  dataZone : Option Zone
  records : List ZoneRecord
  selectedRecord : Int
  recordDetail : Option ZoneRecord
  diagTitle : String
  diagBody : String
  selectedAction : Int
  modal : confirmModal
deriving DecidableEq, Repr

/-- The Go zero value of `DomainDashboardModel` (the `domainDash` field of a
new `BrowserModel`). -/
def DomainDashboardModel.zero : DomainDashboardModel where
  width := 0
  height := 0
  domain := ""
  sectionId := .domainSectionOverview
  loading := false
  spinner := 0
  errMsg := ""
  status := ""
  warnings := []
  dataDomain := none
  dataZone := none
  records := []
  selectedRecord := 0
  recordDetail := none
  diagTitle := ""
  diagBody := ""
  selectedAction := 0
  modal := { visible := false, busy := false, action := .mutationNone, title := "", body := "",
             input := TextInput.new 0, errMsg := "" }

/-- Go `NewDomainDashboardModel(domain)`. -/
def NewDomainDashboardModel (domain : String) : DomainDashboardModel :=
  { DomainDashboardModel.zero with
    domain := domain
    modal := { DomainDashboardModel.zero.modal with input := TextInput.new 64 } }

/-- Go `(*DomainDashboardModel).loadDashboardCmd()`: the closure captures `m.domain`. -/
def DomainDashboardModel.loadDashboardCmd (m : DomainDashboardModel) : Cmd :=
  [CmdAtom.loadDashboard m.domain]

/-- The closure returned by `loadDashboardCmd`, run against a backend. -/
def runLoadDashboard (b : Backend) (domain : String) : domainDashboardLoadedMsg :=
  let (dataDomain, err) := b.GetDomain domain
  if err.isSome then { domain := none, zone := none, records := [], warnings := [], err := err }
  else
    let (respZone, errZ) := b.GetZone domain
    match errZ with
    | some e =>
      { domain := dataDomain, zone := none, records := [],
        warnings := [] ++ ["zone unavailable: " ++ e], err := none }
    | none =>
      let (respRecords, errR) := b.ListRecords domain
      match errR with
      | some e =>
        { domain := dataDomain, zone := respZone, records := [],
          warnings := [] ++ ["records unavailable: " ++ e], err := none }
      | none =>
        { domain := dataDomain, zone := respZone, records := respRecords, warnings := [], err := none }

/-- Go `(*DomainDashboardModel).Init()`. -/
def DomainDashboardModel.Init (m : DomainDashboardModel) : DomainDashboardModel × Cmd :=
  let m := { m with loading := true, errMsg := "", status := "" }
  (m, teaBatch [[CmdAtom.spinnerTick], m.loadDashboardCmd])

/-- Go `(*DomainDashboardModel).SetSize(width, height)`. -/
def DomainDashboardModel.SetSize (m : DomainDashboardModel) (width height : Int) :
    DomainDashboardModel :=
  { m with width := width, height := height }

/-- Go `(*DomainDashboardModel).selectedRecordPtr()`. -/
def DomainDashboardModel.selectedRecordPtr (m : DomainDashboardModel) : Option ZoneRecord :=
  if m.selectedRecord < 0 ∨ m.selectedRecord ≥ (m.records.length : Int) then none
  else m.records[m.selectedRecord.toNat]?

/-- Go `(*DomainDashboardModel).ModalVisible()`. -/
def DomainDashboardModel.ModalVisible (m : DomainDashboardModel) : Bool := m.modal.visible

/-- Go `(*DomainDashboardModel).BlocksGlobalKeys()`. -/
def DomainDashboardModel.BlocksGlobalKeys (m : DomainDashboardModel) : Bool := m.modal.visible

/-- Go `type dashboardAction struct`. -/
structure dashboardAction where
  ID : String
  Label : String
  Hint : String
  Enabled : Bool
  DisabledReason : String
deriving DecidableEq, Repr

/-- Go `(*DomainDashboardModel).availableActions()`. -/
def DomainDashboardModel.availableActions (m : DomainDashboardModel) : List dashboardAction :=
  let recAvailable := m.selectedRecordPtr.isSome
  let zoneAvailable := m.dataZone.isSome
  [ { ID := "refresh", Label := "Refresh dashboard", Hint := "Reload domain, zone, and records",
      Enabled := true, DisabledReason := "" },
    { ID := "zone_file", Label := "Fetch zone file", Hint := "Read-only",
      Enabled := zoneAvailable, DisabledReason := "Zone unavailable" },
    { ID := "zone_distribution", Label := "Check zone distribution", Hint := "Read-only",
      Enabled := zoneAvailable, DisabledReason := "Zone unavailable" },
    { ID := "zone_activate", Label := "Activate DNS for zone", Hint := "Mutation (confirm required)",
      Enabled := zoneAvailable, DisabledReason := "Zone unavailable" },
    { ID := "zone_deactivate", Label := "Deactivate DNS for zone",
      Hint := "Mutation (confirm required)", Enabled := zoneAvailable,
      DisabledReason := "Zone unavailable" },
    { ID := "delete_record", Label := "Delete selected record", Hint := "Mutation (confirm required)",
      Enabled := recAvailable, DisabledReason := "Select a record first" },
    { ID := "delete_domain", Label := "Delete domain", Hint := "Mutation (confirm required)",
      Enabled := true, DisabledReason := "" } ]

/-- Go `(*DomainDashboardModel).moveSelection(delta)`. -/
def DomainDashboardModel.moveSelection (m : DomainDashboardModel) (delta : Int) :
    DomainDashboardModel :=
  match m.sectionId with
  | .domainSectionRecords =>
    if m.records.length = 0 then m
    else { m with selectedRecord :=
             minInt (maxInt 0 (m.selectedRecord + delta)) ((m.records.length : Int) - 1) }
  | .domainSectionActions =>
    if m.availableActions.length = 0 then m
    else { m with selectedAction :=
             minInt (maxInt 0 (m.selectedAction + delta)) ((m.availableActions.length : Int) - 1) }
  | _ => m

/-- Go `(*DomainDashboardModel).mutationTargetSummary(action)`. -/
def DomainDashboardModel.mutationTargetSummary (m : DomainDashboardModel)
    (action : confirmMutation) : String :=
  let lines : List String :=
    match action with
    | .mutationZoneActivate | .mutationZoneDeactivate => ["Target zone:", "  " ++ m.domain]
    | .mutationDeleteDomain => ["Target domain:", "  " ++ m.domain]
    | .mutationDeleteRecord =>
      match m.selectedRecordPtr with
      | none => ["Target record: (none selected)"]
      | some rec =>
        let name := if rec.Name = "" then "@" else rec.Name
        ["Target record:", "  " ++ rec.Type_ ++ " " ++ name ++ "." ++ m.domain,
          "  ID: " ++ toString rec.ID]
    | .mutationNone => []
  "\n".intercalate lines

/-- Go `(*DomainDashboardModel).openConfirm(action, title, body)`. -/
def DomainDashboardModel.openConfirm (L : Lib) (m : DomainDashboardModel)
    (action : confirmMutation) (title body : String) : DomainDashboardModel :=
  let target := m.mutationTargetSummary action
  { m with modal :=
      { visible := true
        busy := false
        action := action
        title := title
        body := if target ≠ "" then body ++ "\n\n" ++ target else body
        errMsg := ""
        input := (m.modal.input.SetValue L []).Focus } }

/-- Go `(*DomainDashboardModel).mutationCmd()`: the closure captures the
pending action, the domain and the id of the currently selected record
(`0` when there is none). -/
def DomainDashboardModel.mutationCmd (m : DomainDashboardModel) : Cmd :=
  let recordID : Int := match m.selectedRecordPtr with
    | some rec => rec.ID
    | none => 0
  [CmdAtom.mutation m.modal.action m.domain recordID]

/-- The closure returned by `mutationCmd`, run against a backend. -/
def runMutation (b : Backend) (action : confirmMutation) (domain : String) (recordID : Int) :
    domainDashboardMutationMsg :=
  match action with
  | .mutationZoneActivate =>
    { kind := "zone_activate", domain := "", status := "Zone DNS activated.", reload := true,
      exit := false, err := wrapErr "failed to activate zone" (b.ActivateZoneDNS domain) }
  | .mutationZoneDeactivate =>
    { kind := "zone_deactivate", domain := "", status := "Zone DNS deactivated.", reload := true,
      exit := false, err := wrapErr "failed to deactivate zone" (b.DeactivateZoneDNS domain) }
  | .mutationDeleteRecord =>
    { kind := "delete_record", domain := "",
      status := "Record " ++ toString recordID ++ " deleted.", reload := true, exit := false,
      err := wrapErr "failed to delete record" (b.DeleteRecord domain recordID) }
  | .mutationDeleteDomain =>
    { kind := "delete_domain", domain := domain, status := "Domain deleted.", reload := false,
      exit := (b.DeleteDomain domain).isNone,
      err := wrapErr "failed to delete domain" (b.DeleteDomain domain) }
  | .mutationNone =>
    { kind := "", domain := "", status := "", reload := false, exit := false,
      err := some "unsupported mutation" }

/-- Go `(*DomainDashboardModel).handleEnter()`; `none` is the panic of
`actions[m.selectedAction]` on a negative index. -/
def DomainDashboardModel.handleEnter (L : Lib) (m : DomainDashboardModel) :
    Option (DomainDashboardModel × Cmd) :=
  match m.sectionId with
  | .domainSectionRecords =>
    match m.selectedRecordPtr with
    | none => some (m, [])
    | some rec =>
      some ({ m with loading := true },
        teaBatch [[CmdAtom.spinnerTick], [CmdAtom.dashRecordDetail m.domain rec.ID]])
  | .domainSectionActions =>
    let actions := m.availableActions
    if actions.length = 0 ∨ m.selectedAction ≥ (actions.length : Int) then some (m, [])
    else
      match index? actions m.selectedAction with
      | none => none
      | some act =>
        if act.Enabled = false then some ({ m with errMsg := act.DisabledReason }, [])
        else if act.ID = "refresh" then
          let m := { m with loading := true, errMsg := "" }
          some (m, teaBatch [[CmdAtom.spinnerTick], m.loadDashboardCmd])
        else if act.ID = "zone_file" then
          some ({ m with sectionId := .domainSectionDiagnostics, loading := true },
            teaBatch [[CmdAtom.spinnerTick], [CmdAtom.dashZoneFile m.domain]])
        else if act.ID = "zone_distribution" then
          some ({ m with sectionId := .domainSectionDiagnostics, loading := true },
            teaBatch [[CmdAtom.spinnerTick], [CmdAtom.dashZoneDistribution m.domain]])
        else if act.ID = "zone_activate" then
          some (m.openConfirm L .mutationZoneActivate "Activate Zone DNS"
            "This will activate DNS services for this zone.", [CmdAtom.textinputBlink])
        else if act.ID = "zone_deactivate" then
          some (m.openConfirm L .mutationZoneDeactivate "Deactivate Zone DNS"
            "This will deactivate DNS services for this zone.", [CmdAtom.textinputBlink])
        else if act.ID = "delete_record" then
          some (m.openConfirm L .mutationDeleteRecord "Delete Record"
            "This will permanently delete the selected record.", [CmdAtom.textinputBlink])
        else if act.ID = "delete_domain" then
          some (m.openConfirm L .mutationDeleteDomain "Delete Domain"
            "This will permanently delete the domain from your account.", [CmdAtom.textinputBlink])
        else some (m, [])
  | _ => some (m, [])

/-- Go `(*DomainDashboardModel).updateModal(msg)`; it is only called with a
key or a spinner tick. -/
def DomainDashboardModel.updateModal (L : Lib) (m : DomainDashboardModel) (msg : Msg) :
    DomainDashboardModel × Cmd :=
  match msg with
  | .key k =>
    if keyMatches k keys.Back = true ∧ m.modal.busy = false then
      ({ m with modal := { m.modal with visible := false, errMsg := "", input := m.modal.input.Blur } },
        [])
    else if keyMatches k keys.Enter = true ∧ m.modal.busy = false then
      if trimSpace m.modal.input.value ≠ "confirm".data then
        ({ m with modal := { m.modal with errMsg := "Type confirm to proceed" } }, [])
      else
        let m := { m with modal := { m.modal with busy := true, errMsg := "" } }
        (m, teaBatch [[CmdAtom.spinnerTick], m.mutationCmd])
    else
      ({ m with modal := { m.modal with input := (m.modal.input.Update L msg).1 } },
        (m.modal.input.Update L msg).2)
  | .spinnerTick payload =>
    if m.modal.busy = true then
      ({ m with spinner := (spinnerUpdate L m.spinner payload).1 },
        (spinnerUpdate L m.spinner payload).2)
    else (m, [])
  | _ => (m, [])

/-- The `case tea.KeyMsg:` arm of `(*DomainDashboardModel).Update`, reached
when no modal is visible. -/
def DomainDashboardModel.updateKey (L : Lib) (m : DomainDashboardModel) (k : KeyMsg) :
    Option (DomainDashboardModel × Cmd) :=
  if m.loading = true then some (m, [])
  else if k.name = "o" ∨ k.name = "O" then
    some ({ m with sectionId := .domainSectionOverview }, [])
  else if k.name = "c" ∨ k.name = "C" then
    some ({ m with sectionId := .domainSectionRecords }, [])
  else if k.name = "z" ∨ k.name = "Z" then
    some ({ m with sectionId := .domainSectionZone }, [])
  else if k.name = "g" ∨ k.name = "G" then
    some ({ m with sectionId := .domainSectionDiagnostics }, [])
  else if k.name = "a" ∨ k.name = "A" then
    some ({ m with sectionId := .domainSectionActions }, [])
  else if k.name = "R" then
    let m := { m with loading := true, errMsg := "" }
    some (m, teaBatch [[CmdAtom.spinnerTick], m.loadDashboardCmd])
  else if k.name = "f" then
    some ({ m with sectionId := .domainSectionDiagnostics, loading := true },
      teaBatch [[CmdAtom.spinnerTick], [CmdAtom.dashZoneFile m.domain]])
  else if k.name = "x" then
    if m.sectionId = .domainSectionRecords then
      match m.selectedRecordPtr with
      | some rec =>
        some ({ m with loading := true },
          teaBatch [[CmdAtom.spinnerTick], [CmdAtom.dashRecordDistribution m.domain rec.ID]])
      | none => some (m, [])
    else
      some ({ m with sectionId := .domainSectionDiagnostics, loading := true },
        teaBatch [[CmdAtom.spinnerTick], [CmdAtom.dashZoneDistribution m.domain]])
  else if k.name = "D" ∧ m.sectionId = .domainSectionRecords ∧ m.selectedRecordPtr.isSome = true then
    some (m.openConfirm L .mutationDeleteRecord "Delete Record"
      "This will permanently delete the selected record from the zone.", [CmdAtom.textinputBlink])
  else if keyMatches k keys.Back = true then some (m, [CmdAtom.emit .domainDashboardExit])
  else if keyMatches k keys.Up = true then some (m.moveSelection (-1), [])
  else if keyMatches k keys.Down = true then some (m.moveSelection 1, [])
  else if keyMatches k keys.Enter = true then m.handleEnter L
  else some (m, [])

/-- The `case domainDashboardMutationMsg:` arm of `(*DomainDashboardModel).Update`. -/
def DomainDashboardModel.updateMutation (m : DomainDashboardModel)
    (msg : domainDashboardMutationMsg) : DomainDashboardModel × Cmd :=
  let m := { m with loading := false, modal := { m.modal with visible := false, busy := false } }
  match msg.err with
  | some e => ({ m with errMsg := e }, [])
  | none =>
    let m := { m with errMsg := "", status := msg.status }
    if msg.exit = true then (m, [CmdAtom.emit (.domainDashboardDeleted msg.domain)])
    else if msg.reload = true then
      let m := { m with loading := true }
      (m, teaBatch [[CmdAtom.spinnerTick], m.loadDashboardCmd])
    else (m, [])

/-- Go `strconv.FormatBool`. -/
def formatBool (b : Bool) : String := if b then "true" else "false"

/-- Go `(*DomainDashboardModel).Update(msg)`; `none` is a run-time panic. -/
def DomainDashboardModel.Update (L : Lib) (m : DomainDashboardModel) (msg : Msg) :
    Option (DomainDashboardModel × Cmd) :=
  match msg with
  | .key k =>
    if m.modal.visible = true then some (m.updateModal L msg) else m.updateKey L k
  | .spinnerTick payload =>
    if m.modal.visible = true then some (m.updateModal L msg)
    else if m.loading = true ∨ m.modal.busy = true then
      some ({ m with spinner := (spinnerUpdate L m.spinner payload).1 },
        (spinnerUpdate L m.spinner payload).2)
    else some (m, [])
  | .domainDashboardLoaded msg =>
    let m := { m with loading := false }
    match msg.err with
    | some e => some ({ m with errMsg := e }, [])
    | none =>
      let m := { m with errMsg := "", warnings := msg.warnings, dataDomain := msg.domain,
                        dataZone := msg.zone, records := msg.records }
      if m.selectedRecord ≥ (m.records.length : Int) then
        some ({ m with selectedRecord := maxInt 0 ((m.records.length : Int) - 1) }, [])
      else some (m, [])
  | .domainDashboardRecordDetail msg =>
    let m := { m with loading := false }
    match msg.err with
    | some e => some ({ m with errMsg := e }, [])
    | none =>
      some ({ m with errMsg := "", recordDetail := msg.record,
                     sectionId := .domainSectionRecords }, [])
  | .domainDashboardZoneFile msg =>
    let m := { m with loading := false }
    match msg.err with
    | some e => some ({ m with errMsg := e }, [])
    | none =>
      some ({ m with errMsg := "", sectionId := .domainSectionDiagnostics,
                     diagTitle := "Zone File", diagBody := msg.zoneFile }, [])
  | .domainDashboardZoneDistribution msg =>
    let m := { m with loading := false }
    match msg.err with
    | some e => some ({ m with errMsg := e }, [])
    | none =>
      let status := if msg.distributed = true then "Fully distributed" else "Not distributed yet"
      some ({ m with errMsg := "", sectionId := .domainSectionDiagnostics,
                     diagTitle := "Zone Distribution",
                     diagBody := "Distributed: " ++ formatBool msg.distributed
                       ++ "\nStatus: " ++ status }, [])
  | .domainDashboardRecordDistribution msg =>
    let m := { m with loading := false }
    match msg.err with
    | some e => some ({ m with errMsg := e }, [])
    | none =>
      let status := if msg.distributed = true then "Fully distributed" else "Not distributed yet"
      some ({ m with errMsg := "", sectionId := .domainSectionDiagnostics,
                     diagTitle := "Record " ++ toString msg.recordID ++ " Distribution",
                     diagBody := "Distributed: " ++ formatBool msg.distributed
                       ++ "\nStatus: " ++ status }, [])
  | .domainDashboardMutation msg => some (m.updateMutation msg)
  | _ => some (m, [])

/-! ## browser.go: the Resource Browser -/

/-- Go `sort.SliceStable(xs, less)`: the library promises a sorted result
that keeps the original order of elements neither of which is `less` than
the other; for the strict weak order passed here that result is unique, and
it is the one stable insertion sort computes. -/
def sortSliceStable {α : Type} (less : α → α → Bool) (xs : List α) : List α :=
  List.insertionSort (fun a b => less b a = false) xs

/-- Go `type domainSearchMatch struct`. -/
structure domainSearchMatch where
  itemIndex : Int
  score : Int
deriving DecidableEq, Repr

/-- Go `type domainSearchModal struct`; the field `matches` (a reserved word
in Lean) is `matchList`. -/
structure domainSearchModal where
  visible : Bool
  input : TextInput
  selected : Int
  matchList : List domainSearchMatch
deriving DecidableEq, Repr

/-- Go `type BrowserModel struct`. -/
structure BrowserModel where
  width : Int
  height : Int
  category : category
  screen : browserScreen
  selected : Int
  items : List browserItem
  spinner : Nat
  loading : Bool
  errMsg : String
  listHeader : String
  statusMsg : String
  detailTitle : String
  detailBody : String
  recordsZone : String
  domainDash : DomainDashboardModel
  search : domainSearchModal
deriving DecidableEq, Repr

/-- Go `(category).Label()`. -/
def category.Label (c : category) : String :=
  match c with
  | .categoryDomains => "Domains"
  | .categoryZones => "Zones"
  | .categoryRecords => "Records"

/-- Go `newDomainSearchInput()`. -/
def newDomainSearchInput : TextInput := TextInput.new 200

/-- Go `NewBrowserModel(cat)`. -/
def NewBrowserModel (cat : category) : BrowserModel where
  width := 0
  height := 0
  category := cat
  screen := match cat with
    | .categoryZones => .browserZonesList
    | .categoryRecords => .browserRecordsZones
    | .categoryDomains => .browserDomainsList
  selected := 0
  items := []
  spinner := 0
  loading := false
  errMsg := ""
  listHeader := cat.Label
  statusMsg := ""
  detailTitle := ""
  detailBody := ""
  recordsZone := ""
  domainDash := DomainDashboardModel.zero
  search := { visible := false, input := newDomainSearchInput, selected := 0, matchList := [] }

/-- Go `(BrowserModel).loadListCmd()`: the closure captures category, screen
and records zone. -/
def BrowserModel.loadListCmd (m : BrowserModel) : Cmd :=
  [CmdAtom.loadList m.category m.screen m.recordsZone]

/-- Go `(BrowserModel).loadDetailCmd()`; `none` is the panic of `m.items[m.selected]`. -/
def BrowserModel.loadDetailCmd (m : BrowserModel) : Option Cmd :=
  if m.items.length = 0 then some []
  else (index? m.items m.selected).map
    (fun item => [CmdAtom.loadDetail item m.category m.screen m.recordsZone])

/-- Go `(BrowserModel).loadZoneFileCmd()`. -/
def BrowserModel.loadZoneFileCmd (m : BrowserModel) : Option Cmd :=
  if m.items.length = 0 then some []
  else (index? m.items m.selected).map (fun item => [CmdAtom.loadZoneFile item])

/-- Go `(BrowserModel).loadZoneDistributionCmd()`. -/
def BrowserModel.loadZoneDistributionCmd (m : BrowserModel) : Option Cmd :=
  if m.items.length = 0 then some []
  else (index? m.items m.selected).map (fun item => [CmdAtom.loadZoneDistribution item])

/-- Go `(BrowserModel).loadRecordDistributionCmd()`. -/
def BrowserModel.loadRecordDistributionCmd (m : BrowserModel) : Option Cmd :=
  if m.items.length = 0 ∨ m.recordsZone = "" then some []
  else (index? m.items m.selected).map
    (fun item => [CmdAtom.loadRecordDistribution m.recordsZone item])

/-- Go `(*BrowserModel).Init()`. -/
def BrowserModel.Init (m : BrowserModel) : BrowserModel × Cmd :=
  let m := { m with loading := true, errMsg := "" }
  (m, teaBatch [[CmdAtom.spinnerTick], m.loadListCmd])

/-- Go `(*BrowserModel).SetSize(width, height)`. -/
def BrowserModel.SetSize (m : BrowserModel) (width height : Int) : BrowserModel :=
  { m with width := width, height := height, domainDash := m.domainDash.SetSize width height }

/-- Go `(BrowserModel).defaultHeader()`. -/
def BrowserModel.defaultHeader (m : BrowserModel) : String :=
  if m.category = .categoryRecords ∧ m.screen = .browserRecordsList ∧ m.recordsZone ≠ "" then
    "Records / " ++ m.recordsZone
  else if m.category = .categoryRecords ∧ m.screen = .browserRecordsZones then "Records / Zones"
  else m.category.Label

/-- Go `(*BrowserModel).BlocksGlobalKeys()`. -/
def BrowserModel.BlocksGlobalKeys (m : BrowserModel) : Bool :=
  if m.search.visible = true then true
  else decide (m.category = .categoryDomains) && decide (m.screen = .browserDomainDashboard)
    && m.domainDash.ModalVisible

/-- The `for i, item := range m.items` loop of `updateSearchMatches`, from
index `i` on. -/
def collectMatches (L : Lib) (query : String) : List browserItem → Int → List domainSearchMatch
  | [], _ => []
  | item :: rest, i =>
    if (fuzzyScore L query item.Title).2 = true then
      { itemIndex := i, score := (fuzzyScore L query item.Title).1 }
        :: collectMatches L query rest (i + 1)
    else collectMatches L query rest (i + 1)

/-- Go `a < b` on strings: byte-wise on UTF-8, which is the lexicographic
order of the code points. -/
def runesLt (a b : List Char) : Prop := List.Lex (· < ·) a b

instance runesLt.decidable (a b : List Char) : Decidable (runesLt a b) :=
  inferInstanceAs (Decidable (List.Lex (· < ·) a b))

/-- The text `strings.ToLower(m.items[i].Title)` read by the comparison
function of `updateSearchMatches` (every index it is asked for is valid). -/
def lowerTitleAt (L : Lib) (items : List browserItem) (i : Int) : List Char :=
  match index? items i with
  | some item => toLower L item.Title.data
  | none => []

/-- The `less` closure handed to `sort.SliceStable` in `updateSearchMatches`. -/
def searchLess (L : Lib) (items : List browserItem) (a b : domainSearchMatch) : Bool :=
  if a.score = b.score then
    decide (runesLt (lowerTitleAt L items a.itemIndex) (lowerTitleAt L items b.itemIndex))
  else decide (a.score > b.score)

/-- Go `(*BrowserModel).updateSearchMatches()`. -/
def BrowserModel.updateSearchMatches (L : Lib) (m : BrowserModel) : BrowserModel :=
  if m.category ≠ .categoryDomains ∨ m.screen ≠ .browserDomainsList then
    { m with search := { m.search with matchList := [], selected := 0 } }
  else
    let query := String.mk (trimSpace m.search.input.value)
    let found := collectMatches L query m.items 0
    let sorted := sortSliceStable (searchLess L m.items) found
    if sorted.length = 0 then { m with search := { m.search with matchList := sorted, selected := 0 } }
    else
      let sel := if m.search.selected ≥ (sorted.length : Int) then (sorted.length : Int) - 1
                 else m.search.selected
      let sel := if sel < 0 then 0 else sel
      { m with search := { m.search with matchList := sorted, selected := sel } }

/-- Go `(*BrowserModel).openSearchModal()`. -/
def BrowserModel.openSearchModal (L : Lib) (m : BrowserModel) : BrowserModel :=
  let m := { m with search := { m.search with visible := true, selected := 0,
                                              input := (m.search.input.SetValue L []).Focus } }
  m.updateSearchMatches L

/-- Go `(*BrowserModel).closeSearchModal()`. -/
def BrowserModel.closeSearchModal (m : BrowserModel) : BrowserModel :=
  { m with search := { m.search with visible := false, selected := 0, matchList := [],
                                      input := m.search.input.Blur } }

/-- Go `(*BrowserModel).OpenSearch()`. -/
def BrowserModel.OpenSearch (L : Lib) (m : BrowserModel) : BrowserModel × Cmd :=
  if m.category ≠ .categoryDomains then (m, [])
  else
    let m := { m with screen := .browserDomainsList, detailTitle := "", detailBody := "" }
    (m.openSearchModal L, [CmdAtom.textinputBlink])

/-- The shared tail of `handleEnter` and of the Enter arm of
`updateSearchModal`: build a dashboard for `item`, size it, switch screen and
run its `Init`. -/
def BrowserModel.openDashboard (m : BrowserModel) (item : browserItem) : BrowserModel × Cmd :=
  let dash := (NewDomainDashboardModel item.Key).SetSize m.width m.height
  ({ m with domainDash := dash.Init.1, screen := .browserDomainDashboard }, dash.Init.2)

/-- Go `(*BrowserModel).updateSearchModal(msg)`; `none` is the panic of
`m.search.matches[m.search.selected]`. -/
def BrowserModel.updateSearchModal (L : Lib) (m : BrowserModel) (k : KeyMsg) :
    Option (BrowserModel × Cmd) :=
  if k.name = "/" then some (m, [])
  else if k.name = "esc" then some (m.closeSearchModal, [])
  else if k.name = "up" then
    if m.search.selected > 0 then
      some ({ m with search := { m.search with selected := m.search.selected - 1 } }, [])
    else some (m, [])
  else if k.name = "down" then
    if m.search.selected < (m.search.matchList.length : Int) - 1 then
      some ({ m with search := { m.search with selected := m.search.selected + 1 } }, [])
    else some (m, [])
  else if keyMatches k keys.Enter = true then
    if m.search.matchList.length = 0 then some (m, [])
    else
      match index? m.search.matchList m.search.selected with
      | none => none
      | some mt =>
        let m := ({ m with selected := mt.itemIndex }).closeSearchModal
        if m.category = .categoryDomains ∧ m.screen = .browserDomainsList ∧ m.selected ≥ 0
            ∧ m.selected < (m.items.length : Int) then
          (index? m.items m.selected).map (fun item => m.openDashboard item)
        else some (m, [])
  else
    let r := m.search.input.Update L (.key k)
    some (({ m with search := { m.search with input := r.1 } }).updateSearchMatches L, r.2)

/-- Go `(*BrowserModel).handleEnter()`; `none` is the panic of `m.items[m.selected]`. -/
def BrowserModel.handleEnter (m : BrowserModel) : Option (BrowserModel × Cmd) :=
  if m.items.length = 0 then some (m, [])
  else if m.category = .categoryRecords ∧ m.screen = .browserRecordsZones then
    (index? m.items m.selected).map (fun item =>
      let m := { m with recordsZone := item.Key, screen := .browserRecordsList, selected := 0,
                        detailTitle := "", detailBody := "", errMsg := "", loading := true }
      (m, teaBatch [[CmdAtom.spinnerTick], m.loadListCmd]))
  else if m.category = .categoryDomains ∧ m.screen = .browserDomainsList then
    (index? m.items m.selected).map (fun item => m.openDashboard item)
  else
    let m := { m with errMsg := "", loading := true }
    m.loadDetailCmd.map (fun c => (m, teaBatch [[CmdAtom.spinnerTick], c]))

/-- The `case tea.KeyMsg:` arm of `(*BrowserModel).Update`, reached when the
search modal is hidden and no dashboard is shown. -/
def BrowserModel.updateKey (L : Lib) (m : BrowserModel) (k : KeyMsg) : Option (BrowserModel × Cmd) :=
  if m.loading = true then some (m, [])
  else if keyMatches k keys.Up = true then
    if m.selected > 0 then some ({ m with selected := m.selected - 1 }, []) else some (m, [])
  else if keyMatches k keys.Down = true then
    if m.selected < (m.items.length : Int) - 1 then some ({ m with selected := m.selected + 1 }, [])
    else some (m, [])
  else if keyMatches k keys.Enter = true then m.handleEnter
  else if keyMatches k keys.Back = true then
    if m.category = .categoryRecords ∧ m.screen = .browserRecordsList then
      let m := { m with screen := .browserRecordsZones, recordsZone := "", selected := 0,
                        detailTitle := "", detailBody := "", errMsg := "", loading := true }
      some (m, teaBatch [[CmdAtom.spinnerTick], m.loadListCmd])
    else some (m, [CmdAtom.emit .browserBack])
  else if k.name = "r" then
    let m := { m with detailTitle := "", detailBody := "", errMsg := "", loading := true }
    some (m, teaBatch [[CmdAtom.spinnerTick], m.loadListCmd])
  else if k.name = "/" then
    if m.category = .categoryDomains ∧ m.screen = .browserDomainsList ∧ 0 < m.items.length then
      some (m.openSearchModal L, [CmdAtom.textinputBlink])
    else some (m, [])
  else if k.name = "f" then
    if m.category = .categoryZones ∧ m.screen = .browserZonesList ∧ 0 < m.items.length then
      let m := { m with errMsg := "", loading := true }
      m.loadZoneFileCmd.map (fun c => (m, teaBatch [[CmdAtom.spinnerTick], c]))
    else some (m, [])
  else if k.name = "x" then
    if m.items.length = 0 then some (m, [])
    else if m.category = .categoryZones ∧ m.screen = .browserZonesList then
      let m := { m with errMsg := "", loading := true }
      m.loadZoneDistributionCmd.map (fun c => (m, teaBatch [[CmdAtom.spinnerTick], c]))
    else if m.category = .categoryRecords ∧ m.screen = .browserRecordsList then
      let m := { m with errMsg := "", loading := true }
      m.loadRecordDistributionCmd.map (fun c => (m, teaBatch [[CmdAtom.spinnerTick], c]))
    else some (m, [])
  else some (m, [])

/-- The `case browserListLoadedMsg:` arm of `(*BrowserModel).Update`. -/
def BrowserModel.updateListLoaded (L : Lib) (m : BrowserModel) (msg : browserListLoadedMsg) :
    BrowserModel :=
  let m := { m with loading := false }
  match msg.err with
  | some e => { m with errMsg := e, items := [], listHeader := m.defaultHeader }
  | none =>
    let m := { m with errMsg := "", items := msg.items, listHeader := msg.header,
                      statusMsg := msg.statusMsg }
    let m := if m.search.visible = true then m.updateSearchMatches L else m
    if m.items.length = 0 then { m with selected := 0 }
    else if m.selected ≥ (m.items.length : Int) then { m with selected := (m.items.length : Int) - 1 }
    else m

/-- Go `(*BrowserModel).Update(msg)`; `none` is a run-time panic. -/
def BrowserModel.Update (L : Lib) (m : BrowserModel) (msg : Msg) : Option (BrowserModel × Cmd) :=
  match m.search.visible, msg with
  | true, .key k => m.updateSearchModal L k
  | _, _ =>
    if m.category = .categoryDomains ∧ m.screen = .browserDomainDashboard then
      match msg with
      | .domainDashboardExit => some ({ m with screen := .browserDomainsList }, [])
      | .domainDashboardDeleted domain =>
        let m := { m with screen := .browserDomainsList,
                          statusMsg := "Domain \x27" ++ domain ++ "\x27 deleted.",
                          detailTitle := "", detailBody := "", loading := true }
        some (m, teaBatch [[CmdAtom.spinnerTick], m.loadListCmd])
      | _ => (m.domainDash.Update L msg).map (fun r => ({ m with domainDash := r.1 }, r.2))
    else
      match msg with
      | .key k => m.updateKey L k
      | .browserListLoaded msg => some (m.updateListLoaded L msg, [])
      | .browserDetailLoaded msg =>
        let m := { m with loading := false }
        match msg.err with
        | some e => some ({ m with errMsg := e }, [])
        | none => some ({ m with errMsg := "", detailTitle := msg.title, detailBody := msg.body }, [])
      | .spinnerTick payload =>
        if m.loading = true then
          some ({ m with spinner := (spinnerUpdate L m.spinner payload).1 },
            (spinnerUpdate L m.spinner payload).2)
        else some (m, [])
      | _ => some (m, [])

/-! ### The matching and scoring rules in the words of the specification -/

/-- The leftmost (greedy) positions `p1 < ... < pk` of the query characters
in the candidate `t`: `p1` is the first index at or after `start` holding the
first query character, and each next position is the first index after the
previous one holding the next character.  `none` when some character cannot
be placed. -/
def greedyPositions (t : List Char) : List Char → Nat → Option (List Nat)
  | [], _ => some []
  | qc :: qs, start =>
    let i := (t.drop start).indexOf qc
    if i < (t.drop start).length then
      (greedyPositions t qs (start + i + 1)).map (fun ps => (start + i) :: ps)
    else none

/-- The character before position `p` of `t` is one of `.`, `-`, `_`. -/
def afterSeparator (t : List Char) (p : Nat) : Bool :=
  decide (0 < p) && (t[p - 1]? == some '.' || t[p - 1]? == some '-' || t[p - 1]? == some '_')

/-- Adjacency term of two consecutive match positions `a < b`: `+10` when
adjacent, otherwise minus `min(gap, 6)` with `gap = b - a - 1`. -/
def adjacency (a b : Nat) : Int :=
  if b = a + 1 then 10 else -(min ((b : Int) - a - 1) 6)

/-- The score the specification assigns to match positions `ps` in a
candidate `t` of `t.length` characters. -/
def positionsScore (t : List Char) (ps : List Nat) : Int :=
  10 * (ps.length : Int)
    + (if ps.head? = some 0 then 12 else 0)
    + 8 * ((ps.countP (afterSeparator t) : Nat) : Int)
    + ((ps.zip ps.tail).map (fun ab => adjacency ab.1 ab.2)).sum
    - min ((t.length : Int) / 8) 6

/-- The specified score of a query (given as typed, as runes) against a
candidate label: `0` for the empty query, otherwise `positionsScore` at the
greedy positions of the lower-cased query in the lower-cased candidate;
`none` when the query is not a subsequence. -/
def specScore (L : Lib) (query : List Char) (target : String) : Option Int :=
  if toLower L query = [] then some 0
  else (greedyPositions (toLower L target.data) (toLower L query) 0).map
    (positionsScore (toLower L target.data))

/-- The ranking order of the specification between two matches: `a` may
stand before `b` when its score is higher, or the scores are equal and the
lower-case title of `a` is not after that of `b`. -/
def rankedBefore (L : Lib) (items : List browserItem) (a b : domainSearchMatch) : Prop :=
  a.score > b.score ∨
    (a.score = b.score ∧
      ¬ runesLt (lowerTitleAt L items b.itemIndex) (lowerTitleAt L items a.itemIndex))

/-! ### Concrete states used as witnesses -/

/-- A Domains browser holding two domains, `beta-labs.io` before `acme.dev`. -/
def twoDomains : BrowserModel :=
  { NewBrowserModel .categoryDomains with
    items := [ { Key := "beta-labs.io", Title := "beta-labs.io", Subtitle := "", ID := 2 },
               { Key := "acme.dev", Title := "acme.dev", Subtitle := "", ID := 1 } ] }

/-- The key event whose `String()` is `"enter"`. -/
def enterKey : KeyMsg := { name := "enter", runes := [] }

/-- A run of the Domains browser: the list loads, the user presses `r`
(reload in flight), opens the global search (the Shell calls `OpenSearch`
without looking at the loading flag), and the reload then fails. -/
def staleSearchRun : Option BrowserModel :=
  ((NewBrowserModel .categoryDomains).Update refLib
      (.browserListLoaded { screen := .browserDomainsList, header := "Domains (2)",
                            items := twoDomains.items, statusMsg := "", err := none })).bind
    fun r1 => ((r1.1.Update refLib (.key { name := "r", runes := [Char.ofNat 114] })).bind
      fun r2 => (((r2.1.OpenSearch refLib).1.Update refLib
        (.browserListLoaded { screen := .browserDomainsList, header := "", items := [],
                              statusMsg := "", err := some "network down" })).map
        fun r3 => r3.1))

/-- A command atom that runs a mutation of the backend. -/
def CmdAtom.isMutation : CmdAtom → Bool
  | .mutation _ _ _ => true
  | _ => false

/-- The dashboard of `acme.dev` with the delete-domain confirmation open and
`text` typed into its input. -/
def confirmOpen (text : String) : DomainDashboardModel :=
  let m := (NewDomainDashboardModel "acme.dev").openConfirm refLib .mutationDeleteDomain
    "Delete Domain" "This will permanently delete the domain from your account."
  { m with modal := { m.modal with input := { m.modal.input with value := text.data,
                                                                 pos := text.length } } }

/-- The state `confirmOpen "confirm"` after Enter: the modal is busy. -/
def confirmBusy : DomainDashboardModel :=
  { confirmOpen "confirm" with
    modal := { (confirmOpen "confirm").modal with busy := true } }

/-- The key event of typing the letter `x`. -/
def xKey : KeyMsg := { name := "x", runes := ['x'] }

/-- A backend on which every call succeeds (with empty answers). -/
def okBackend : Backend where
  Whoami := (none, none)
  ListDomains := ([], none)
  GetDomain := fun _ => (none, none)
  DeleteDomain := fun _ => none
  ListZones := ([], none)
  GetZone := fun _ => (none, none)
  GetZoneFile := fun _ => ("", none)
  CheckZoneDistribution := fun _ => (true, none)
  ActivateZoneDNS := fun _ => none
  DeactivateZoneDNS := fun _ => none
  ListRecords := fun _ => ([], none)
  GetRecord := fun _ _ => (none, none)
  CheckRecordDistribution := fun _ _ => (true, none)
  DeleteRecord := fun _ _ => none

/-- A backend on which every call fails with `"boom"`. -/
def failingBackend : Backend where
  Whoami := (none, some "boom")
  ListDomains := ([], some "boom")
  GetDomain := fun _ => (none, some "boom")
  DeleteDomain := fun _ => some "boom"
  ListZones := ([], some "boom")
  GetZone := fun _ => (none, some "boom")
  GetZoneFile := fun _ => ("", some "boom")
  CheckZoneDistribution := fun _ => (false, some "boom")
  ActivateZoneDNS := fun _ => some "boom"
  DeactivateZoneDNS := fun _ => some "boom"
  ListRecords := fun _ => ([], some "boom")
  GetRecord := fun _ _ => (none, some "boom")
  CheckRecordDistribution := fun _ _ => (false, some "boom")
  DeleteRecord := fun _ _ => some "boom"

/-- Adjacency terms accumulated by the loop, starting from `prev` (`-1`
before the first match). -/
def adjFrom : Int → List Nat → Int
  | _, [] => 0
  | prev, p :: ps =>
    (if prev ≥ 0 then (if (p : Int) - prev - 1 = 0 then 10 else -(min ((p : Int) - prev - 1) 6)) else 0)
      + adjFrom (p : Int) ps

/-- What the loop adds to `score` over the match positions `ps`. -/
def loopGain (tr : List Char) (prev : Int) (ps : List Nat) : Int :=
  10 * (ps.length : Int) + 12 * ((ps.count 0 : Nat) : Int)
    + 8 * ((ps.countP (afterSeparator tr) : Nat) : Int) + adjFrom prev ps

/-! ## home.go and help.go -/

/-- Go `type HomeModel struct` of `home.go`. -/
structure HomeModel where
  width : Int
  height : Int
  items : List category
  selected : Int
  whoami : Option WhoamiData
  loading : Bool
  errMsg : String
  spinner : Nat
deriving DecidableEq, Repr

/-- Go `NewHomeModel(whoami)`. -/
def NewHomeModel (whoami : Option WhoamiData) : HomeModel where
  width := 0
  height := 0
  items := [.categoryDomains, .categoryZones, .categoryRecords]
  selected := 0
  whoami := whoami
  loading := whoami.isNone
  errMsg := ""
  spinner := 0

/-- Go `(*HomeModel).Init()`. -/
def HomeModel.Init (m : HomeModel) : HomeModel × Cmd :=
  if m.loading = true then (m, teaBatch [[CmdAtom.spinnerTick], [CmdAtom.fetchWhoami]])
  else (m, [])

/-- Go `(*HomeModel).SetSize(width, height)`. -/
def HomeModel.SetSize (m : HomeModel) (width height : Int) : HomeModel :=
  { m with width := width, height := height }

/-- Go `(*HomeModel).Update(msg)`.  It indexes nothing itself and always
returns (the result is an `Option` like that of the other `Update`
functions); Enter returns the closure `homeNavigate`, which reads
`m.items[m.selected]` only when the runtime runs it. -/
def HomeModel.Update (L : Lib) (m : HomeModel) (msg : Msg) : Option (HomeModel × Cmd) :=
  match msg with
  | .key k =>
    if keyMatches k keys.Up = true then
      if m.selected > 0 then some ({ m with selected := m.selected - 1 }, []) else some (m, [])
    else if keyMatches k keys.Down = true then
      if m.selected < (m.items.length : Int) - 1 then
        some ({ m with selected := m.selected + 1 }, [])
      else some (m, [])
    else if keyMatches k keys.Enter = true then
      if 0 < m.items.length then some (m, [CmdAtom.homeNavigate]) else some (m, [])
    else some (m, [])
  | .homeWhoami msg =>
    let m := { m with loading := false }
    match msg.err with
    | some e => some ({ m with errMsg := e }, [])
    | none => some ({ m with whoami := msg.data, errMsg := "" }, [])
  | .spinnerTick payload =>
    if m.loading = true then
      some ({ m with spinner := (spinnerUpdate L m.spinner payload).1 },
        (spinnerUpdate L m.spinner payload).2)
    else some (m, [])
  | _ => some (m, [])

/-- The closure `func() tea.Msg { return navigateCategoryMsg{category:
m.items[m.selected]} }` run on the Home model as it is when the runtime runs
the command; `none` is the panic of the index. -/
def HomeModel.runNavigate (m : HomeModel) : Option Msg :=
  (index? m.items m.selected).map Msg.navigateCategory

/-- Go `type HelpModel struct` of `help.go`. -/
structure HelpModel where
  width : Int
  height : Int
deriving DecidableEq, Repr

/-- Go `NewHelpModel()`. -/
def NewHelpModel : HelpModel := { width := 0, height := 0 }

/-- Go `(*HelpModel).SetSize(width, height)`. -/
def HelpModel.SetSize (_m : HelpModel) (width height : Int) : HelpModel :=
  { width := width, height := height }

/-! ## shell.go -/

/-- Go `type shellTab int` of `shell.go`. -/
inductive shellTab where
  | tabHome
  | tabDomains
  | tabZones
  | tabRecords
  | tabHelp
deriving DecidableEq, Repr

/-- The `int` value of a tab (`iota` order). -/
def shellTab.toInt : shellTab → Int
  | .tabHome => 0
  | .tabDomains => 1
  | .tabZones => 2
  | .tabRecords => 3
  | .tabHelp => 4

/-- The conversion `shellTab(n)` for the values `0..4` the program computes. -/
def shellTab.ofInt (n : Int) : shellTab :=
  if n = 1 then .tabDomains
  else if n = 2 then .tabZones
  else if n = 3 then .tabRecords
  else if n = 4 then .tabHelp
  else .tabHome

/-- Go `len(shellTabs)`. -/
def shellTabsLen : Int := 5

/-- Go `type ShellModel struct`; the map `initialized` is the function
giving the value stored for each key (`false` when absent or when the map is
`nil`). -/
structure ShellModel where
  width : Int
  height : Int
  active : shellTab
  initialized : shellTab → Bool
  home : HomeModel
  domains : BrowserModel
  zones : BrowserModel
  records : BrowserModel
  help : HelpModel

/-- Go `NewShellModel(whoami)`. -/
def NewShellModel (whoami : Option WhoamiData) : ShellModel where
  width := 0
  height := 0
  active := .tabHome
  initialized := fun _ => false
  home := NewHomeModel whoami
  domains := NewBrowserModel .categoryDomains
  zones := NewBrowserModel .categoryZones
  records := NewBrowserModel .categoryRecords
  help := NewHelpModel

/-- Go `(*ShellModel).SetSize(width, height)`. -/
def ShellModel.SetSize (m : ShellModel) (width height : Int) : ShellModel :=
  { m with width := width, height := height,
           home := m.home.SetSize width height,
           domains := m.domains.SetSize width height,
           zones := m.zones.SetSize width height,
           records := m.records.SetSize width height,
           help := m.help.SetSize width height }

/-- Go `m.modelFor(tab).Init()`: `Init` of the model of `tab`, written back
into the Shell. -/
def ShellModel.initModel (m : ShellModel) (tab : shellTab) : ShellModel × Cmd :=
  match tab with
  | .tabDomains => ({ m with domains := m.domains.Init.1 }, m.domains.Init.2)
  | .tabZones => ({ m with zones := m.zones.Init.1 }, m.zones.Init.2)
  | .tabRecords => ({ m with records := m.records.Init.1 }, m.records.Init.2)
  | .tabHelp => (m, [])
  | .tabHome => ({ m with home := m.home.Init.1 }, m.home.Init.2)

/-- Go `(*ShellModel).initTab(tab)`. -/
def ShellModel.initTab (m : ShellModel) (tab : shellTab) : ShellModel × Cmd :=
  if m.initialized tab = true then (m, [])
  else
    ({ m with initialized := fun t => if t = tab then true else m.initialized t }).initModel tab

/-- Go `(*ShellModel).activate(tab)`. -/
def ShellModel.activate (m : ShellModel) (tab : shellTab) : ShellModel × Cmd :=
  ({ m with active := tab }).initTab tab

/-- Go `(*ShellModel).Init()`. -/
def ShellModel.Init (m : ShellModel) : ShellModel × Cmd := m.initTab .tabHome

/-- Go `(*ShellModel).nextTab()`. -/
def ShellModel.nextTab (m : ShellModel) : shellTab :=
  shellTab.ofInt (Int.tmod (m.active.toInt + 1) shellTabsLen)

/-- Go `(*ShellModel).prevTab()`. -/
def ShellModel.prevTab (m : ShellModel) : shellTab :=
  shellTab.ofInt (Int.tmod (m.active.toInt - 1 + shellTabsLen) shellTabsLen)

/-- Go `(*ShellModel).openGlobalDomainSearch()`: `initTab` runs before
`OpenSearch` (argument order of `tea.Batch`). -/
def ShellModel.openGlobalDomainSearch (L : Lib) (m : ShellModel) : ShellModel × Cmd :=
  let r1 := ({ m with active := .tabDomains }).initTab .tabDomains
  let r2 := r1.1.domains.OpenSearch L
  ({ r1.1 with domains := r2.1 }, teaBatch [r1.2, r2.2])

/-- Go `(*ShellModel).handleGlobalKeys(msg)`. -/
def ShellModel.handleGlobalKeys (L : Lib) (m : ShellModel) (k : KeyMsg) : ShellModel × Cmd :=
  if keyMatches k keys.TabNext = true then m.activate m.nextTab
  else if keyMatches k keys.TabPrev = true then m.activate m.prevTab
  else if k.name = "/" then m.openGlobalDomainSearch L
  else if k.name = "1" ∨ k.name = "h" then m.activate .tabHome
  else if k.name = "2" ∨ k.name = "d" then m.activate .tabDomains
  else if k.name = "3" ∨ k.name = "z" then m.activate .tabZones
  else if k.name = "4" ∨ k.name = "R" then m.activate .tabRecords
  else if k.name = "5" ∨ k.name = "?" then m.activate .tabHelp
  else (m, [])

/-- Go `(*ShellModel).BlocksGlobalKeys()`: only the browsers implement
`BlocksGlobalKeys`. -/
def ShellModel.BlocksGlobalKeys (m : ShellModel) : Bool :=
  match m.active with
  | .tabDomains => m.domains.BlocksGlobalKeys
  | .tabZones => m.zones.BlocksGlobalKeys
  | .tabRecords => m.records.BlocksGlobalKeys
  | .tabHelp => false
  | .tabHome => false

/-- Go `m.activeModel().Update(msg)`: `Update` of the model of the active
tab, written back into the Shell. -/
def ShellModel.updateActive (L : Lib) (m : ShellModel) (msg : Msg) : Option (ShellModel × Cmd) :=
  match m.active with
  | .tabDomains => (m.domains.Update L msg).map (fun r => ({ m with domains := r.1 }, r.2))
  | .tabZones => (m.zones.Update L msg).map (fun r => ({ m with zones := r.1 }, r.2))
  | .tabRecords => (m.records.Update L msg).map (fun r => ({ m with records := r.1 }, r.2))
  | .tabHelp => some (m, [])
  | .tabHome => (m.home.Update L msg).map (fun r => ({ m with home := r.1 }, r.2))

/-- The second half of `(*ShellModel).Update`: the `switch` on navigation
messages and the delegation to the active tab. -/
def ShellModel.updateRest (L : Lib) (m : ShellModel) (msg : Msg) : Option (ShellModel × Cmd) :=
  match msg with
  | .navigateCategory .categoryDomains => some (m.activate .tabDomains)
  | .navigateCategory .categoryZones => some (m.activate .tabZones)
  | .navigateCategory .categoryRecords => some (m.activate .tabRecords)
  | .browserBack => some (m.activate .tabHome)
  | _ => m.updateActive L msg

/-- Go `(*ShellModel).Update(msg)`: a global key whose handler returns a
command ends the update; when the handler returns `nil` the state it has
changed is kept and the message goes on to the rest of `Update`. -/
def ShellModel.Update (L : Lib) (m : ShellModel) (msg : Msg) : Option (ShellModel × Cmd) :=
  match msg with
  | .key k =>
    if m.BlocksGlobalKeys = false then
      if (m.handleGlobalKeys L k).2 ≠ [] then some (m.handleGlobalKeys L k)
      else (m.handleGlobalKeys L k).1.updateRest L msg
    else m.updateRest L msg
  | _ => m.updateRest L msg

/-! ## auth.go -/

/-- Go `type Config struct` of `config/config.go`. -/
structure Config where
  AccountID : String
  Sandbox : Bool
deriving DecidableEq, Repr

/-- What the file system and the `config` / `client` packages answer while
one `Update` of the wizard runs.
* `ResolveConfigDir path` is `config.ResolveConfigDir()` right after
  `config.SetConfigDir(path)`.
* `SaveToken token` and `Save cfg` are the errors of `config.SaveToken` and
  `config.Save`.
* `NewFromFlags` is `client.NewFromFlags(ctx, "", false)`: the resolved
  account id and the error. -/
structure Env where
  ResolveConfigDir : String → String × Option String
  SaveToken : String → Option String
  Save : Config → Option String
  NewFromFlags : String × Option String

/-- Go `type authStep int` of `auth.go`. -/
inductive authStep where
  | authStepWelcome
  | authStepConfigDir
  | authStepTokenInput
  | authStepValidating
  | authStepSuccess
  | authStepError
deriving DecidableEq, Repr

/-- Go `type AuthModel struct`. -/
structure AuthModel where
  step : authStep
  width : Int
  height : Int
  configDir : String
  pathInput : TextInput
  tokenInput : TextInput
  spinner : Nat
  validating : Bool
  validToken : String
  whoami : Option WhoamiData
  errMsg : String
  tokenHelpURL : String
deriving DecidableEq, Repr

/-- The Go zero value of `AuthModel` (the `auth` field of an `AppModel` that
starts on the Shell route). -/
def AuthModel.zero : AuthModel where
  step := .authStepWelcome
  width := 0
  height := 0
  configDir := ""
  pathInput := TextInput.new 0
  tokenInput := TextInput.new 0
  spinner := 0
  validating := false
  validToken := ""
  whoami := none
  errMsg := ""
  tokenHelpURL := ""

/-- Go `NewAuthModel()`, given the directory `config.ResolveConfigDir()`
resolved to (or the fallback `~/.config/dnsimplectl`).  The path input takes
its value while its `CharLimit` is still `0` (`textinput.New()`), so the
directory is not cut; the limit of 512 is set afterwards. -/
def NewAuthModel (L : Lib) (cfgDir : String) : AuthModel :=
  { AuthModel.zero with
    configDir := cfgDir
    pathInput := { (TextInput.new 0).SetValue L cfgDir.data with charLimit := 512 }
    tokenInput := TextInput.new 512
    tokenHelpURL := "https://dnsimple.com/a/YOUR_ACCOUNT_ID/account/access_tokens" }

/-- Go `(*AuthModel).SetSize(width, height)`. -/
def AuthModel.SetSize (m : AuthModel) (width height : Int) : AuthModel :=
  { m with width := width, height := height }

/-- Go `strconv.FormatInt(n, 10)`. -/
def formatInt (n : Int) : String := toString n

/-- Go `persistAuth(token, whoami)`: the error it returns. -/
def persistAuth (E : Env) (token : String) (whoami : Option WhoamiData) : Option String :=
  match E.SaveToken token with
  | some e => some ("failed to save token: " ++ e)
  | none =>
    let cfg : Config := { AccountID := "", Sandbox := false }
    let cfg : Config :=
      match whoami with
      | none => cfg
      | some w =>
        match w.Account with
        | some a => { cfg with AccountID := formatInt a.ID }
        | none =>
          match w.User with
          | some _ => if E.NewFromFlags.2 = none then { cfg with AccountID := E.NewFromFlags.1 } else cfg
          | none => cfg
    match E.Save cfg with
    | some e => some ("failed to save config: " ++ e)
    | none => none

/-- The tail of `(*AuthModel).Update` after its `switch`: a message nothing
returned for goes to the text input of the current step. -/
def AuthModel.updateTail (L : Lib) (m : AuthModel) (msg : Msg) : AuthModel × Cmd :=
  if m.step = .authStepTokenInput then
    ({ m with tokenInput := (m.tokenInput.Update L msg).1 }, (m.tokenInput.Update L msg).2)
  else if m.step = .authStepConfigDir then
    ({ m with pathInput := (m.pathInput.Update L msg).1 }, (m.pathInput.Update L msg).2)
  else (m, [])

/-- The `case tea.KeyMsg:` arm of `(*AuthModel).Update`. -/
def AuthModel.updateKey (L : Lib) (E : Env) (m : AuthModel) (k : KeyMsg) : AuthModel × Cmd :=
  match m.step with
  | .authStepWelcome =>
    if keyMatches k keys.Enter = true then
      ({ m with step := .authStepTokenInput, tokenInput := m.tokenInput.Focus },
        [CmdAtom.textinputBlink])
    else if k.name = "c" then
      ({ m with step := .authStepConfigDir,
                pathInput := (m.pathInput.SetValue L m.configDir.data).Focus },
        [CmdAtom.textinputBlink])
    else m.updateTail L (.key k)
  | .authStepConfigDir =>
    if keyMatches k keys.Back = true then
      ({ m with step := .authStepWelcome, pathInput := m.pathInput.Blur }, [])
    else if keyMatches k keys.Enter = true then
      let path := String.mk (trimSpace m.pathInput.value)
      if path = "" then
        ({ m with errMsg := "config directory cannot be empty", step := .authStepError }, [])
      else
        match (E.ResolveConfigDir path).2 with
        | some e => ({ m with errMsg := e, step := .authStepError }, [])
        | none =>
          ({ m with configDir := (E.ResolveConfigDir path).1,
                    pathInput := (m.pathInput.SetValue L (E.ResolveConfigDir path).1.data).Blur,
                    step := .authStepWelcome }, [])
    else
      ({ m with pathInput := (m.pathInput.Update L (.key k)).1 }, (m.pathInput.Update L (.key k)).2)
  | .authStepTokenInput =>
    if keyMatches k keys.Back = true then
      ({ m with step := .authStepWelcome, tokenInput := m.tokenInput.Blur }, [])
    else if keyMatches k keys.Enter = true then
      let token := String.mk (trimSpace m.tokenInput.value)
      if token = "" then
        ({ m with errMsg := "token cannot be empty", step := .authStepError }, [])
      else
        ({ m with step := .authStepValidating, validating := true, errMsg := "", validToken := "" },
          teaBatch [[CmdAtom.spinnerTick], [CmdAtom.validateToken token]])
    else
      ({ m with tokenInput := (m.tokenInput.Update L (.key k)).1 },
        (m.tokenInput.Update L (.key k)).2)
  | .authStepSuccess =>
    if keyMatches k keys.Enter = true then (m, [CmdAtom.emit (.authDone m.whoami)])
    else m.updateTail L (.key k)
  | .authStepError =>
    if keyMatches k keys.Enter = true then
      ({ m with step := .authStepTokenInput, tokenInput := m.tokenInput.Focus },
        [CmdAtom.textinputBlink])
    else if keyMatches k keys.Back = true then ({ m with step := .authStepWelcome }, [])
    else m.updateTail L (.key k)
  | .authStepValidating => m.updateTail L (.key k)

/-- Go `(*AuthModel).Update(msg)`. -/
def AuthModel.Update (L : Lib) (E : Env) (m : AuthModel) (msg : Msg) : AuthModel × Cmd :=
  match msg with
  | .key k => m.updateKey L E k
  | .tokenValidated msg =>
    let m := { m with validating := false }
    match msg.err with
    | some e => ({ m with errMsg := e, step := .authStepError }, [])
    | none =>
      let m := { m with validToken := msg.token, whoami := msg.data }
      match persistAuth E msg.token msg.data with
      | some e => ({ m with errMsg := e, step := .authStepError }, [])
      | none => ({ m with step := .authStepSuccess }, [])
  | .spinnerTick payload =>
    if m.step = .authStepValidating then
      ({ m with spinner := (spinnerUpdate L m.spinner payload).1 },
        (spinnerUpdate L m.spinner payload).2)
    else m.updateTail L msg
  | _ => m.updateTail L msg

/-! ## app.go -/

/-- Go `type appRoute int` of `app.go`. -/
inductive appRoute where
  | routeAuth
  | routeShell
deriving DecidableEq, Repr

/-- Go `type AppModel struct`. -/
structure AppModel where
  width : Int
  height : Int
  route : appRoute
  auth : AuthModel
  shell : ShellModel

/-- The Go zero value of `ShellModel` (the `shell` field of an `AppModel` that
starts on the wizard route). -/
def ShellModel.zero : ShellModel where
  width := 0
  height := 0
  active := .tabHome
  initialized := fun _ => false
  home := { width := 0, height := 0, items := [], selected := 0, whoami := none,
            loading := false, errMsg := "", spinner := 0 }
  domains := { NewBrowserModel .categoryDomains with
               listHeader := "", search := { visible := false, input := TextInput.new 0,
                                             selected := 0, matchList := [] } }
  zones := { NewBrowserModel .categoryDomains with
             listHeader := "", search := { visible := false, input := TextInput.new 0,
                                           selected := 0, matchList := [] } }
  records := { NewBrowserModel .categoryDomains with
               listHeader := "", search := { visible := false, input := TextInput.new 0,
                                             selected := 0, matchList := [] } }
  help := { width := 0, height := 0 }

/-- Go `NewAppModel()`, given whether a token file exists (`config.HasToken()`)
and the directory the wizard starts from. -/
def NewAppModel (L : Lib) (hasToken : Bool) (cfgDir : String) : AppModel :=
  if hasToken = true then
    { width := 0, height := 0, route := .routeShell, auth := AuthModel.zero,
      shell := NewShellModel none }
  else
    { width := 0, height := 0, route := .routeAuth, auth := NewAuthModel L cfgDir,
      shell := ShellModel.zero }

/-- The closing `switch m.route` of `(*AppModel).Update`. -/
def AppModel.dispatch (L : Lib) (E : Env) (m : AppModel) (msg : Msg) : Option (AppModel × Cmd) :=
  match m.route with
  | .routeShell => (m.shell.Update L msg).map (fun r => ({ m with shell := r.1 }, r.2))
  | .routeAuth => some ({ m with auth := (m.auth.Update L E msg).1 }, (m.auth.Update L E msg).2)

/-- Go `(*AppModel).Update(msg)`; `none` is a run-time panic of the Shell. -/
def AppModel.Update (L : Lib) (E : Env) (m : AppModel) (msg : Msg) : Option (AppModel × Cmd) :=
  match msg with
  | .windowSize width height =>
    some ({ m with width := width, height := height,
                   auth := m.auth.SetSize width height,
                   shell := m.shell.SetSize width height }, [])
  | .key k =>
    if k.name = "ctrl+c" then some (m, [CmdAtom.quit])
    else if keyMatches k keys.Quit = true ∧
        ¬ (m.route = .routeShell ∧ m.shell.BlocksGlobalKeys = true) then
      some (m, [CmdAtom.quit])
    else m.dispatch L E msg
  | .authDone data =>
    let shell := (NewShellModel data).SetSize m.width m.height
    some ({ m with route := .routeShell, shell := shell.Init.1 }, shell.Init.2)
  | _ => m.dispatch L E msg

/-! ### Sequences of tab activations -/

/-- One tab activation of the Shell: `activate(tab)` (reached from a tab
key, a navigation message or a back message) or `openGlobalDomainSearch()`. -/
inductive Activation where
  | tab (t : shellTab)
  | search
deriving DecidableEq, Repr

/-- The tab an activation makes active. -/
def Activation.target : Activation → shellTab
  | .tab t => t
  | .search => .tabDomains

/-- The Shell method an activation calls. -/
def ShellModel.applyActivation (L : Lib) (m : ShellModel) : Activation → ShellModel × Cmd
  | .tab t => m.activate t
  | .search => m.openGlobalDomainSearch L

/-- The Shell after a sequence of activations. -/
def ShellModel.runActivations (L : Lib) (m : ShellModel) : List Activation → ShellModel
  | [] => m
  | a :: rest => ShellModel.runActivations L (m.applyActivation L a).1 rest

/-- A Shell on which the Domains tab has been opened once. -/
def shellOnDomains : ShellModel := ((NewShellModel none).activate .tabDomains).1

/-! ## data.go: the fixture backend -/

/-- Go `sort.Slice(xs, less)`: the library promises a permutation sorted by
`less`, not a stable one; on elements that `less` orders strictly (here:
pairwise distinct names) that permutation is unique, and it is the one
insertion sort computes. -/
def sortSlice {α : Type} (less : α → α → Bool) (xs : List α) : List α :=
  List.insertionSort (fun a b => less b a = false) xs

/-- Go `strings.Repeat(s, n)`. -/
def stringsRepeat (s : String) (n : Nat) : String := String.join (List.replicate n s)

/-- Go `type demoBackend struct`: each `map[string]V` is the list of its
entries (key, value), keys pairwise distinct, in the order one `range` over
the map happens to visit them. -/
structure demoBackend where
  whoami : Option WhoamiData
  domains : List (String × Domain)
  zones : List (String × Zone)
  records : List (String × List ZoneRecord)
deriving DecidableEq, Repr

/-- Go map read `v, ok := m[k]`. -/
def mapGet {V : Type} (m : List (String × V)) (k : String) : Option V := m.lookup k

/-- Go `delete(m, k)`. -/
def mapDelete {V : Type} (m : List (String × V)) (k : String) : List (String × V) :=
  m.filter (fun e => decide (e.1 ≠ k))

/-- Go map write `m[k] = v`. -/
def mapSet {V : Type} (m : List (String × V)) (k : String) (v : V) : List (String × V) :=
  if (m.lookup k).isSome then m.map (fun e => if e.1 = k then (k, v) else e) else m ++ [(k, v)]

/-- The comparison `out[i].Name < out[j].Name` of `ListDomains`. -/
def domainNameLess (a b : Domain) : Bool := decide (runesLt a.Name.data b.Name.data)

/-- The comparison `out[i].Name < out[j].Name` of `ListZones`. -/
def zoneNameLess (a b : Zone) : Bool := decide (runesLt a.Name.data b.Name.data)

/-- The comparison `out[i].ID < out[j].ID` of `ListRecords`. -/
def recordIdLess (a b : ZoneRecord) : Bool := decide (a.ID < b.ID)

/-- The body of `(*demoBackend).ListDomains` for one iteration order of the
map: `visited` are the stored domains in the order `range b.domains` yields
them. -/
def listDomainsOf (visited : List Domain) : List Domain := sortSlice domainNameLess visited

/-- Go `(*demoBackend).ListDomains(ctx)`, iterating in the order of the entry list. -/
def demoBackend.ListDomains (b : demoBackend) : List Domain × Option String :=
  (listDomainsOf (b.domains.map (fun e => e.2)), none)

/-- Go `(*demoBackend).GetDomain(ctx, name)`. -/
def demoBackend.GetDomain (b : demoBackend) (name : String) : Option Domain × Option String :=
  match mapGet b.domains name with
  | none => (none, some ("domain not found (demo): " ++ name))
  | some d => (some d, none)

/-- Go `(*demoBackend).DeleteDomain(ctx, name)`: the new state and the error. -/
def demoBackend.DeleteDomain (b : demoBackend) (name : String) : demoBackend × Option String :=
  match mapGet b.domains name with
  | none => (b, some ("domain not found (demo): " ++ name))
  | some _ =>
    ({ b with domains := mapDelete b.domains name, zones := mapDelete b.zones name,
              records := mapDelete b.records name }, none)

/-- The body of `(*demoBackend).ListZones` for one iteration order of the map. -/
def listZonesOf (visited : List Zone) : List Zone := sortSlice zoneNameLess visited

/-- Go `(*demoBackend).ListZones(ctx)`, iterating in the order of the entry list. -/
def demoBackend.ListZones (b : demoBackend) : List Zone × Option String :=
  (listZonesOf (b.zones.map (fun e => e.2)), none)

/-- Go `(*demoBackend).GetZone(ctx, name)`. -/
def demoBackend.GetZone (b : demoBackend) (name : String) : Option Zone × Option String :=
  match mapGet b.zones name with
  | none => (none, some ("zone not found (demo): " ++ name))
  | some z => (some z, none)

/-- One record line of `GetZoneFile`. -/
def zoneFileLine (r : ZoneRecord) : String :=
  let n := if r.Name = "" then "@" else r.Name
  if r.Priority ≠ 0 then
    n ++ " " ++ toString r.TTL ++ " IN " ++ r.Type_ ++ " " ++ toString r.Priority ++ " " ++ r.Content
  else n ++ " " ++ toString r.TTL ++ " IN " ++ r.Type_ ++ " " ++ r.Content

/-- Go `(*demoBackend).GetZoneFile(ctx, name)`. -/
def demoBackend.GetZoneFile (b : demoBackend) (name : String) : String × Option String :=
  match mapGet b.zones name with
  | none => ("", some ("zone not found (demo): " ++ name))
  | some _ =>
    let recs := (mapGet b.records name).getD []
    ("\n".intercalate
      (["$ORIGIN " ++ name ++ ".",
        "@ 3600 IN SOA ns1.dnsimple.com. admin.dnsimple.com. 1 7200 3600 1209600 3600"]
        ++ recs.map zoneFileLine), none)

/-- Go `(*demoBackend).CheckZoneDistribution(ctx, name)`. -/
def demoBackend.CheckZoneDistribution (b : demoBackend) (name : String) : Bool × Option String :=
  match mapGet b.zones name with
  | some z => (z.Active, none)
  | none => (false, some ("zone not found (demo): " ++ name))

/-- Go `(*demoBackend).ActivateZoneDNS(ctx, name)`. -/
def demoBackend.ActivateZoneDNS (b : demoBackend) (name : String) : demoBackend × Option String :=
  match mapGet b.zones name with
  | none => (b, some ("zone not found (demo): " ++ name))
  | some z => ({ b with zones := mapSet b.zones name { z with Active := true } }, none)

/-- Go `(*demoBackend).DeactivateZoneDNS(ctx, name)`. -/
def demoBackend.DeactivateZoneDNS (b : demoBackend) (name : String) : demoBackend × Option String :=
  match mapGet b.zones name with
  | none => (b, some ("zone not found (demo): " ++ name))
  | some z => ({ b with zones := mapSet b.zones name { z with Active := false } }, none)

/-- Go `(*demoBackend).ListRecords(ctx, zone)`. -/
def demoBackend.ListRecords (b : demoBackend) (zone : String) : List ZoneRecord × Option String :=
  match mapGet b.records zone with
  | none => ([], some ("zone not found (demo): " ++ zone))
  | some recs => (sortSliceStable recordIdLess recs, none)

/-- Go `(*demoBackend).GetRecord(ctx, zone, recordID)`. -/
def demoBackend.GetRecord (b : demoBackend) (zone : String) (recordID : Int) :
    Option ZoneRecord × Option String :=
  match ((mapGet b.records zone).getD []).find? (fun r => decide (r.ID = recordID)) with
  | some r => (some r, none)
  | none => (none, some ("record not found (demo): " ++ toString recordID))

/-- Go `(*demoBackend).CheckRecordDistribution(ctx, zone, recordID)`. -/
def demoBackend.CheckRecordDistribution (b : demoBackend) (zone : String) (recordID : Int) :
    Bool × Option String :=
  match mapGet b.records zone with
  | none => (false, some ("zone not found (demo): " ++ zone))
  | some recs =>
    match recs.find? (fun r => decide (r.ID = recordID)) with
    | some r => (decide (Int.tmod r.ID 2 = 0), none)
    | none => (false, some ("record not found (demo): " ++ toString recordID))

/-- Go `(*demoBackend).DeleteRecord(ctx, zone, recordID)`. -/
def demoBackend.DeleteRecord (b : demoBackend) (zone : String) (recordID : Int) :
    demoBackend × Option String :=
  match mapGet b.records zone with
  | none => (b, some ("zone not found (demo): " ++ zone))
  | some recs =>
    if recs.any (fun r => decide (r.ID = recordID)) then
      ({ b with records :=
          mapSet b.records zone (recs.eraseIdx (recs.findIdx (fun r => decide (r.ID = recordID)))) },
        none)
    else (b, some ("record not found (demo): " ++ toString recordID))

/-- Go `(*demoBackend).Whoami(ctx)` (the seeded backend always holds one). -/
def demoBackend.Whoami (b : demoBackend) : Option WhoamiData × Option String := (b.whoami, none)

/-- The fixture backend as the answers it gives in its current state. -/
def demoBackend.toBackend (b : demoBackend) : Backend where
  Whoami := b.Whoami
  ListDomains := b.ListDomains
  GetDomain := b.GetDomain
  DeleteDomain := fun n => (b.DeleteDomain n).2
  ListZones := b.ListZones
  GetZone := b.GetZone
  GetZoneFile := b.GetZoneFile
  CheckZoneDistribution := b.CheckZoneDistribution
  ActivateZoneDNS := fun n => (b.ActivateZoneDNS n).2
  DeactivateZoneDNS := fun n => (b.DeactivateZoneDNS n).2
  ListRecords := b.ListRecords
  GetRecord := b.GetRecord
  CheckRecordDistribution := b.CheckRecordDistribution
  DeleteRecord := fun z r => (b.DeleteRecord z r).2

/-- The names seeded by `(*demoBackend).seed()`. -/
def demoNames : List String :=
  ["absurdophile.com", "acme.dev", "alpha-example.net", "beta-labs.io", "bluebird.ai",
   "canvasworks.co", "deltaops.com", "echovalley.org", "foxtrotapps.dev", "glaciermail.com",
   "harborstack.io", "ivorypixel.net", "jupiterhub.app", "kineticdata.dev", "lighthouse.tools",
   "mintorchard.com", "northfieldhq.com", "opalroute.io", "paperplane.dev", "quietforest.org",
   "rangergrid.com", "signalpath.io", "tideline.app", "umbraworks.dev", "vectorlane.net"]

/-- The value of `now` in `seed()`:
`time.Date(2026, 2, 26, 12, 0, 0, 0, time.UTC).Format(time.RFC3339)`. -/
def seedNow : String := "2026-02-26T12:00:00Z"

/-- The domain built by iteration `i` of the loop of `seed()`. -/
def seedDomain (i : Nat) (name : String) : Domain :=
  { ID := 1028000 + (i : Int), Name := name, UnicodeName := name, State := "hosted",
    AutoRenew := decide (i % 3 = 0), PrivateWhois := decide (i % 2 = 0),
    ExpiresAt := "2027-12-31T00:00:00Z", CreatedAt := seedNow, UpdatedAt := seedNow }

/-- The zone built by iteration `i` of the loop of `seed()`. -/
def seedZone (i : Nat) (name : String) : Zone :=
  { ID := 972300 + (i : Int), Name := name, Active := decide (i % 4 ≠ 0), Reverse := false,
    Secondary := decide (i % 9 = 0), CreatedAt := seedNow, UpdatedAt := seedNow }

/-- The text record content built by iteration `i` of the loop of `seed()`. -/
def seedTxt (i : Nat) : String :=
  let txt := "v=spf1 include:_spf.google.com include:mailgun.org include:amazonses.com ip4:192.0.2.42 ip4:198.51.100.17 ~all"
  if i % 5 = 0 then txt ++ " demo-segment=" ++ stringsRepeat "abcdef0123456789" 8 else txt

/-- A record of the fixture with the fields `seed()` leaves at their zero value. -/
def seedRecord (id : Int) (type name content : String) (ttl priority : Int) : ZoneRecord :=
  { ID := id, ZoneID := "", Name := name, Content := content, TTL := ttl, Priority := priority,
    Type_ := type, Regions := [], SystemRecord := false, CreatedAt := seedNow,
    UpdatedAt := seedNow }

/-- The five records built by iteration `i` of the loop of `seed()`. -/
def seedRecords (i : Nat) (name : String) : List ZoneRecord :=
  [ seedRecord (8800000 + ((i * 10 : Nat) : Int) + 1) "A" ""
      ("203.0.113." ++ toString ((i % 200) + 10)) 3600 0,
    seedRecord (8800000 + ((i * 10 : Nat) : Int) + 2) "CNAME" "www" (name ++ ".") 3600 0,
    seedRecord (8800000 + ((i * 10 : Nat) : Int) + 3) "MX" "" ("mail." ++ name ++ ".") 3600 10,
    seedRecord (8800000 + ((i * 10 : Nat) : Int) + 4) "TXT" "" (seedTxt i) 3600 0,
    seedRecord (8800000 + ((i * 10 : Nat) : Int) + 5) "TXT" "_acme-challenge"
      (stringsRepeat "challenge-token-" 7 ++ toString i) 600 0 ]

/-- The loop `for i, name := range demoNames` of `seed()`, from index `i` on. -/
def seedLoop : List String → Nat → demoBackend → demoBackend
  | [], _, b => b
  | name :: rest, i, b =>
    seedLoop rest (i + 1)
      { b with domains := mapSet b.domains name (seedDomain i name),
               zones := mapSet b.zones name (seedZone i name),
               records := mapSet b.records name (seedRecords i name) }

/-- Go `newDemoBackend()`: empty maps, then `seed()`. -/
def newDemoBackend : demoBackend :=
  seedLoop demoNames 0
    { whoami := some { User := none,
                       Account := some { ID := 424242, Email := "demo@dnsimplectl.local",
                                         PlanIdentifier := "professional" } },
      domains := [], zones := [], records := [] }

/-- The states of the fixture backend: the seeded one and whatever its four
mutating methods make of a state. -/
inductive demoBackend.Reachable : demoBackend → Prop where
  | seeded : demoBackend.Reachable newDemoBackend
  | deleteDomain (b : demoBackend) (name : String) :
      demoBackend.Reachable b → demoBackend.Reachable (b.DeleteDomain name).1
  | activate (b : demoBackend) (name : String) :
      demoBackend.Reachable b → demoBackend.Reachable (b.ActivateZoneDNS name).1
  | deactivate (b : demoBackend) (name : String) :
      demoBackend.Reachable b → demoBackend.Reachable (b.DeactivateZoneDNS name).1
  | deleteRecord (b : demoBackend) (zone : String) (recordID : Int) :
      demoBackend.Reachable b → demoBackend.Reachable (b.DeleteRecord zone recordID).1

/-- Every entry of a name-keyed map is stored under the name it carries, and
no key occurs twice. -/
def demoBackend.WellFormed (b : demoBackend) : Prop :=
  (b.domains.map (fun e => e.1)).Nodup ∧ (b.zones.map (fun e => e.1)).Nodup ∧
    (b.records.map (fun e => e.1)).Nodup ∧
    (∀ e ∈ b.domains, e.2.Name = e.1) ∧ (∀ e ∈ b.zones, e.2.Name = e.1)

/-! ## domain_dashboard.go: the body of the view -/

/-- What `dashboardBody` renders: the loading line, the failure message
alone (`errorStyle.Render("Failed to load dashboard") + "\n" + errMsg`), or
the text of one of the five section renderers. -/
inductive BodyView where
  | loading
  | failure (errMsg : String)
  | sectionText (s : domainDashSection)
deriving DecidableEq, Repr

/-- Go `(*DomainDashboardModel).dashboardBody()`, up to the text of the
section renderers: the branch taken and the error text it shows. -/
def DomainDashboardModel.dashboardBody (m : DomainDashboardModel) : BodyView :=
  if m.loading = true ∧ m.dataDomain = none then .loading
  else if m.errMsg ≠ "" ∧ m.dataDomain = none then .failure m.errMsg
  else
    match m.sectionId with
    | .domainSectionRecords => .sectionText .domainSectionRecords
    | .domainSectionZone => .sectionText .domainSectionZone
    | .domainSectionDiagnostics => .sectionText .domainSectionDiagnostics
    | .domainSectionActions => .sectionText .domainSectionActions
    | .domainSectionOverview => .sectionText .domainSectionOverview

/-- The `acme.dev` domain of the fixture, as a loaded snapshot. -/
def acmeDomain : Domain :=
  { ID := 1028001, Name := "acme.dev", UnicodeName := "acme.dev", State := "hosted",
    AutoRenew := false, PrivateWhois := false, ExpiresAt := "2027-12-31T00:00:00Z",
    CreatedAt := "2026-02-26T12:00:00Z", UpdatedAt := "2026-02-26T12:00:00Z" }

/-- A dashboard of `acme.dev` that has loaded its domain once and is now
refreshing (`R` pressed). -/
def refreshingDashboard : DomainDashboardModel :=
  { NewDomainDashboardModel "acme.dev" with dataDomain := some acmeDomain, loading := true }

/-- The load result of a refresh whose `getDomain` failed. -/
def failedLoad : domainDashboardLoadedMsg :=
  { domain := none, zone := none, records := [], warnings := [], err := some "network down" }

/-- A run of the Records browser up to the records-in-zone screen: the zone
picker loads one zone, Enter opens it, its (empty) record list loads. -/
def recordsListRun : Option BrowserModel :=
  ((NewBrowserModel .categoryRecords).Update refLib
      (.browserListLoaded { screen := .browserRecordsZones, header := "Records / Zones (1)",
                            items := [{ Key := "acme.dev", Title := "acme.dev",
                                        Subtitle := "active", ID := 972301 }],
                            statusMsg := "", err := none })).bind
    fun r1 => ((r1.1.Update refLib (.key enterKey)).bind
      fun r2 => ((r2.1.Update refLib
        (.browserListLoaded { screen := .browserRecordsList, header := "Records / acme.dev (0)",
                              items := [], statusMsg := "", err := none })).map
        fun r3 => r3.1))

/-- The key event whose `String()` is `"esc"`. -/
def escKey : KeyMsg := { name := "esc", runes := [] }

/-- A command atom that loads a browser list. -/
def CmdAtom.isLoadList : CmdAtom → Bool
  | .loadList _ _ _ => true
  | _ => false

/-! ## layout.go and browser.go: the closures behind the load commands -/

/-- The loop `for len(r) > 0` of `hardWrap`; `fuel` bounds the number of
rounds, and since every round removes at least one rune when `width > 0`,
`len(r)` rounds are enough. -/
def hardWrapLoop (width : Int) : Nat → List Char → List String → List String
  | 0, _, out => out
  | fuel + 1, r, out =>
    if r.length > 0 then
      let n := (minInt width (r.length : Int)).toNat
      hardWrapLoop width fuel (r.drop n) (out ++ [String.mk (r.take n)])
    else out

/-- Go `hardWrap(s, width)` of `layout.go`. -/
def hardWrap (s : String) (width : Int) : List String :=
  if width ≤ 0 then [s]
  else if s = "" then [""]
  else hardWrapLoop width s.data.length s.data []

/-- Go `wrapLabelValue(label, value, width)` of `layout.go`; `len(label)` is
the length in bytes. -/
def wrapLabelValue (label value : String) (width : Int) : List String :=
  let width := if width ≤ 0 then 80 else width
  match hardWrap value width with
  | [] => [label]
  | c0 :: rest =>
    let indent := stringsRepeat " " label.utf8ByteSize
    [label ++ c0] ++ rest.map (fun c => indent ++ c)

/-- The Go string slice `s[:n]`, which cuts at byte `n`: the runes that end at
or before byte `n`.  This is Go's result whenever byte `n` is a rune
boundary, as it always is in ASCII text; when it is not, Go's result ends
in a broken rune, which a `String` cannot hold, and this one stops before it. -/
def takeBytes : Nat → List Char → List Char
  | _, [] => []
  | n, c :: cs => if c.utf8Size ≤ n then c :: takeBytes (n - c.utf8Size) cs else []

/-- Go `truncateText(s, maxLen)` of `browser.go`; `len(s)` is the length in
bytes.  The Go parameter is an `int`; both call sites pass a positive
constant, and a negative one would panic in `s[:maxLen]`. -/
def truncateText (s : String) (maxLen : Nat) : String :=
  if s.utf8ByteSize ≤ maxLen then s
  else if maxLen ≤ 3 then String.mk (takeBytes maxLen s.data)
  else String.mk (takeBytes (maxLen - 3) s.data) ++ "..."

/-- Go `fmt.Sprintf("%-6s", s)`: spaces on the right up to six runes. -/
def padRight6 (s : String) : String := s ++ stringsRepeat " " (6 - s.length)

/-- The item built for a domain by the closure of `loadListCmd`. -/
def domainListItem (d : Domain) : browserItem :=
  let info := "state: " ++ d.State
  let info := if d.ExpiresAt ≠ "" then info ++ " | expires: " ++ truncateText d.ExpiresAt 10
    else info
  let info := if d.AutoRenew = true then info ++ " | auto-renew" else info
  { Key := d.Name, Title := d.Name, Subtitle := info, ID := d.ID }

/-- The item built for a zone on the Zones list by the closure of `loadListCmd`. -/
def zoneListItem (z : Zone) : browserItem :=
  let flags : List String := []
  let flags := if z.Active = true then flags ++ ["active"] else flags ++ ["inactive"]
  let flags := if z.Reverse = true then flags ++ ["reverse"] else flags
  let flags := if z.Secondary = true then flags ++ ["secondary"] else flags
  { Key := z.Name, Title := z.Name, Subtitle := " | ".intercalate flags, ID := z.ID }

/-- The item built for a zone on the zones screen of Records by the closure
of `loadListCmd`. -/
def recordsZoneItem (z : Zone) : browserItem :=
  let flags : List String := []
  let flags := if z.Active = true then flags ++ ["active"] else flags
  let flags := if z.Reverse = true then flags ++ ["reverse"] else flags
  let flags := if z.Secondary = true then flags ++ ["secondary"] else flags
  let flags := if flags.length = 0 then flags ++ ["standard"] else flags
  { Key := z.Name, Title := z.Name, Subtitle := " | ".intercalate flags, ID := z.ID }

/-- The item built for a record by the closure of `loadListCmd`. -/
def recordListItem (r : ZoneRecord) : browserItem :=
  let name := if r.Name = "" then "@" else r.Name
  let title := padRight6 r.Type_ ++ " " ++ name
  let info := "ttl " ++ formatInt r.TTL ++ " | " ++ truncateText r.Content 72
  let info := if r.Priority ≠ 0 then info ++ " | pri " ++ formatInt r.Priority else info
  let info := if r.SystemRecord = true then info ++ " | system" else info
  { Key := formatInt r.ID, Title := title, Subtitle := info, ID := r.ID }

/-- The closure returned by Go `(BrowserModel).loadListCmd()`, run against
the backend `b`: the message it returns. -/
def runLoadList (b : Backend) (cat : category) (screen : browserScreen) (zone : String) :
    browserListLoadedMsg :=
  if cat = .categoryDomains then
    match b.ListDomains with
    | (_, some e) => { screen := screen, header := "", items := [], statusMsg := "", err := some e }
    | (domains, none) =>
      let items := domains.map domainListItem
      { screen := screen, header := "Domains (" ++ formatInt items.length ++ ")", items := items,
        statusMsg := "Use Enter to inspect a domain.", err := none }
  else if cat = .categoryZones ∧ screen = .browserZonesList then
    match b.ListZones with
    | (_, some e) => { screen := screen, header := "", items := [], statusMsg := "", err := some e }
    | (zones, none) =>
      let items := zones.map zoneListItem
      { screen := screen, header := "Zones (" ++ formatInt items.length ++ ")", items := items,
        statusMsg := "Use Enter to inspect a zone.", err := none }
  else if cat = .categoryRecords ∧ screen = .browserRecordsZones then
    match b.ListZones with
    | (_, some e) => { screen := screen, header := "", items := [], statusMsg := "", err := some e }
    | (zones, none) =>
      let items := zones.map recordsZoneItem
      { screen := screen, header := "Records / Zones (" ++ formatInt items.length ++ ")",
        items := items,
        statusMsg := "Choose a zone, then press Enter to list its records.", err := none }
  else if cat = .categoryRecords ∧ screen = .browserRecordsList then
    match b.ListRecords zone with
    | (_, some e) => { screen := screen, header := "", items := [], statusMsg := "", err := some e }
    | (records, none) =>
      let items := records.map recordListItem
      { screen := screen,
        header := "Records / " ++ zone ++ " (" ++ formatInt items.length ++ ")",
        items := items,
        statusMsg := "Use Enter to inspect a record. Esc returns to zones.", err := none }
  else
    { screen := screen, header := "", items := [], statusMsg := "",
      err := some "unsupported browser state" }

/-- The closure returned by Go `(BrowserModel).loadDetailCmd()`, run against
the backend `b`: the message it returns; `none` is the panic of reading
through a nil pointer that came without an error. -/
def runLoadDetail (b : Backend) (item : browserItem) (cat : category) (screen : browserScreen)
    (zone : String) : Option browserDetailLoadedMsg :=
  if cat = .categoryDomains then
    match b.GetDomain item.Key with
    | (_, some e) => some { title := "", body := "", err := some e }
    | (none, none) => none
    | (some d, none) =>
      let lines := ["ID: " ++ formatInt d.ID, "Name: " ++ d.Name]
      let lines := if d.UnicodeName ≠ "" ∧ d.UnicodeName ≠ d.Name
        then lines ++ ["Unicode: " ++ d.UnicodeName] else lines
      let lines := lines ++ ["State: " ++ d.State, "Auto-Renew: " ++ formatBool d.AutoRenew,
        "Private WHOIS: " ++ formatBool d.PrivateWhois]
      let lines := if d.ExpiresAt ≠ "" then lines ++ ["Expires: " ++ d.ExpiresAt] else lines
      let lines := lines ++ ["Created: " ++ d.CreatedAt, "Updated: " ++ d.UpdatedAt]
      some { title := d.Name, body := "\n".intercalate lines, err := none }
  else if cat = .categoryZones ∧ screen = .browserZonesList then
    match b.GetZone item.Key with
    | (_, some e) => some { title := "", body := "", err := some e }
    | (none, none) => none
    | (some z, none) =>
      let lines := ["ID: " ++ formatInt z.ID, "Name: " ++ z.Name,
        "Active: " ++ formatBool z.Active, "Reverse: " ++ formatBool z.Reverse,
        "Secondary: " ++ formatBool z.Secondary, "Created: " ++ z.CreatedAt,
        "Updated: " ++ z.UpdatedAt]
      some { title := z.Name, body := "\n".intercalate lines, err := none }
  else if cat = .categoryRecords ∧ screen = .browserRecordsList then
    match b.GetRecord zone item.ID with
    | (_, some e) => some { title := "", body := "", err := some e }
    | (none, none) => none
    | (some r, none) =>
      let name := if r.Name = "" then "@" else r.Name
      let lines := ["ID: " ++ formatInt r.ID, "Type: " ++ r.Type_, "Name: " ++ name,
        "Zone: " ++ zone]
      let lines := lines ++ wrapLabelValue "Content: " r.Content 80
      let lines := lines ++ ["TTL: " ++ formatInt r.TTL]
      let lines := if r.Priority ≠ 0 then lines ++ ["Priority: " ++ formatInt r.Priority]
        else lines
      let lines := if r.Regions.length > 0
        then lines ++ ["Regions: " ++ ", ".intercalate r.Regions] else lines
      let lines := lines ++ ["System: " ++ formatBool r.SystemRecord,
        "Created: " ++ r.CreatedAt, "Updated: " ++ r.UpdatedAt]
      some { title := r.Type_ ++ " " ++ name ++ "." ++ zone, body := "\n".intercalate lines,
             err := none }
  else some { title := "", body := "", err := some "unsupported detail view" }

/-- What the runtime delivers for a load command of the browser: the message
returned by its closure, run against the backend `b`; the outer `none` marks
an atom that is not a list or detail load, the inner one a panic. -/
def runLoad (b : Backend) : CmdAtom → Option (Option Msg)
  | .loadList cat screen zone => some (some (.browserListLoaded (runLoadList b cat screen zone)))
  | .loadDetail item cat screen zone =>
    some ((runLoadDetail b item cat screen zone).map Msg.browserDetailLoaded)
  | _ => none

/-- The browser after the runtime has run the list and detail loads of `cmd`
against `b` and delivered their messages in order. -/
def BrowserModel.deliver (L : Lib) (b : Backend) : BrowserModel → Cmd → Option BrowserModel
  | m, [] => some m
  | m, a :: rest =>
    match runLoad b a with
    | none => BrowserModel.deliver L b m rest
    | some none => none
    | some (some msg) =>
      match m.Update L msg with
      | none => none
      | some r => BrowserModel.deliver L b r.1 rest

/-- One key press on the browser, followed by the delivery of the loads it
started. -/
def BrowserModel.press (L : Lib) (b : Backend) (m : BrowserModel) (k : KeyMsg) :
    Option BrowserModel :=
  (m.Update L (.key k)).bind (fun r => r.1.deliver L b r.2)

/-- The key event whose `String()` is `"down"`. -/
def downKey : KeyMsg := { name := "down", runes := [] }

/-- The Records tab on a freshly seeded fixture backend, once its list of
zones has arrived. -/
def recordsTabOpened : Option BrowserModel :=
  (NewBrowserModel .categoryRecords).Init.1.deliver refLib newDemoBackend.toBackend
    (NewBrowserModel .categoryRecords).Init.2

/-- The run of the end-to-end scenario up to the list of records: the Records
tab is opened, the selection moved down to `acme.dev`, and Enter pressed. -/
def acmeRecordsRun : Option BrowserModel :=
  recordsTabOpened.bind fun m0 =>
    (m0.press refLib newDemoBackend.toBackend downKey).bind fun m1 =>
      m1.press refLib newDemoBackend.toBackend enterKey

/-- The run continued: the selection moved down to the MX record, and Enter
pressed. -/
def acmeMxDetailRun : Option BrowserModel :=
  acmeRecordsRun.bind fun m2 =>
    (m2.press refLib newDemoBackend.toBackend downKey).bind fun m3 =>
      (m3.press refLib newDemoBackend.toBackend downKey).bind fun m4 =>
        m4.press refLib newDemoBackend.toBackend enterKey

/-! ## Concrete states and environments for the application-level theorems -/

/-- The Domains browser of `twoDomains`, showing a dashboard. -/
def dashboardShown : BrowserModel := { twoDomains with screen := .browserDomainDashboard }

/-- An environment in which every file operation succeeds. -/
def okEnv : Env where
  ResolveConfigDir := fun path => (path, none)
  SaveToken := fun _ => none
  Save := fun _ => none
  NewFromFlags := ("424242", none)

/-- An environment in which the token cannot be written. -/
def failSaveEnv : Env := { okEnv with SaveToken := fun _ => some "disk full" }

/-- The wizard while a token is being validated. -/
def validatingAuth : AuthModel :=
  { NewAuthModel refLib "/home/u/.config/dnsimple" with
    step := .authStepValidating, validating := true }

/-- A validation result without error. -/
def goodToken : tokenValidatedMsg := { token := "tok", data := none, err := none }

/-- An application on the Shell route whose Domains tab shows the search
modal. -/
def blockedApp : AppModel :=
  { width := 0, height := 0, route := .routeShell, auth := AuthModel.zero,
    shell := (shellOnDomains.openGlobalDomainSearch refLib).1 }

/-- The key event whose `String()` is `"q"`. -/
def qKey : KeyMsg := { name := "q", runes := [Char.ofNat 113] }

/-! ## Concrete states for the key-handling theorems -/

/-- The Zones browser right after `Init`: its first load is in flight. -/
def loadingBrowser : BrowserModel := (NewBrowserModel .categoryZones).Init.1

/-- The dashboard of `acme.dev` right after `Init`: its load is in flight. -/
def loadingDashboard : DomainDashboardModel := (NewDomainDashboardModel "acme.dev").Init.1

/-- The key event whose `String()` is `"backspace"`. -/
def backspaceKey : KeyMsg := { name := "backspace", runes := [] }

/-- The wizard on the token step with `tok` typed into the focused token
input. -/
def tokenTyped : AuthModel :=
  { NewAuthModel refLib "/home/u/.config/dnsimple" with
    step := .authStepTokenInput,
    tokenInput := { (TextInput.new 512).Focus with value := "tok".data, pos := 3 } }

/-- The wizard on the config-directory step with its path in the focused
path input. -/
def pathTyped : AuthModel :=
  { NewAuthModel refLib "/home/u/.config/dnsimple" with
    step := .authStepConfigDir,
    pathInput := ((TextInput.new 512).SetValue refLib "/home/u/.config/dnsimple".data).Focus }

/-- The answer of the fixture backend to the list load of the Zones tab. -/
def zonesResult : browserListLoadedMsg :=
  runLoadList newDemoBackend.toBackend .categoryZones .browserZonesList ""

/-- A Shell on which the Zones tab was opened and then the Records tab, both
loads still in flight. -/
def shellOnRecords : ShellModel :=
  (((NewShellModel none).activate .tabZones).1.activate .tabRecords).1

/-! ## browser.go: the rows of the search modal view -/

/-- One match row drawn by `searchModalView`: whether it is the highlighted
one (which picks prefix and style), the cut row text and the cut subtitle
line (absent for an empty subtitle). -/
structure searchRow where
  highlighted : Bool
  text : String
  subtitle : Option String
deriving DecidableEq, Repr

/-- The loop `for i := start; i < end; i++` of `searchModalView`, with `n`
rounds left from index `i`; `none` is the panic of `m.search.matches[i]` or
of `m.items[match.itemIndex]`. -/
def BrowserModel.searchRowsFrom (m : BrowserModel) : Nat → Int → Option (List searchRow)
  | 0, _ => some []
  | n + 1, i =>
    match index? m.search.matchList i with
    | none => none
    | some mt =>
      match index? m.items mt.itemIndex with
      | none => none
      | some item =>
        let pfx := if i = m.search.selected then "› " else "  "
        (BrowserModel.searchRowsFrom m n (i + 1)).map (fun rest =>
          { highlighted := decide (i = m.search.selected),
            text := truncateText (pfx ++ item.Title) 80,
            subtitle := if item.Subtitle ≠ "" then some ("   " ++ truncateText item.Subtitle 80)
                        else none } :: rest)

/-- The match rows built by Go `(BrowserModel).searchModalView()` (the text
around them is fixed and the styles are the terminal library's); `none`
is a run-time panic. -/
def BrowserModel.searchModalRows (m : BrowserModel) : Option (List searchRow) :=
  if m.search.matchList.length = 0 then some []
  else
    let maxResults := maxInt 5 (minInt 12 (m.height - 14))
    let w := windowRange (m.search.matchList.length : Int) m.search.selected maxResults
    m.searchRowsFrom (w.2 - w.1).toNat w.1

/-! ## Runs of the browser and the Shell -/

/-- The browser after the messages `msgs` in order, commands dropped; `none`
is a run-time panic. -/
def BrowserModel.run (L : Lib) : BrowserModel → List Msg → Option BrowserModel
  | m, [] => some m
  | m, msg :: rest =>
    match m.Update L msg with
    | none => none
    | some r => BrowserModel.run L r.1 rest

/-- The Shell after the messages `msgs` in order, commands dropped. -/
def ShellModel.run (L : Lib) : ShellModel → List Msg → Option ShellModel
  | m, [] => some m
  | m, msg :: rest =>
    match m.Update L msg with
    | none => none
    | some r => ShellModel.run L r.1 rest

/-- The key event of typing the rune `c`. -/
def runeKey (c : Char) : KeyMsg := { name := String.singleton c, runes := [c] }

/-- The key events of typing `s` rune by rune. -/
def typeKeys (s : String) : List Msg := s.data.map (fun c => Msg.key (runeKey c))

/-- The answer of the fixture backend to the list load of the Domains tab. -/
def domainsResult : browserListLoadedMsg :=
  runLoadList newDemoBackend.toBackend .categoryDomains .browserDomainsList ""

/-- A list load that failed. -/
def failedList (screen : browserScreen) : browserListLoadedMsg :=
  { screen := screen, header := "", items := [], statusMsg := "", err := some "network down" }

/-- A run of the Domains browser: the list of 25 domains arrives, the
selection is moved down twice, `r` starts a reload, and the reload fails. -/
def failedReloadRun : Option BrowserModel :=
  (NewBrowserModel .categoryDomains).Init.1.run refLib
    [.browserListLoaded domainsResult, .key downKey, .key downKey, .key (runeKey (Char.ofNat 114)),
     .browserListLoaded (failedList .browserDomainsList)]

/-- A run of the Shell: `2` opens the Domains tab, its list of 25 domains
arrives, `r` starts a reload, `/` opens the global domain search while the
reload is in flight, and the reload fails. -/
def staleSearchShell : Option ShellModel :=
  (NewShellModel none).Init.1.run refLib
    [.key (runeKey (Char.ofNat 50)), .browserListLoaded domainsResult,
     .key (runeKey (Char.ofNat 114)), .key (runeKey (Char.ofNat 47)),
     .browserListLoaded (failedList .browserDomainsList)]

/-- A list answer tagged for the Zones list, holding one zone. -/
def staleZonesMsg : browserListLoadedMsg :=
  { screen := .browserZonesList, header := "Zones (1)",
    items := [{ Key := "acme.dev", Title := "acme.dev", Subtitle := "active", ID := 972301 }],
    statusMsg := "Use Enter to inspect a zone.", err := none }

/-- The Records tab on its zone picker (25 zones), selection moved down
twice. -/
def recordsPickerMoved : Option BrowserModel :=
  recordsTabOpened.bind (fun m => m.run refLib [.key downKey, .key downKey])

/-- A run of the Shell up to a loaded dashboard: `2` opens the Domains tab,
its list arrives, Enter opens the dashboard of the first domain, and the
dashboard's load arrives. -/
def dashboardShell : Option ShellModel :=
  (NewShellModel none).Init.1.run refLib
    [.key (runeKey (Char.ofNat 50)), .browserListLoaded domainsResult, .key enterKey,
     .domainDashboardLoaded (runLoadDashboard newDemoBackend.toBackend "absurdophile.com")]

/-- A run of the Shell up to an open delete-record modal.  `2` opens the
Domains tab and its list arrives; Enter opens the dashboard of the first
domain, `absurdophile.com`, whose load is now in flight; `/` opens the global
search, `acme` and Enter open the dashboard of `acme.dev`, whose load is in
flight too.  The first load arrives and is shown by the dashboard of
`acme.dev`; `c` shows the Records section and `D` opens the confirmation for
the selected record, the first one. -/
def deleteRecordShell : Option ShellModel :=
  (NewShellModel none).Init.1.run refLib
    ([.key (runeKey (Char.ofNat 50)), .browserListLoaded domainsResult, .key enterKey,
      .key (runeKey (Char.ofNat 47))] ++ typeKeys "acme" ++
     [.key enterKey,
      .domainDashboardLoaded (runLoadDashboard newDemoBackend.toBackend "absurdophile.com"),
      .key (runeKey (Char.ofNat 99)), .key (runeKey (Char.ofNat 68))])

/-- The run continued while the modal stays open: the load of `acme.dev`
arrives and the user types `confirm`. -/
def deleteRecordTyped : Option ShellModel :=
  deleteRecordShell.bind (fun m =>
    m.run refLib
      (.domainDashboardLoaded (runLoadDashboard newDemoBackend.toBackend "acme.dev")
        :: typeKeys "confirm"))

/-! ## Which modal a tab shows -/

/-- What decides how `Update`, `View` and `BlocksGlobalKeys` of a browser
treat its two modals: the category, the screen, the visible flag of the
search modal and the visible flag of the confirmation modal of its
dashboard. -/
def BrowserModel.modalState (b : BrowserModel) : Tui.category × browserScreen × Bool × Bool :=
  (b.category, b.screen, b.search.visible, b.domainDash.modal.visible)

/-- The modals of a browser are in order: the search modal is visible only
over the Domains list of a Domains browser, a dashboard is shown only by a
Domains browser, and the dashboard of any other browser has no visible
confirmation modal. -/
def BrowserModel.ModalsOk (b : BrowserModel) : Prop :=
  (b.search.visible = true → b.category = .categoryDomains ∧ b.screen = .browserDomainsList) ∧
  (b.screen = .browserDomainDashboard → b.category = .categoryDomains) ∧
  (b.category ≠ .categoryDomains → b.domainDash.modal.visible = false)

/-- The three browsers of a Shell keep their categories and their modals are
in order. -/
def ShellModel.ModalsOk (m : ShellModel) : Prop :=
  (m.domains.category = .categoryDomains ∧ m.domains.ModalsOk) ∧
  (m.zones.category = .categoryZones ∧ m.zones.ModalsOk) ∧
  (m.records.category = .categoryRecords ∧ m.records.ModalsOk)

/-- The states a Shell reaches: a new Shell (`NewShellModel`), resized
(`SetSize`), initialised (`Init`) and updated (`Update`) with any messages,
in any order. -/
inductive ShellModel.Reachable (L : Lib) : ShellModel → Prop
  | new (whoami : Option WhoamiData) : ShellModel.Reachable L (NewShellModel whoami)
  | setSize {m : ShellModel} (width height : Int) :
      ShellModel.Reachable L m → ShellModel.Reachable L (m.SetSize width height)
  | init {m : ShellModel} : ShellModel.Reachable L m → ShellModel.Reachable L m.Init.1
  | update {m : ShellModel} (msg : Msg) (r : ShellModel × Cmd) :
      ShellModel.Reachable L m → m.Update L msg = some r → ShellModel.Reachable L r.1

/-- A run of the Shell in which the exit message of the dashboard is handled
after the key that opened the confirmation modal: `2` opens the Domains tab
and its list arrives, Enter opens a dashboard and its load arrives, `c` shows
the Records section, `esc` asks to leave (the exit message is on its way),
`D` opens the delete-record confirmation, the exit message arrives, and `/`
opens the global search over the list. -/
def lateExitShell : Option ShellModel :=
  (NewShellModel none).Init.1.run refLib
    [.key (runeKey (Char.ofNat 50)), .browserListLoaded domainsResult, .key enterKey,
     .domainDashboardLoaded (runLoadDashboard newDemoBackend.toBackend "absurdophile.com"),
     .key (runeKey (Char.ofNat 99)), .key escKey, .key (runeKey (Char.ofNat 68)),
     .domainDashboardExit, .key (runeKey (Char.ofNat 47))]

/-! ## Well-formed selection and search state -/

/-- The selected index of a browser is `0` on an empty list and an index
into the list otherwise. -/
def BrowserModel.SelectionOk (b : BrowserModel) : Prop :=
  0 ≤ b.selected ∧ (b.selected < (b.items.length : Int) ∨ b.selected = 0)

/-- While the search modal is visible its state is well formed: every match
points into the item list, and the highlighted match index is `0` without
matches and an index into the match list otherwise. -/
def BrowserModel.SearchOk (b : BrowserModel) : Prop :=
  b.search.visible = true →
    (∀ mt ∈ b.search.matchList, 0 ≤ mt.itemIndex ∧ mt.itemIndex < (b.items.length : Int)) ∧
    0 ≤ b.search.selected ∧
    (b.search.selected < (b.search.matchList.length : Int) ∨ b.search.selected = 0)

/-! ## Keys held back by a load -/

/-- The browser that Go `(*ShellModel).modelFor(tab)` returns for the three
browser tabs; the Home and Help tabs hold no browser. -/
def ShellModel.browserFor (m : ShellModel) : shellTab → Option BrowserModel
  | .tabDomains => some m.domains
  | .tabZones => some m.zones
  | .tabRecords => some m.records
  | .tabHelp => none
  | .tabHome => none

/-- A browser whose keys a load in flight holds back: its search modal is
hidden, and either it shows one of its own screens with its loading flag
set, or it shows the dashboard, whose loading flag is set and whose
confirmation modal is hidden. -/
def BrowserModel.LoadHoldsKeys (b : BrowserModel) : Prop :=
  b.search.visible = false ∧
    ((b.loading = true ∧ ¬ (b.category = .categoryDomains ∧ b.screen = .browserDomainDashboard)) ∨
     (b.category = .categoryDomains ∧ b.screen = .browserDomainDashboard ∧
        b.domainDash.loading = true ∧ b.domainDash.modal.visible = false))

instance BrowserModel.LoadHoldsKeys.decidable (b : BrowserModel) : Decidable b.LoadHoldsKeys := by
  unfold BrowserModel.LoadHoldsKeys
  infer_instance

/-- The Shell after key `2` on a new Shell: `Update` answers the key with
`activate(tabDomains)`, which runs `Init` of the Domains browser; its list
load is in flight. -/
def loadingDomainsShell : ShellModel := ((NewShellModel none).Init.1.activate .tabDomains).1

/-- The key event of `/`. -/
def slashKey : KeyMsg := runeKey (Char.ofNat 47)

/-! ## Theorems: layout.go -/

/-- A value inside the signed 64-bit range is not changed by wrapping. -/
theorem wrap64_of_range (x : Int) (h : -(2 ^ 63) ≤ x ∧ x < 2 ^ 63) : wrap64 x = x := by
  unfold wrap64
  rw [Int.emod_eq_of_lt (by omega) (by omega)]
  omega

/-- On slice-sized inputs (below `2^62`) no step of `windowRange` wraps: the
64-bit execution and the unbounded arithmetic agree. -/
theorem windowRange_no_wrap (total selected capacity : Int)
    (ht : total < 2 ^ 62) (hs : -(2 ^ 63) ≤ selected ∧ selected < 2 ^ 63)
    (hc : -(2 ^ 63) ≤ capacity ∧ capacity < 2 ^ 63) :
    windowRange total selected capacity = windowRangeIdeal total selected capacity := by
  unfold windowRange windowRangeIdeal
  by_cases h0 : total ≤ 0
  · simp [h0]
  by_cases h1 : capacity ≤ 0 ∨ total ≤ capacity
  · simp [h0, h1]
  have hd : Int.tdiv capacity 2 = capacity / 2 :=
    Int.tdiv_eq_ediv (by omega) (by decide)
  have e1 : wrap64 (total - 1) = total - 1 := wrap64_of_range _ (by omega)
  have e4 : wrap64 (total - capacity) = total - capacity := wrap64_of_range _ (by omega)
  have e2 : ∀ s : Int, 0 ≤ s → s < total →
      wrap64 (s - capacity / 2) = s - capacity / 2 :=
    fun s _ _ => wrap64_of_range _ (by omega)
  have e3 : ∀ s : Int, 0 ≤ s → s < total → wrap64 (s + capacity) = s + capacity :=
    fun s _ _ => wrap64_of_range _ (by omega)
  simp only [if_neg h0, if_neg h1, hd, e1, e4]
  by_cases hs0 : selected < 0
  · simp only [if_pos hs0]
    have hs1 : ¬ ((0 : Int) ≥ total) := by omega
    rw [if_neg hs1, e2 0 (le_refl 0) (by omega)]
    by_cases hst : 0 - capacity / 2 < 0
    · rw [if_pos hst, e3 0 (le_refl 0) (by omega)]
    · rw [if_neg hst, e3 _ (by omega) (by omega)]
  · simp only [if_neg hs0]
    by_cases hs1 : selected ≥ total
    · simp only [if_pos hs1]
      rw [e2 (total - 1) (by omega) (by omega)]
      by_cases hst : total - 1 - capacity / 2 < 0
      · rw [if_pos hst, e3 0 (le_refl 0) (by omega)]
      · rw [if_neg hst, e3 _ (by omega) (by omega)]
    · simp only [if_neg hs1]
      rw [e2 selected (by omega) (by omega)]
      by_cases hst : selected - capacity / 2 < 0
      · rw [if_pos hst, e3 0 (le_refl 0) (by omega)]
      · rw [if_neg hst, e3 _ (by omega) (by omega)]

/-- A sum that passes the largest `int` by less than `2^64` wraps to a
negative value. -/
theorem wrap64_of_overflow (x : Int) (h : 2 ^ 63 ≤ x ∧ x < 2 ^ 64) :
    wrap64 x = x - 2 ^ 64 := by
  unfold wrap64
  have e : x + 2 ^ 63 = (x + 2 ^ 63 - 2 ^ 64) + 2 ^ 64 := by omega
  rw [e, Int.add_emod_self, Int.emod_eq_of_lt (by omega) (by omega)]
  omega

/-- C1 (as stated, refuted): for the total `2^63 - 1` (the largest `int`),
the selection `2^63 - 2` and the capacity `4`, the sum `start + capacity`
wraps; `windowRange` returns `(2^63 - 4, -2^63)`, a window that does not
hold the selection. -/
theorem windowRange_wrap_counterexample :
    (0 : Int) ≤ 2 ^ 63 - 1 ∧ (0 : Int) < 4 ∧ (0 : Int) ≤ 2 ^ 63 - 2 ∧
      (2 ^ 63 - 2 : Int) < 2 ^ 63 - 1 ∧
      windowRange (2 ^ 63 - 1) (2 ^ 63 - 2) 4 = (2 ^ 63 - 4, -(2 ^ 63)) ∧
      ¬ ((2 ^ 63 - 2 : Int) < (windowRange (2 ^ 63 - 1) (2 ^ 63 - 2) 4).2) := by
  decide

/-- C1 (amended): for every total `N ≥ 0`, capacity `C > 0` and selection
`0 ≤ S < N`, all of them `int` values, `windowRange N S C` returns
`(start, end)` with `0 ≤ start`, `end ≤ N`, `end - start = min N C` and
`start ≤ S < end` if and only if `N ≤ C` or the sum `max 0 (S - C/2) + C`
that the function computes does not pass the largest `int`, `2^63 - 1`.
That is so for every `N ≤ 2^62`. -/
theorem windowRange_spec (N S C : Int) (hN : 0 ≤ N ∧ N < 2 ^ 63) (hC : 0 < C ∧ C < 2 ^ 63)
    (hS : 0 ≤ S ∧ S < N) :
    ((0 ≤ (windowRange N S C).1 ∧ (windowRange N S C).2 ≤ N ∧
        (windowRange N S C).2 - (windowRange N S C).1 = min N C ∧
        (windowRange N S C).1 ≤ S ∧ S < (windowRange N S C).2) ↔
      (N ≤ C ∨ maxInt 0 (S - Int.tdiv C 2) + C < 2 ^ 63)) ∧
    (N ≤ 2 ^ 62 → N ≤ C ∨ maxInt 0 (S - Int.tdiv C 2) + C < 2 ^ 63) := by
  have hd : Int.tdiv C 2 = C / 2 := Int.tdiv_eq_ediv (by omega) (by decide)
  constructor
  · unfold windowRange maxInt
    rw [hd]
    by_cases h1 : N ≤ C
    · have h0 : ¬ N ≤ 0 := by omega
      simp only [if_neg h0, if_pos (Or.inr h1 : C ≤ 0 ∨ N ≤ C), min_def]
      constructor
      · intro _
        exact Or.inl h1
      · intro _
        refine ⟨le_refl 0, le_refl N, ?_, hS.1, hS.2⟩
        split_ifs <;> omega
    · have h0 : ¬ N ≤ 0 := by omega
      have h2 : ¬ (C ≤ 0 ∨ N ≤ C) := by omega
      have hs0 : ¬ S < 0 := by omega
      have hs1 : ¬ S ≥ N := by omega
      have e1 : wrap64 (S - C / 2) = S - C / 2 := wrap64_of_range _ (by omega)
      have e4 : wrap64 (N - C) = N - C := wrap64_of_range _ (by omega)
      simp only [if_neg h0, if_neg h2, if_neg hs0, if_neg hs1, e1, e4, min_def]
      by_cases hst : S - C / 2 < 0
      · have hst2 : (0 : Int) > S - C / 2 := hst
        simp only [if_pos hst, if_pos hst2]
        by_cases hfit : (0 : Int) + C < 2 ^ 63
        · rw [wrap64_of_range _ (by omega)]
          constructor
          · intro _
            exact Or.inr hfit
          · intro _
            split_ifs <;> simp only [] <;> omega
        · omega
      · have hst2 : ¬ (0 : Int) > S - C / 2 := by omega
        simp only [if_neg hst, if_neg hst2]
        by_cases hfit : S - C / 2 + C < 2 ^ 63
        · rw [wrap64_of_range _ (by omega)]
          constructor
          · intro _
            exact Or.inr hfit
          · intro _
            split_ifs <;> simp only [] <;> omega
        · rw [wrap64_of_overflow _ (by omega)]
          constructor
          · intro h
            split_ifs at h <;> simp only [] at h <;> omega
          · intro h
            omega
  · intro hsmall
    unfold maxInt
    rw [hd]
    by_cases h1 : N ≤ C
    · exact Or.inl h1
    · right
      split_ifs <;> omega

/-- Witness for C1: a 10-entry list, selection 7, capacity 4 gives the window `[5, 9)`. -/
theorem windowRange_spec_witness :
    (0 ≤ (windowRange 10 7 4).1 ∧ (windowRange 10 7 4).2 ≤ 10 ∧
      (windowRange 10 7 4).2 - (windowRange 10 7 4).1 = min 10 4 ∧
      (windowRange 10 7 4).1 ≤ 7 ∧ 7 < (windowRange 10 7 4).2) ∧
    windowRange 10 7 4 = (5, 9) :=
  ⟨(windowRange_spec 10 7 4 (by decide) (by decide) (by decide)).1.mpr (Or.inr (by decide)),
    by decide⟩

/-! ## Theorems: fuzzy matching -/

theorem minInt_eq_min (a b : Int) : minInt a b = min a b := by
  unfold minInt
  split_ifs with h
  · exact (min_eq_left (le_of_lt h)).symm
  · exact (min_eq_right (not_lt.mp h)).symm

theorem fuzzyFind_none (qc : Char) (rest : List Char) (ti : Nat) :
    fuzzyFind qc rest ti = none ↔ qc ∉ rest := by
  induction rest generalizing ti with
  | nil => simp [fuzzyFind]
  | cons c rest ih =>
    unfold fuzzyFind
    by_cases h : c = qc
    · simp [h]
    · have h2 : ¬ qc = c := fun e => h e.symm
      simp [h, h2, ih]

theorem fuzzyFind_some (qc : Char) (rest : List Char) (ti found : Nat) (rest2 : List Char)
    (h : fuzzyFind qc rest ti = some (found, rest2)) :
    ∃ pre, rest = pre ++ qc :: rest2 ∧ qc ∉ pre ∧ found = ti + pre.length := by
  induction rest generalizing ti with
  | nil => simp [fuzzyFind] at h
  | cons c rest ih =>
    unfold fuzzyFind at h
    by_cases hc : c = qc
    · simp only [hc, if_true, Option.some.injEq, Prod.mk.injEq] at h
      exact ⟨[], by simp [hc, h.2], by simp, by simp [h.1]⟩
    · simp only [hc, if_false] at h
      obtain ⟨pre, h1, h2, h3⟩ := ih (ti + 1) h
      refine ⟨c :: pre, by simp [h1], ?_, by simp [h3]; omega⟩
      simp only [List.mem_cons, not_or]
      exact ⟨fun e => hc e.symm, h2⟩

/-- Greedy choice is complete: skipping a prefix without `qc` and consuming
the first `qc` loses no subsequence embedding. -/
theorem cons_sublist_skip (qc : Char) (qs pre rest : List Char) (h : qc ∉ pre) :
    (qc :: qs).Sublist (pre ++ qc :: rest) ↔ qs.Sublist rest := by
  induction pre with
  | nil => simp
  | cons p pre ih =>
    simp only [List.mem_cons, not_or] at h
    rw [List.cons_append, List.sublist_cons_iff]
    constructor
    · rintro (h1 | ⟨r, hr, h1⟩)
      · exact (ih h.2).mp h1
      · simp only [List.cons.injEq] at hr
        exact absurd hr.1 h.1
    · intro h1
      exact Or.inl ((ih h.2).mpr h1)

theorem fuzzyLoop_isSome (tr qs rest : List Char) (ti : Nat) (prev score : Int) :
    (fuzzyLoop tr qs rest ti prev score).isSome = true ↔ qs.Sublist rest := by
  induction qs generalizing rest ti prev score with
  | nil => simp [fuzzyLoop]
  | cons qc qs ih =>
    unfold fuzzyLoop
    cases hf : fuzzyFind qc rest ti with
    | none =>
      have hn := (fuzzyFind_none qc rest ti).mp hf
      simp only [Option.isSome_none, Bool.false_eq_true, false_iff]
      intro hs
      exact hn (hs.subset (List.mem_cons_self _ _))
    | some pr =>
      obtain ⟨found, rest2⟩ := pr
      obtain ⟨pre, h1, h2, _⟩ := fuzzyFind_some qc rest ti found rest2 hf
      simp only []
      rw [ih, h1, cons_sublist_skip qc qs pre rest2 h2]

/-- The match flag of `fuzzyScore` is the subsequence test on the trimmed,
lower-cased query. -/
theorem fuzzyScore_snd (L : Lib) (query target : String) :
    (fuzzyScore L query target).2 =
      decide ((toLower L (trimSpace query.data)).Sublist (toLower L target.data)) := by
  unfold fuzzyScore
  simp only []
  by_cases hq : toLower L (trimSpace query.data) = []
  · simp [hq]
  · rw [if_neg hq]
    have h := fuzzyLoop_isSome (toLower L target.data) (toLower L (trimSpace query.data))
      (toLower L target.data) 0 (-1) 0
    cases hl : fuzzyLoop (toLower L target.data) (toLower L (trimSpace query.data))
        (toLower L target.data) 0 (-1) 0 with
    | none =>
      rw [hl] at h
      simp only [Option.isSome_none, Bool.false_eq_true, false_iff] at h
      simp [h]
    | some sc =>
      rw [hl] at h
      simp only [Option.isSome_some, true_iff] at h
      simp [h]

/-- C2 (as stated, refuted): the query `" "` (one blank) matches the
candidate `"abc"` although the lower-cased query is not a subsequence of the
lower-cased candidate, because `fuzzyScore` trims the query first. -/
theorem fuzzyScore_untrimmed_counterexample :
    (fuzzyScore refLib " " "abc").2 = true ∧
      ¬ (toLower refLib " ".data).Sublist (toLower refLib "abc".data) := by
  decide

/-- C2 (amended): for every query and candidate label, `fuzzyScore` reports a
match if and only if the lower-case form of the candidate contains the
lower-case form of the query, with its surrounding white space trimmed, as an
ordered subsequence of characters. -/
theorem fuzzyScore_match_iff (L : Lib) (query target : String) :
    (fuzzyScore L query target).2 = true ↔
      (toLower L (trimSpace query.data)).Sublist (toLower L target.data) := by
  rw [fuzzyScore_snd]
  exact decide_eq_true_iff

theorem fuzzyStep_eq (tr : List Char) (found : Nat) (prev score : Int) :
    fuzzyStep tr found prev score =
      score + 10 + (if found = 0 then 12 else 0) + (if afterSeparator tr found then 8 else 0)
        + (if prev ≥ 0 then
            (if (found : Int) - prev - 1 = 0 then 10 else -(min ((found : Int) - prev - 1) 6))
          else 0) := by
  unfold fuzzyStep afterSeparator
  simp only [minInt_eq_min]
  by_cases h0 : found = 0
  · subst h0
    simp only [lt_self_iff_false, decide_False, Bool.false_and, if_true]
    by_cases hprev : prev ≥ 0
    · simp only [if_pos hprev, Bool.false_eq_true, if_false, min_def]
      split_ifs <;> omega
    · simp only [if_neg hprev, Bool.false_eq_true, if_false]
      omega
  · have hp : 0 < found := Nat.pos_of_ne_zero h0
    simp only [h0, if_false, hp, decide_True, Bool.true_and, Bool.or_eq_true, beq_iff_eq]
    by_cases hs : tr[found - 1]? = some '.' ∨ tr[found - 1]? = some '-' ∨ tr[found - 1]? = some '_'
    · have hs2 : (tr[found - 1]? = some '.' ∨ tr[found - 1]? = some '-') ∨ tr[found - 1]? = some '_' := by
        rcases hs with h | h | h
        · exact Or.inl (Or.inl h)
        · exact Or.inl (Or.inr h)
        · exact Or.inr h
      simp only [if_pos hs, if_pos hs2]
      split_ifs <;> omega
    · have hs2 : ¬ ((tr[found - 1]? = some '.' ∨ tr[found - 1]? = some '-') ∨ tr[found - 1]? = some '_') := by
        rintro ((h | h) | h)
        · exact hs (Or.inl h)
        · exact hs (Or.inr (Or.inl h))
        · exact hs (Or.inr (Or.inr h))
      simp only [if_neg hs, if_neg hs2]
      split_ifs <;> omega

/-- The scan of the code and the `indexOf` of the specification locate the
same position. -/
theorem fuzzyFind_drop (tr : List Char) (qc : Char) (ti : Nat) :
    fuzzyFind qc (tr.drop ti) ti =
      if (tr.drop ti).indexOf qc < (tr.drop ti).length then
        some (ti + (tr.drop ti).indexOf qc, tr.drop (ti + (tr.drop ti).indexOf qc + 1))
      else none := by
  cases hf : fuzzyFind qc (tr.drop ti) ti with
  | none =>
    have hn := (fuzzyFind_none qc _ ti).mp hf
    have : ¬ (tr.drop ti).indexOf qc < (tr.drop ti).length := by
      rw [List.indexOf_lt_length]
      exact hn
    rw [if_neg this]
  | some pr =>
    obtain ⟨found, rest2⟩ := pr
    obtain ⟨pre, h1, h2, h3⟩ := fuzzyFind_some qc _ ti found rest2 hf
    have hi : (tr.drop ti).indexOf qc = pre.length := by
      rw [h1, List.indexOf_append_of_not_mem h2]
      simp
    have hlt : (tr.drop ti).indexOf qc < (tr.drop ti).length := by
      rw [List.indexOf_lt_length, h1]
      simp
    rw [if_pos hlt, hi, ← h3]
    have hd : tr.drop (found + 1) = rest2 := by
      have : tr.drop (found + 1) = (tr.drop ti).drop (pre.length + 1) := by
        rw [List.drop_drop, h3]
        congr 1
      rw [this, h1]
      simp
    rw [hd]

/-- The outer loop computes the greedy positions and adds `loopGain` to the
running score. -/
theorem fuzzyLoop_eq (tr qs : List Char) (ti : Nat) (prev score : Int) :
    fuzzyLoop tr qs (tr.drop ti) ti prev score =
      (greedyPositions tr qs ti).map (fun ps => score + loopGain tr prev ps) := by
  induction qs generalizing ti prev score with
  | nil => simp [fuzzyLoop, greedyPositions, loopGain, adjFrom]
  | cons qc qs ih =>
    unfold fuzzyLoop greedyPositions
    rw [fuzzyFind_drop]
    simp only []
    by_cases hlt : (tr.drop ti).indexOf qc < (tr.drop ti).length
    · simp only [if_pos hlt]
      rw [ih]
      simp only [Option.map_map]
      congr 1
      funext ps
      simp only [Function.comp, fuzzyStep_eq, loopGain, adjFrom, List.length_cons,
        List.count_cons, List.countP_cons, beq_iff_eq]
      push_cast
      split_ifs <;> simp_all <;> omega
    · simp only [if_neg hlt, Option.map_none']

theorem greedyPositions_cons (t qs : List Char) (qc : Char) (start : Nat) (ps : List Nat)
    (h : greedyPositions t (qc :: qs) start = some ps) :
    ∃ p ps2, ps = p :: ps2 ∧ start ≤ p ∧ greedyPositions t qs (p + 1) = some ps2 := by
  unfold greedyPositions at h
  simp only [] at h
  split_ifs at h with hlt
  cases hg : greedyPositions t qs (start + (t.drop start).indexOf qc + 1) with
  | none =>
    rw [hg] at h
    simp at h
  | some ps2 =>
    rw [hg] at h
    simp only [Option.map_some', Option.some.injEq] at h
    exact ⟨_, ps2, h.symm, Nat.le_add_right _ _, hg⟩

theorem greedyPositions_ge (t qs : List Char) (start : Nat) (ps : List Nat)
    (h : greedyPositions t qs start = some ps) : ∀ p ∈ ps, start ≤ p := by
  induction qs generalizing start ps with
  | nil =>
    simp only [greedyPositions, Option.some.injEq] at h
    subst h
    simp
  | cons qc qs ih =>
    obtain ⟨p, ps2, rfl, hle, hg⟩ := greedyPositions_cons t qs qc start ps h
    intro x hx
    simp only [List.mem_cons] at hx
    rcases hx with hx | hx
    · omega
    · have := ih _ _ hg x hx
      omega

theorem adjFrom_nat (a : Nat) (ps : List Nat) :
    adjFrom (a : Int) ps = (((a :: ps).zip ps).map (fun ab => adjacency ab.1 ab.2)).sum := by
  induction ps generalizing a with
  | nil => simp [adjFrom]
  | cons p ps ih =>
    simp only [adjFrom, List.zip_cons_cons, List.map_cons, List.sum_cons, ih, adjacency]
    have h0 : (a : Int) ≥ 0 := Int.natCast_nonneg a
    simp only [if_pos h0]
    congr 1
    split_ifs <;> omega

theorem adjFrom_neg_one (ps : List Nat) :
    adjFrom (-1) ps = ((ps.zip ps.tail).map (fun ab => adjacency ab.1 ab.2)).sum := by
  cases ps with
  | nil => simp [adjFrom]
  | cons p ps =>
    have h0 : ¬ ((-1 : Int) ≥ 0) := by decide
    simp only [adjFrom, if_neg h0, zero_add, List.tail_cons, adjFrom_nat]

/-- Started from position `0` with `prev = -1`, the gain of the loop is the
specified score without the length term. -/
theorem loopGain_eq (t qs : List Char) (ps : List Nat)
    (h : greedyPositions t qs 0 = some ps) :
    loopGain t (-1) ps - min ((t.length : Int) / 8) 6 = positionsScore t ps := by
  have hcount : ((ps.count 0 : Nat) : Int) * 12 = if ps.head? = some 0 then 12 else 0 := by
    cases qs with
    | nil =>
      simp only [greedyPositions, Option.some.injEq] at h
      subst h
      simp
    | cons qc qs =>
      obtain ⟨p, ps2, rfl, _, hg⟩ := greedyPositions_cons t qs qc 0 ps h
      have hge := greedyPositions_ge _ _ _ _ hg
      have hz : ps2.count 0 = 0 := by
        rw [List.count_eq_zero]
        intro hm
        have := hge 0 hm
        omega
      simp only [List.count_cons, hz, List.head?_cons, Option.some.injEq, beq_iff_eq]
      split_ifs <;> simp_all
  unfold loopGain positionsScore
  rw [adjFrom_neg_one]
  omega

/-- The whole of `fuzzyScore` in terms of the specified score of the trimmed
query. -/
theorem fuzzyScore_eq (L : Lib) (query target : String) :
    fuzzyScore L query target =
      match specScore L (trimSpace query.data) target with
      | some s => (s, true)
      | none => (0, false) := by
  unfold fuzzyScore specScore
  simp only []
  by_cases hq : toLower L (trimSpace query.data) = []
  · simp [hq]
  · rw [if_neg hq, if_neg hq]
    have hl := fuzzyLoop_eq (toLower L target.data) (toLower L (trimSpace query.data)) 0 (-1) 0
    rw [List.drop_zero] at hl
    rw [hl]
    cases hg : greedyPositions (toLower L target.data) (toLower L (trimSpace query.data)) 0 with
    | none => rfl
    | some ps =>
      have hd : Int.tdiv ((toLower L target.data).length : Int) 8
          = ((toLower L target.data).length : Int) / 8 :=
        Int.tdiv_eq_ediv (Int.natCast_nonneg _) (by decide)
      simp only [Option.map_some', zero_add, minInt_eq_min, hd, loopGain_eq _ _ _ hg]

/-- C3 (as stated, refuted): for the query `" a"` and the candidate `" a"`
the code matches with score `10` (the blank is trimmed, `a` sits at position
1 after a blank), while the stated formula over the two query characters
gives `42`. -/
theorem fuzzyScore_formula_counterexample :
    fuzzyScore refLib " a" " a" = (10, true) ∧ specScore refLib " a".data " a" = some 42 := by
  decide

/-- C3 (amended): for every query and candidate that match, `fuzzyScore`
returns exactly the specified score of the query with its surrounding white
space trimmed: `0` when that is empty, otherwise `10*k`, `+12` if `p1 = 0`,
`+8` per match preceded by `.`, `-` or `_`, `+10` per adjacent pair or minus
`min(gap, 6)`, minus `min(L/8, 6)`, over the greedy positions. -/
theorem fuzzyScore_eq_specScore (L : Lib) (query target : String)
    (h : (fuzzyScore L query target).2 = true) :
    specScore L (trimSpace query.data) target = some (fuzzyScore L query target).1 := by
  rw [fuzzyScore_eq] at h ⊢
  cases hs : specScore L (trimSpace query.data) target with
  | none => simp [hs] at h
  | some s => rfl

/-- Witness for C3: `"dev"` against `"acme.dev"` matches with the specified score `57`. -/
theorem fuzzyScore_eq_specScore_witness :
    (fuzzyScore refLib "dev" "acme.dev").2 = true ∧
      specScore refLib (trimSpace "dev".data) "acme.dev" = some 57 :=
  ⟨by decide, fuzzyScore_eq_specScore refLib "dev" "acme.dev" (by decide)⟩

/-! ## Theorems: the domain search -/

theorem trimSpace_idem (s : List Char) : trimSpace (trimSpace s) = trimSpace s := by
  unfold trimSpace
  have h1 : List.dropWhile isSpace ((s.dropWhile isSpace).rdropWhile isSpace)
      = (s.dropWhile isSpace).rdropWhile isSpace := by
    rw [List.dropWhile_eq_self_iff]
    intro hl
    have hpre := List.rdropWhile_prefix isSpace (l := s.dropWhile isSpace)
    have hpos : 0 < (s.dropWhile isSpace).length := lt_of_lt_of_le hl hpre.length_le
    have hnot := List.dropWhile_get_zero_not isSpace s hpos
    have heq : ((s.dropWhile isSpace).rdropWhile isSpace).get ⟨0, hl⟩
        = (s.dropWhile isSpace).get ⟨0, hpos⟩ := by
      simp only [List.get_eq_getElem]
      exact hpre.getElem hl
    rw [heq]
    exact hnot
  rw [h1, List.rdropWhile_eq_self_iff]
  intro hl
  exact List.rdropWhile_last_not isSpace _ hl

/-- Trimming the query before the call changes nothing: `fuzzyScore` trims it again. -/
theorem fuzzyScore_trim (L : Lib) (query target : String) :
    fuzzyScore L (String.mk (trimSpace query.data)) target = fuzzyScore L query target := by
  unfold fuzzyScore
  simp only [trimSpace_idem]

theorem mem_collectMatches (L : Lib) (q : String) (items : List browserItem) (k : Int)
    (x : domainSearchMatch) :
    x ∈ collectMatches L q items k ↔
      ∃ j : Nat, ∃ item, items[j]? = some item ∧ x.itemIndex = k + j ∧
        fuzzyScore L q item.Title = (x.score, true) := by
  induction items generalizing k with
  | nil => simp [collectMatches]
  | cons it rest ih =>
    unfold collectMatches
    constructor
    · intro hx
      split_ifs at hx with hm
      · rcases List.mem_cons.mp hx with rfl | hx
        · exact ⟨0, it, by simp, by simp, by
            simp only []
            exact Prod.ext rfl hm⟩
        · obtain ⟨j, item, h1, h2, h3⟩ := (ih (k + 1)).mp hx
          exact ⟨j + 1, item, by simpa using h1, by rw [h2]; push_cast; ring, h3⟩
      · obtain ⟨j, item, h1, h2, h3⟩ := (ih (k + 1)).mp hx
        exact ⟨j + 1, item, by simpa using h1, by rw [h2]; push_cast; ring, h3⟩
    · rintro ⟨j, item, h1, h2, h3⟩
      cases j with
      | zero =>
        simp only [List.getElem?_cons_zero, Option.some.injEq] at h1
        subst h1
        have hm : (fuzzyScore L q it.Title).2 = true := by rw [h3]
        rw [if_pos hm]
        refine List.mem_cons.mpr (Or.inl ?_)
        cases x with
        | mk xi xs =>
          simp only [Nat.cast_zero, add_zero] at h2
          simp only [] at h3
          simp only [domainSearchMatch.mk.injEq]
          exact ⟨h2, by rw [h3]⟩
      | succ j =>
        simp only [List.getElem?_cons_succ] at h1
        have hx : x ∈ collectMatches L q rest (k + 1) :=
          (ih (k + 1)).mpr ⟨j, item, h1, by rw [h2]; push_cast; ring, h3⟩
        split_ifs
        · exact List.mem_cons_of_mem _ hx
        · exact hx

theorem collectMatches_increasing (L : Lib) (q : String) (items : List browserItem) (k : Int) :
    ((collectMatches L q items k).map (fun x => x.itemIndex)).Pairwise (· < ·) := by
  induction items generalizing k with
  | nil => simp [collectMatches]
  | cons it rest ih =>
    unfold collectMatches
    split_ifs
    · simp only [List.map_cons, List.pairwise_cons]
      refine ⟨?_, ih (k + 1)⟩
      intro i hi
      obtain ⟨x, hx, rfl⟩ := List.mem_map.mp hi
      obtain ⟨j, _, _, h2, _⟩ := (mem_collectMatches L q rest (k + 1) x).mp hx
      omega
    · exact ih (k + 1)

theorem runesLt_asymm (a b : List Char) (h : runesLt a b) : ¬ runesLt b a :=
  fun h2 => (asymm (r := List.Lex (· < ·)) h) h2

theorem runesLt_conn (a b c : List Char) (h : runesLt a c) : runesLt a b ∨ runesLt b c :=
  @IsOrderConnected.conn (List Char) (List.Lex (· < ·)) _ a b c h

theorem searchLess_false_iff (L : Lib) (items : List browserItem) (a b : domainSearchMatch) :
    searchLess L items b a = false ↔ rankedBefore L items a b := by
  unfold searchLess rankedBefore
  by_cases hs : b.score = a.score
  · simp only [hs, if_true, decide_eq_false_iff_not, gt_iff_lt, lt_self_iff_false, false_or,
      true_and]
  · simp only [hs, if_false, decide_eq_false_iff_not, gt_iff_lt, not_lt]
    constructor
    · intro h
      exact Or.inl (lt_of_le_of_ne h hs)
    · rintro (h | ⟨h, _⟩)
      · exact le_of_lt h
      · exact absurd h.symm hs

theorem searchLess_total (L : Lib) (items : List browserItem) :
    IsTotal domainSearchMatch (fun a b => searchLess L items b a = false) := by
  refine ⟨fun a b => ?_⟩
  · show searchLess L items b a = false ∨ searchLess L items a b = false
    simp only [searchLess_false_iff]
    unfold rankedBefore
    rcases lt_trichotomy a.score b.score with h | h | h
    · exact Or.inr (Or.inl h)
    · by_cases ht : runesLt (lowerTitleAt L items b.itemIndex) (lowerTitleAt L items a.itemIndex)
      · exact Or.inr (Or.inr ⟨h.symm, runesLt_asymm _ _ ht⟩)
      · exact Or.inl (Or.inr ⟨h, ht⟩)
    · exact Or.inl (Or.inl h)

theorem searchLess_trans (L : Lib) (items : List browserItem) :
    IsTrans domainSearchMatch (fun a b => searchLess L items b a = false) := by
  refine ⟨fun a b c => ?_⟩
  · show searchLess L items b a = false → searchLess L items c b = false →
      searchLess L items c a = false
    simp only [searchLess_false_iff]
    unfold rankedBefore
    rintro (h1 | ⟨h1, t1⟩) (h2 | ⟨h2, t2⟩)
    · exact Or.inl (lt_trans h2 h1)
    · exact Or.inl (h2 ▸ h1)
    · exact Or.inl (h1 ▸ h2)
    · refine Or.inr ⟨h1.trans h2, fun h => ?_⟩
      rcases runesLt_conn _ (lowerTitleAt L items b.itemIndex) _ h with h3 | h3
      · exact t2 h3
      · exact t1 h3

/-- The result of the stable sort is ranked: every earlier match is
`rankedBefore` every later one. -/
theorem sortSliceStable_ranked (L : Lib) (items : List browserItem)
    (xs : List domainSearchMatch) :
    (sortSliceStable (searchLess L items) xs).Pairwise (rankedBefore L items) := by
  haveI := searchLess_total L items
  haveI := searchLess_trans L items
  have h := List.sorted_insertionSort (fun a b => searchLess L items b a = false) xs
  unfold sortSliceStable
  exact List.Pairwise.imp (fun {a b} hab => (searchLess_false_iff L items a b).mp hab) h

theorem sortSliceStable_perm {α : Type} (less : α → α → Bool) (xs : List α) :
    (sortSliceStable less xs).Perm xs :=
  List.perm_insertionSort _ xs

/-- C4: on the Domains list, the match list computed by
`updateSearchMatches` holds exactly the items whose title fuzzy-matches the
typed query, each exactly once with its original item index and its
`fuzzyScore`, ordered by descending score and, among equal scores, by
ascending lower-case title. -/
theorem updateSearchMatches_spec (L : Lib) (m : BrowserModel)
    (hc : m.category = .categoryDomains) (hs : m.screen = .browserDomainsList) :
    (∀ i s, ({ itemIndex := i, score := s } : domainSearchMatch)
        ∈ (m.updateSearchMatches L).search.matchList ↔
      ∃ item, index? m.items i = some item ∧
        fuzzyScore L (String.mk m.search.input.value) item.Title = (s, true)) ∧
    ((m.updateSearchMatches L).search.matchList.map (fun x => x.itemIndex)).Nodup ∧
    (m.updateSearchMatches L).search.matchList.Pairwise (rankedBefore L m.items) := by
  have hml : (m.updateSearchMatches L).search.matchList =
      sortSliceStable (searchLess L m.items)
        (collectMatches L (String.mk (trimSpace m.search.input.value)) m.items 0) := by
    unfold BrowserModel.updateSearchMatches
    have hn : ¬ (m.category ≠ .categoryDomains ∨ m.screen ≠ .browserDomainsList) := by
      simp [hc, hs]
    rw [if_neg hn]
    simp only []
    split_ifs <;> rfl
  have hperm := sortSliceStable_perm (searchLess L m.items)
    (collectMatches L (String.mk (trimSpace m.search.input.value)) m.items 0)
  rw [hml]
  refine ⟨?_, ?_, sortSliceStable_ranked L m.items _⟩
  · intro i s
    rw [hperm.mem_iff, mem_collectMatches]
    have ht := fun t => fuzzyScore_trim L (String.mk m.search.input.value) t
    simp only [] at ht
    simp only [ht, zero_add]
    unfold index?
    constructor
    · rintro ⟨j, item, h1, h2, h3⟩
      refine ⟨item, ?_, h3⟩
      have : ¬ (i < 0) := by omega
      rw [if_neg this, h2]
      simpa using h1
    · rintro ⟨item, h1, h3⟩
      split_ifs at h1 with hneg
      refine ⟨i.toNat, item, h1, ?_, h3⟩
      omega
  · rw [(hperm.map _).nodup_iff]
    exact (collectMatches_increasing L _ m.items 0).imp (fun h => ne_of_lt h)

/-- Witness for C4: with the empty query both domains match with score `0`
and `acme.dev` (item 1) is ranked before `beta-labs.io` (item 0). -/
theorem updateSearchMatches_spec_witness :
    (twoDomains.category = .categoryDomains ∧ twoDomains.screen = .browserDomainsList) ∧
    (twoDomains.updateSearchMatches refLib).search.matchList
      = [{ itemIndex := 1, score := 0 }, { itemIndex := 0, score := 0 }] ∧
    (twoDomains.updateSearchMatches refLib).search.matchList.Pairwise
      (rankedBefore refLib twoDomains.items) :=
  ⟨⟨rfl, rfl⟩, by decide, (updateSearchMatches_spec refLib twoDomains rfl rfl).2.2⟩

/-- C5 (as stated, refuted): after a reload fails while the search modal is
open, the modal is visible with two matches over an empty item list; Enter
then closes the modal and sets `selected` to the match's index `1`, but opens
no dashboard: the screen stays the Domains list and no command is issued. -/
theorem search_enter_stale_counterexample :
    ∃ m m2, staleSearchRun = some m ∧
      m.category = .categoryDomains ∧ m.search.visible = true ∧ m.search.matchList.length = 2 ∧
      m.Update refLib (.key enterKey) = some (m2, []) ∧
      m2.selected = 1 ∧ m2.search.visible = false ∧ m2.screen = .browserDomainsList ∧
      m2.items = [] := by
  refine ⟨_, _, rfl, ?_, ?_, ?_, rfl, ?_, ?_, ?_, ?_⟩ <;> decide

/-- C5 (amended): in a Domains browser whose search modal is visible over the
Domains list, when the highlighted match exists and its item index is a valid
index into the current item list, an Enter key event sets `selected` to that
index, closes the search modal and opens a Domain Dashboard for the key of
that item: the screen becomes the dashboard and the dashboard load is issued. -/
theorem search_enter_opens_dashboard (L : Lib) (m : BrowserModel) (k : KeyMsg)
    (mt : domainSearchMatch) (item : browserItem)
    (hc : m.category = .categoryDomains) (hs : m.screen = .browserDomainsList)
    (hv : m.search.visible = true) (hk : k.name = "enter")
    (hm : index? m.search.matchList m.search.selected = some mt)
    (hi : index? m.items mt.itemIndex = some item) :
    ∃ m2, m.Update L (.key k) =
        some (m2, [CmdAtom.spinnerTick, CmdAtom.loadDashboard item.Key]) ∧
      m2.selected = mt.itemIndex ∧ m2.search.visible = false ∧ m2.search.matchList = [] ∧
      m2.screen = .browserDomainDashboard ∧ m2.domainDash.domain = item.Key ∧
      m2.domainDash.loading = true ∧ m2.items = m.items := by
  have hlen : m.search.matchList.length ≠ 0 := by
    intro h0
    rw [List.length_eq_zero] at h0
    rw [h0] at hm
    unfold index? at hm
    split_ifs at hm
    simp at hm
  have hrange : mt.itemIndex ≥ 0 ∧ mt.itemIndex < (m.items.length : Int) := by
    unfold index? at hi
    split_ifs at hi with hneg
    have := (List.getElem?_eq_some_iff.mp hi).1
    omega
  have hE : keyMatches k keys.Enter = true := by
    simp [keyMatches, keys, hk]
  have hU : m.Update L (.key k) = m.updateSearchModal L k := by
    unfold BrowserModel.Update
    rw [hv]
  rw [hU]
  unfold BrowserModel.updateSearchModal
  simp only [hk, hE, hlen, hm, if_false, if_true]
  simp only [BrowserModel.closeSearchModal, hc, hs, hrange.1, hrange.2, and_self, if_true, hi,
    Option.map_some', BrowserModel.openDashboard, String.reduceEq]
  refine ⟨_, rfl, ?_⟩
  simp [DomainDashboardModel.Init, DomainDashboardModel.SetSize, NewDomainDashboardModel,
    DomainDashboardModel.loadDashboardCmd, teaBatch]

/-- Witness for C5: with the search open over `beta-labs.io`, `acme.dev`,
Enter on the first match opens the dashboard of `acme.dev`. -/
theorem search_enter_opens_dashboard_witness :
    ∃ m2, (twoDomains.openSearchModal refLib).Update refLib (.key enterKey) =
        some (m2, [CmdAtom.spinnerTick, CmdAtom.loadDashboard "acme.dev"]) ∧
      m2.selected = 1 ∧ m2.search.visible = false ∧ m2.search.matchList = [] ∧
      m2.screen = .browserDomainDashboard ∧ m2.domainDash.domain = "acme.dev" ∧
      m2.domainDash.loading = true ∧ m2.items = (twoDomains.openSearchModal refLib).items :=
  search_enter_opens_dashboard refLib (twoDomains.openSearchModal refLib) enterKey
    { itemIndex := 1, score := 0 }
    { Key := "acme.dev", Title := "acme.dev", Subtitle := "", ID := 1 }
    (by decide) (by decide) (by decide) (by decide) (by decide) (by decide)

/-! ## Theorems: the confirmation modal and the dashboard load -/

theorem enter_matches (k : KeyMsg) (hk : k.name = "enter") :
    keyMatches k keys.Enter = true ∧ keyMatches k keys.Back = false := by
  simp [keyMatches, keys, hk]

/-- C6: with the confirmation modal visible and not busy, an Enter key event
issues the mutation command and marks the modal busy if and only if the
trimmed input text is exactly `confirm`; for any other input no command is
issued, the modal stays open and not busy, and the inline error is set. -/
theorem confirm_gate (L : Lib) (m : DomainDashboardModel) (k : KeyMsg)
    (hv : m.modal.visible = true) (hb : m.modal.busy = false) (hk : k.name = "enter") :
    ∃ m2 cmd, m.Update L (.key k) = some (m2, cmd) ∧
      (cmd.any CmdAtom.isMutation = true ↔ trimSpace m.modal.input.value = "confirm".data) ∧
      (m2.modal.busy = true ↔ trimSpace m.modal.input.value = "confirm".data) ∧
      (trimSpace m.modal.input.value = "confirm".data →
        cmd = teaBatch [[CmdAtom.spinnerTick], m.mutationCmd] ∧ m2.modal.visible = true) ∧
      (trimSpace m.modal.input.value ≠ "confirm".data →
        cmd = [] ∧ m2.modal.visible = true ∧ m2.modal.busy = false ∧
          m2.modal.errMsg = "Type confirm to proceed" ∧ m2.modal.input = m.modal.input) := by
  obtain ⟨hE, hB⟩ := enter_matches k hk
  unfold DomainDashboardModel.Update
  simp only [hv, if_true]
  unfold DomainDashboardModel.updateModal
  simp only [hE, hB, hb, Bool.false_eq_true, false_and, and_self, if_false, if_true]
  by_cases hc : trimSpace m.modal.input.value = "confirm".data
  · have hn : ¬ (trimSpace m.modal.input.value ≠ "confirm".data) := not_not.mpr hc
    rw [if_neg hn]
    refine ⟨_, _, rfl, ?_, ?_, ?_, ?_⟩
    · simp [hc, teaBatch, DomainDashboardModel.mutationCmd, CmdAtom.isMutation]
    · simp [hc]
    · intro _
      refine ⟨?_, hv⟩
      simp [teaBatch, DomainDashboardModel.mutationCmd, DomainDashboardModel.selectedRecordPtr]
    · intro h
      exact absurd hc h
  · rw [if_pos hc]
    refine ⟨_, _, rfl, ?_, ?_, ?_, ?_⟩
    · simp [hc]
    · simp [hc, hb]
    · intro h
      exact absurd h hc
    · intro _
      exact ⟨rfl, hv, rfl, rfl, rfl⟩

/-- Witness for C6: the text ` Confirm` (wrong case) is refused on Enter. -/
theorem confirm_gate_witness :
    ∃ m2 cmd, (confirmOpen " Confirm").Update refLib (.key enterKey) = some (m2, cmd) ∧
      (cmd.any CmdAtom.isMutation = true ↔
        trimSpace (confirmOpen " Confirm").modal.input.value = "confirm".data) ∧
      (m2.modal.busy = true ↔
        trimSpace (confirmOpen " Confirm").modal.input.value = "confirm".data) ∧
      (trimSpace (confirmOpen " Confirm").modal.input.value = "confirm".data →
        cmd = teaBatch [[CmdAtom.spinnerTick], (confirmOpen " Confirm").mutationCmd] ∧
          m2.modal.visible = true) ∧
      (trimSpace (confirmOpen " Confirm").modal.input.value ≠ "confirm".data →
        cmd = [] ∧ m2.modal.visible = true ∧ m2.modal.busy = false ∧
          m2.modal.errMsg = "Type confirm to proceed" ∧
          m2.modal.input = (confirmOpen " Confirm").modal.input) :=
  confirm_gate refLib (confirmOpen " Confirm") enterKey (by decide) (by decide) (by decide)

/-- C7 (as stated, refuted): a busy delete-domain modal receives the failed
mutation result; the modal is closed, not left open. -/
theorem mutation_error_closes_modal_counterexample :
    confirmBusy.modal.visible = true ∧ confirmBusy.modal.busy = true ∧
      (runMutation failingBackend .mutationDeleteDomain "acme.dev" 0).err
        = some "failed to delete domain: boom" ∧
      (confirmBusy.Update refLib (.domainDashboardMutation
          (runMutation failingBackend .mutationDeleteDomain "acme.dev" 0))).map
        (fun r => (r.1.modal.visible, r.1.errMsg)) = some (false, "failed to delete domain: boom") := by
  decide

/-- C7 (amended): applying a mutation result that carries an error closes the
confirmation modal (not visible, not busy), puts the error in the
dashboard's error text, clears the loading flag and issues no command; the
status text and the typed confirmation text are unchanged. -/
theorem mutation_error_outcome (L : Lib) (m : DomainDashboardModel)
    (msg : domainDashboardMutationMsg) (e : String) (he : msg.err = some e) :
    ∃ m2, m.Update L (.domainDashboardMutation msg) = some (m2, []) ∧
      m2.modal.visible = false ∧ m2.modal.busy = false ∧ m2.errMsg = e ∧
      m2.loading = false ∧ m2.status = m.status ∧ m2.modal.input = m.modal.input ∧
      m2.modal.action = m.modal.action := by
  unfold DomainDashboardModel.Update DomainDashboardModel.updateMutation
  simp only [he]
  exact ⟨_, rfl, rfl, rfl, rfl, rfl, rfl, rfl, rfl⟩

/-- Witness for C7: the failed delete-domain result applied to the busy modal. -/
theorem mutation_error_outcome_witness :
    ∃ m2, confirmBusy.Update refLib (.domainDashboardMutation
        (runMutation failingBackend .mutationDeleteDomain "acme.dev" 0)) = some (m2, []) ∧
      m2.modal.visible = false ∧ m2.modal.busy = false ∧
      m2.errMsg = "failed to delete domain: boom" ∧
      m2.loading = false ∧ m2.status = confirmBusy.status ∧
      m2.modal.input = confirmBusy.modal.input ∧ m2.modal.action = confirmBusy.modal.action :=
  mutation_error_outcome refLib confirmBusy
    (runMutation failingBackend .mutationDeleteDomain "acme.dev" 0)
    "failed to delete domain: boom" (by decide)

theorem DomainDashboardModel.moveSelection_domain (m : DomainDashboardModel) (delta : Int) :
    (m.moveSelection delta).domain = m.domain := by
  unfold DomainDashboardModel.moveSelection
  split
  · split_ifs <;> rfl
  · split_ifs <;> rfl
  · rfl

theorem DomainDashboardModel.updateModal_domain (L : Lib) (m : DomainDashboardModel) (msg : Msg) :
    (m.updateModal L msg).1.domain = m.domain := by
  unfold DomainDashboardModel.updateModal
  split
  · split_ifs <;> rfl
  · split_ifs <;> rfl
  · rfl

theorem DomainDashboardModel.updateMutation_domain (m : DomainDashboardModel)
    (msg : domainDashboardMutationMsg) : (m.updateMutation msg).1.domain = m.domain := by
  unfold DomainDashboardModel.updateMutation
  simp only []
  split
  · rfl
  · split_ifs <;> rfl

theorem DomainDashboardModel.handleEnter_domain (L : Lib) (m : DomainDashboardModel)
    (r : DomainDashboardModel × Cmd) (h : m.handleEnter L = some r) : r.1.domain = m.domain := by
  unfold DomainDashboardModel.handleEnter at h
  split at h
  · split at h <;> simp only [Option.some.injEq] at h <;> subst h <;> rfl
  · simp only [] at h
    split_ifs at h
    · simp only [Option.some.injEq] at h
      subst h
      rfl
    · split at h
      · exact absurd h (by simp)
      · split_ifs at h <;> simp only [Option.some.injEq] at h <;> subst h <;> rfl
  · simp only [Option.some.injEq] at h
    subst h
    rfl

theorem ite_some_elim {α : Type} {c : Prop} {inst : Decidable c} {a b : Option α} {r : α}
    {P : α → Prop} (h : @ite (Option α) c inst a b = some r)
    (ha : a = some r → P r) (hb : b = some r → P r) : P r := by
  by_cases hc : c
  · rw [if_pos hc] at h
    exact ha h
  · rw [if_neg hc] at h
    exact hb h

theorem DomainDashboardModel.updateKey_domain (L : Lib) (m : DomainDashboardModel) (k : KeyMsg)
    (r : DomainDashboardModel × Cmd) (h : m.updateKey L k = some r) : r.1.domain = m.domain := by
  unfold DomainDashboardModel.updateKey at h
  repeat' first
    | exact DomainDashboardModel.handleEnter_domain L m r h
    | refine ite_some_elim (r := r) (P := fun x => x.1.domain = m.domain) h
        (fun h => ?_) (fun h => ?_)
    | (simp only [Option.some.injEq] at h
       subst h
       first
         | rfl
         | exact DomainDashboardModel.moveSelection_domain m _)
    | (split at h <;> simp only [Option.some.injEq] at h <;> subst h <;> rfl)

/-- No message changes the domain a dashboard was opened for, so the domain
captured by a mutation command is still the dashboard's domain when its
result arrives. -/
theorem DomainDashboardModel.Update_domain (L : Lib) (m : DomainDashboardModel) (msg : Msg)
    (r : DomainDashboardModel × Cmd) (h : m.Update L msg = some r) : r.1.domain = m.domain := by
  unfold DomainDashboardModel.Update at h
  split at h
  · split_ifs at h
    · simp only [Option.some.injEq] at h
      subst h
      exact DomainDashboardModel.updateModal_domain L m _
    · exact DomainDashboardModel.updateKey_domain L m _ r h
  · split_ifs at h
    · simp only [Option.some.injEq] at h
      subst h
      exact DomainDashboardModel.updateModal_domain L m _
    all_goals (simp only [Option.some.injEq] at h; subst h; rfl)
  · simp only [] at h
    split at h
    · simp only [Option.some.injEq] at h
      subst h
      rfl
    · split_ifs at h <;> simp only [Option.some.injEq] at h <;> subst h <;> rfl
  · simp only [] at h
    split at h <;> simp only [Option.some.injEq] at h <;> subst h <;> rfl
  · simp only [] at h
    split at h <;> simp only [Option.some.injEq] at h <;> subst h <;> rfl
  · simp only [] at h
    split at h <;> simp only [Option.some.injEq] at h <;> subst h <;> rfl
  · simp only [] at h
    split at h <;> simp only [Option.some.injEq] at h <;> subst h <;> rfl
  · simp only [Option.some.injEq] at h
    subst h
    exact DomainDashboardModel.updateMutation_domain m _
  · simp only [Option.some.injEq] at h
    subst h
    rfl

/-- C8: the result of a mutation command, applied by `Update`, always closes
the modal (not visible, not busy).  When it carries no error, zone-activate,
zone-deactivate and delete-record set the loading flag and issue a dashboard
reload, while delete-domain instead emits the deleted signal with the
dashboard's domain name and issues no reload.  When it carries an error no
command at all is issued, so a failed delete-domain never emits the deleted
signal. -/
theorem mutation_result_outcome (L : Lib) (m : DomainDashboardModel) (b : Backend)
    (action : confirmMutation) (rid : Int) :
    ∃ m2 cmd, m.Update L (.domainDashboardMutation (runMutation b action m.domain rid))
        = some (m2, cmd) ∧
      m2.modal.visible = false ∧ m2.modal.busy = false ∧
      ((runMutation b action m.domain rid).err = none →
        ((action = .mutationZoneActivate ∨ action = .mutationZoneDeactivate ∨
            action = .mutationDeleteRecord) →
          m2.loading = true ∧ cmd = [CmdAtom.spinnerTick, CmdAtom.loadDashboard m.domain]) ∧
        (action = .mutationDeleteDomain →
          cmd = [CmdAtom.emit (.domainDashboardDeleted m.domain)] ∧ m2.loading = false)) ∧
      ((runMutation b action m.domain rid).err ≠ none → cmd = []) := by
  unfold DomainDashboardModel.Update DomainDashboardModel.updateMutation
  cases action with
  | mutationNone =>
    exact ⟨_, _, rfl, rfl, rfl, by simp [runMutation], by simp [runMutation]⟩
  | mutationZoneActivate =>
    cases h : b.ActivateZoneDNS m.domain <;>
      simp only [runMutation, wrapErr, h] <;>
      refine ⟨_, _, rfl, ?_⟩ <;>
      simp [teaBatch, DomainDashboardModel.loadDashboardCmd]
  | mutationZoneDeactivate =>
    cases h : b.DeactivateZoneDNS m.domain <;>
      simp only [runMutation, wrapErr, h] <;>
      refine ⟨_, _, rfl, ?_⟩ <;>
      simp [teaBatch, DomainDashboardModel.loadDashboardCmd]
  | mutationDeleteRecord =>
    cases h : b.DeleteRecord m.domain rid <;>
      simp only [runMutation, wrapErr, h] <;>
      refine ⟨_, _, rfl, ?_⟩ <;>
      simp [teaBatch, DomainDashboardModel.loadDashboardCmd]
  | mutationDeleteDomain =>
    cases h : b.DeleteDomain m.domain <;>
      simp only [runMutation, wrapErr, h] <;>
      refine ⟨_, _, rfl, ?_⟩ <;>
      simp [teaBatch, DomainDashboardModel.loadDashboardCmd]

/-- Witness for C8: a successful delete-domain closes the busy modal and
emits the deleted signal for `acme.dev`. -/
theorem mutation_result_outcome_witness :
    (runMutation okBackend .mutationDeleteDomain confirmBusy.domain 0).err = none ∧
    ∃ m2 cmd, confirmBusy.Update refLib
        (.domainDashboardMutation (runMutation okBackend .mutationDeleteDomain confirmBusy.domain 0))
        = some (m2, cmd) ∧
      m2.modal.visible = false ∧ m2.modal.busy = false ∧
      cmd = [CmdAtom.emit (.domainDashboardDeleted "acme.dev")] ∧ m2.loading = false := by
  obtain ⟨m2, cmd, h1, h2, h3, h4, _⟩ :=
    mutation_result_outcome refLib confirmBusy okBackend .mutationDeleteDomain 0
  have hok : (runMutation okBackend .mutationDeleteDomain confirmBusy.domain 0).err = none := by
    decide
  exact ⟨hok, m2, cmd, h1, h2, h3, ((h4 hok).2 rfl).1, ((h4 hok).2 rfl).2⟩

/-- While the modal is busy every key event is handed to the text input of
the modal: visibility, busy flag and pending action stay as they are and no
mutation command is issued, but the input itself is replaced by what its
`Update` makes of the key. -/
theorem busy_modal_key (L : Lib) (m : DomainDashboardModel) (k : KeyMsg)
    (hv : m.modal.visible = true) (hb : m.modal.busy = true) :
    m.Update L (.key k) =
      some ({ m with modal := { m.modal with input := (m.modal.input.Update L (.key k)).1 } },
        (m.modal.input.Update L (.key k)).2) ∧
      (m.modal.input.Update L (.key k)).2.any CmdAtom.isMutation = false := by
  unfold DomainDashboardModel.Update DomainDashboardModel.updateModal
  simp only [hv, hb, if_true, Bool.true_eq_false, and_false, if_false, true_and]
  unfold TextInput.Update
  split_ifs <;> simp [CmdAtom.isMutation]

/-- C9 (the code departs from the claim): while the delete-domain modal is
busy, typing `x` changes the input text from `confirm` to `confirmx`, and
`backspace` shortens it to `confir`. -/
theorem busy_modal_typing_edits_text :
    confirmBusy.modal.visible = true ∧ confirmBusy.modal.busy = true ∧
      confirmBusy.modal.input.value = "confirm".data ∧
      (confirmBusy.Update refLib (.key xKey)).map (fun r => r.1.modal.input.value)
        = some "confirmx".data ∧
      (confirmBusy.Update refLib (.key { name := "backspace", runes := [] })).map
        (fun r => r.1.modal.input.value) = some "confir".data := by
  decide

/-- C10: the result of the dashboard load for every backend.  A failing
`getDomain` gives the domain error alone, whatever the other two calls would
answer; a failing `getZone` after that gives the domain, no zone, no records
and one warning; a failing `listRecords` after both gives domain, zone, no
records and one warning; three successes give domain, zone and records with
no warning. -/
theorem loadDashboard_result (b : Backend) (d : String) :
    (∀ e, (b.GetDomain d).2 = some e →
      runLoadDashboard b d =
        { domain := none, zone := none, records := [], warnings := [], err := some e }) ∧
    ((b.GetDomain d).2 = none → ∀ e, (b.GetZone d).2 = some e →
      runLoadDashboard b d =
        { domain := (b.GetDomain d).1, zone := none, records := [],
          warnings := ["zone unavailable: " ++ e], err := none }) ∧
    ((b.GetDomain d).2 = none → (b.GetZone d).2 = none → ∀ e, (b.ListRecords d).2 = some e →
      runLoadDashboard b d =
        { domain := (b.GetDomain d).1, zone := (b.GetZone d).1, records := [],
          warnings := ["records unavailable: " ++ e], err := none }) ∧
    ((b.GetDomain d).2 = none → (b.GetZone d).2 = none → (b.ListRecords d).2 = none →
      runLoadDashboard b d =
        { domain := (b.GetDomain d).1, zone := (b.GetZone d).1, records := (b.ListRecords d).1,
          warnings := [], err := none }) := by
  unfold runLoadDashboard
  rcases hD : b.GetDomain d with ⟨dom, errD⟩
  rcases hZ : b.GetZone d with ⟨zone, errZ⟩
  rcases hR : b.ListRecords d with ⟨recs, errR⟩
  refine ⟨?_, ?_, ?_, ?_⟩
  · intro e he
    simp only [] at he
    subst he
    simp
  · intro h1 e he
    simp only [] at h1 he
    subst h1 he
    simp
  · intro h1 h2 e he
    simp only [] at h1 h2 he
    subst h1 h2 he
    simp
  · intro h1 h2 h3
    simp only [] at h1 h2 h3
    subst h1 h2 h3
    simp

/-- Witness for C10: a backend failing every call yields the domain error
alone; a backend succeeding on every call yields no warning and no error. -/
theorem loadDashboard_result_witness :
    runLoadDashboard failingBackend "acme.dev" =
        { domain := none, zone := none, records := [], warnings := [], err := some "boom" } ∧
      runLoadDashboard okBackend "acme.dev" =
        { domain := none, zone := none, records := [], warnings := [], err := none } :=
  ⟨(loadDashboard_result failingBackend "acme.dev").1 "boom" rfl,
   (loadDashboard_result okBackend "acme.dev").2.2.2 rfl rfl rfl⟩

/-! ## Theorems: dashboard load results and browser navigation -/

/-- C11 (as stated, refuted): a dashboard that already holds the `acme.dev`
snapshot receives a failed refresh; the error text is set, but the cached
domain is still held and the body renders the overview section, not the
failure message alone. -/
theorem failed_refresh_keeps_snapshot_counterexample :
    failedLoad.err = some "network down" ∧
      (refreshingDashboard.Update refLib (.domainDashboardLoaded failedLoad)).map
        (fun r => (r.1.errMsg, r.1.dataDomain, r.1.dashboardBody))
        = some ("network down", some acmeDomain, .sectionText .domainSectionOverview) := by
  decide

/-- C11 (amended): after `Update` applies a load result whose domain load
failed, the error text is that error, the loading flag is cleared, no command
is issued and the cached domain, zone, records and warnings are left as they
were; when no domain is cached and the error text is not empty, the body
renders the failure message alone. -/
theorem failed_load_outcome (L : Lib) (m : DomainDashboardModel)
    (msg : domainDashboardLoadedMsg) (e : String) (he : msg.err = some e) :
    ∃ m2, m.Update L (.domainDashboardLoaded msg) = some (m2, []) ∧
      m2.errMsg = e ∧ m2.loading = false ∧
      m2.dataDomain = m.dataDomain ∧ m2.dataZone = m.dataZone ∧ m2.records = m.records ∧
      m2.warnings = m.warnings ∧
      (m.dataDomain = none → e ≠ "" → m2.dashboardBody = .failure e) := by
  unfold DomainDashboardModel.Update
  simp only [he]
  refine ⟨_, rfl, rfl, rfl, rfl, rfl, rfl, rfl, ?_⟩
  intro hd hne
  unfold DomainDashboardModel.dashboardBody
  simp [hd, hne]

/-- Witness for C11: the first load of a new dashboard fails; the body is the
failure message alone. -/
theorem failed_load_outcome_witness :
    ∃ m2, ((NewDomainDashboardModel "acme.dev").Init.1).Update refLib
        (.domainDashboardLoaded failedLoad) = some (m2, []) ∧
      m2.errMsg = "network down" ∧ m2.loading = false ∧ m2.dataDomain = none ∧
      m2.dashboardBody = .failure "network down" := by
  obtain ⟨m2, h1, h2, h3, h4, _, _, _, h8⟩ :=
    failed_load_outcome refLib ((NewDomainDashboardModel "acme.dev").Init.1) failedLoad
      "network down" (by decide)
  exact ⟨m2, h1, h2, h3, h4, h8 rfl (by decide)⟩

/-- C19 (as stated, refuted): on the records-in-zone screen of a Records
browser that is not loading, `esc` returns to the zone picker, but it sets
the loading flag and issues a list-load command for the zone picker. -/
theorem records_back_reloads_counterexample :
    ∃ m, recordsListRun = some m ∧ m.category = .categoryRecords ∧
      m.screen = .browserRecordsList ∧ m.loading = false ∧
      (m.Update refLib (.key escKey)).map (fun r => (r.1.screen, r.1.loading, r.2))
        = some (.browserRecordsZones, true,
            [CmdAtom.spinnerTick,
             CmdAtom.loadList .categoryRecords .browserRecordsZones ""]) := by
  refine ⟨_, rfl, ?_, ?_, ?_, ?_⟩ <;> decide

/-- C19 (amended): on the records-in-zone screen of a Records browser that is
not loading (search modal hidden), a Back key event returns to the zone
picker and reloads it: the screen becomes the zone picker, the records zone,
selection, detail pane and error text are reset, the loading flag is set and
a list-load command for the zone picker is issued. -/
theorem records_back_reloads (L : Lib) (m : BrowserModel) (k : KeyMsg)
    (hc : m.category = .categoryRecords) (hs : m.screen = .browserRecordsList)
    (hv : m.search.visible = false) (hl : m.loading = false)
    (hk : k.name = "esc" ∨ k.name = "backspace") :
    m.Update L (.key k) =
      some ({ m with screen := .browserRecordsZones, recordsZone := "", selected := 0,
                     detailTitle := "", detailBody := "", errMsg := "", loading := true },
        [CmdAtom.spinnerTick, CmdAtom.loadList .categoryRecords .browserRecordsZones ""]) := by
  have hB : keyMatches k keys.Back = true := by
    rcases hk with h | h <;> simp [keyMatches, keys, h]
  have hU : keyMatches k keys.Up = false := by
    rcases hk with h | h <;> simp [keyMatches, keys, h]
  have hD : keyMatches k keys.Down = false := by
    rcases hk with h | h <;> simp [keyMatches, keys, h]
  have hE : keyMatches k keys.Enter = false := by
    rcases hk with h | h <;> simp [keyMatches, keys, h]
  unfold BrowserModel.Update
  rw [hv]
  simp only [hc, hs]
  have hnd : ¬ (category.categoryRecords = category.categoryDomains ∧
      browserScreen.browserRecordsList = browserScreen.browserDomainDashboard) := by
    simp
  rw [if_neg hnd]
  unfold BrowserModel.updateKey
  simp [hl, hU, hD, hE, hB, hc, hs, teaBatch, BrowserModel.loadListCmd]

/-- Witness for C19: `esc` on the records of `acme.dev`. -/
theorem records_back_reloads_witness :
    ∃ m, recordsListRun = some m ∧
      m.Update refLib (.key escKey) =
        some ({ m with screen := .browserRecordsZones, recordsZone := "", selected := 0,
                       detailTitle := "", detailBody := "", errMsg := "", loading := true },
          [CmdAtom.spinnerTick, CmdAtom.loadList .categoryRecords .browserRecordsZones ""]) :=
  ⟨_, rfl, records_back_reloads refLib _ escKey (by decide) (by decide) (by decide) (by decide)
    (Or.inl (by decide))⟩

/-- C20: a Domains browser showing the dashboard returns to the Domains list
on both dashboard signals.  On the exit signal nothing else changes (items
and selection as before) and no command is issued; on the deleted signal the
status text names the deleted domain, the detail pane is cleared, the loading
flag is set and a list reload is issued.  So a list load is issued if and
only if the signal is the deleted one. -/
theorem dashboard_return (L : Lib) (m : BrowserModel) (domain : String)
    (hc : m.category = .categoryDomains) (hs : m.screen = .browserDomainDashboard) :
    m.Update L .domainDashboardExit = some ({ m with screen := .browserDomainsList }, []) ∧
    m.Update L (.domainDashboardDeleted domain) =
      some ({ m with screen := .browserDomainsList,
                     statusMsg := "Domain \x27" ++ domain ++ "\x27 deleted.",
                     detailTitle := "", detailBody := "", loading := true },
        [CmdAtom.spinnerTick,
         CmdAtom.loadList .categoryDomains .browserDomainsList m.recordsZone]) ∧
    (∀ msg r, (msg = .domainDashboardExit ∨ msg = .domainDashboardDeleted domain) →
      m.Update L msg = some r →
      (r.2.any CmdAtom.isLoadList = true ↔ msg = .domainDashboardDeleted domain)) := by
  have h1 : m.Update L .domainDashboardExit = some ({ m with screen := .browserDomainsList }, []) := by
    unfold BrowserModel.Update
    cases hv : m.search.visible <;> simp [hc, hs]
  have h2 : m.Update L (.domainDashboardDeleted domain) =
      some ({ m with screen := .browserDomainsList,
                     statusMsg := "Domain \x27" ++ domain ++ "\x27 deleted.",
                     detailTitle := "", detailBody := "", loading := true },
        [CmdAtom.spinnerTick,
         CmdAtom.loadList .categoryDomains .browserDomainsList m.recordsZone]) := by
    unfold BrowserModel.Update
    cases hv : m.search.visible <;> simp [hc, hs, teaBatch, BrowserModel.loadListCmd]
  refine ⟨h1, h2, ?_⟩
  rintro msg r (rfl | rfl) hr
  · rw [h1] at hr
    simp only [Option.some.injEq] at hr
    subst hr
    simp
  · rw [h2] at hr
    simp only [Option.some.injEq] at hr
    subst hr
    simp [CmdAtom.isLoadList]

/-! ## Theorems: the root controller and the authentication wizard -/

theorem AppModel.dispatch_route (L : Lib) (E : Env) (m : AppModel) (msg : Msg)
    (r : AppModel × Cmd) (h : m.dispatch L E msg = some r) : r.1.route = m.route := by
  unfold AppModel.dispatch at h
  split at h
  · cases hu : m.shell.Update L msg with
    | none => simp [hu] at h
    | some u =>
      simp only [hu, Option.map_some', Option.some.injEq] at h
      subst h
      rfl
  · simp only [Option.some.injEq] at h
    subst h
    rfl

theorem AppModel.dispatch_auth_some (L : Lib) (E : Env) (m : AppModel) (msg : Msg)
    (h : m.route = .routeAuth) : ∃ r, m.dispatch L E msg = some r := by
  unfold AppModel.dispatch
  rw [h]
  exact ⟨_, rfl⟩

/-- C14: for every `AppModel` state and every message, `Update` on the wizard
route always returns; a Shell route stays the Shell route, and a wizard route
becomes the Shell route if and only if the message is the auth-completed
event. -/
theorem app_route (L : Lib) (E : Env) (m : AppModel) (msg : Msg) :
    (m.route = .routeAuth → ∃ r, m.Update L E msg = some r) ∧
    ∀ r, m.Update L E msg = some r →
      (m.route = .routeShell → r.1.route = .routeShell) ∧
      (m.route = .routeAuth → (r.1.route = .routeShell ↔ ∃ data, msg = .authDone data)) := by
  have key : ∀ r, m.Update L E msg = some r →
      (r.1.route = .routeShell ∧ ∃ data, msg = .authDone data) ∨
      (r.1.route = m.route ∧ ¬ ∃ data, msg = .authDone data) := by
    intro r h
    unfold AppModel.Update at h
    split at h
    · simp only [Option.some.injEq] at h
      subst h
      exact Or.inr ⟨rfl, by simp⟩
    · split_ifs at h
      · simp only [Option.some.injEq] at h
        subst h
        exact Or.inr ⟨rfl, by simp⟩
      · simp only [Option.some.injEq] at h
        subst h
        exact Or.inr ⟨rfl, by simp⟩
      · exact Or.inr ⟨AppModel.dispatch_route L E m _ r h, by simp⟩
    · simp only [Option.some.injEq] at h
      subst h
      exact Or.inl ⟨rfl, _, rfl⟩
    · rename_i hk hw ha
      refine Or.inr ⟨AppModel.dispatch_route L E m _ r h, ?_⟩
      rintro ⟨data, rfl⟩
      exact ha data rfl
  constructor
  · intro hr
    unfold AppModel.Update
    split
    · exact ⟨_, rfl⟩
    · split_ifs
      · exact ⟨_, rfl⟩
      · exact ⟨_, rfl⟩
      · exact AppModel.dispatch_auth_some L E m _ hr
    · exact ⟨_, rfl⟩
    · exact AppModel.dispatch_auth_some L E m _ hr
  · intro r h
    rcases key r h with ⟨h1, h2⟩ | ⟨h1, h2⟩
    · exact ⟨fun _ => h1, fun _ => ⟨fun _ => h2, fun _ => h1⟩⟩
    · refine ⟨fun hs => h1.trans hs, fun ha => ⟨fun hs => ?_, fun hd => absurd hd h2⟩⟩
      rw [h1, ha] at hs
      exact absurd hs (by decide)

theorem TextInput.Update_cmd (L : Lib) (ti : TextInput) (msg : Msg) :
    (ti.Update L msg).2 = [] ∨ (ti.Update L msg).2 = [CmdAtom.inputCmd] := by
  unfold TextInput.Update
  split_ifs <;> simp

theorem spinnerUpdate_cmd (L : Lib) (sp payload : Nat) :
    (spinnerUpdate L sp payload).2 = [] ∨ (spinnerUpdate L sp payload).2 = [CmdAtom.spinnerTick] := by
  unfold spinnerUpdate
  split_ifs <;> simp

theorem AuthModel.updateTail_step (L : Lib) (m : AuthModel) (msg : Msg) :
    (m.updateTail L msg).1.step = m.step ∧
      ∀ data, CmdAtom.emit (.authDone data) ∉ (m.updateTail L msg).2 := by
  unfold AuthModel.updateTail
  split_ifs
  · refine ⟨rfl, fun data => ?_⟩
    rcases TextInput.Update_cmd L m.tokenInput msg with h | h <;> simp [h]
  · refine ⟨rfl, fun data => ?_⟩
    rcases TextInput.Update_cmd L m.pathInput msg with h | h <;> simp [h]
  · exact ⟨rfl, fun data => by simp⟩

/-- A key never moves the wizard to Success from another step, and the only
key that emits the auth-completed event is Enter on the Success step. -/
theorem AuthModel.updateKey_step (L : Lib) (E : Env) (m : AuthModel) (k : KeyMsg) :
    ((m.updateKey L E k).1.step = .authStepSuccess → m.step = .authStepSuccess) ∧
      ∀ data, CmdAtom.emit (.authDone data) ∈ (m.updateKey L E k).2 →
        m.step = .authStepSuccess ∧ data = m.whoami := by
  have ht := AuthModel.updateTail_step L m (.key k)
  unfold AuthModel.updateKey
  cases hstep : m.step
  case authStepWelcome =>
    simp only []
    split_ifs
    · exact ⟨fun h => by simp at h, fun data h => by simp at h⟩
    · exact ⟨fun h => by simp at h, fun data h => by simp at h⟩
    · exact ⟨fun h => by rw [ht.1, hstep] at h; exact absurd h (by decide),
      fun data h => absurd h (ht.2 data)⟩
  case authStepConfigDir =>
    simp only []
    split_ifs
    · exact ⟨fun h => by simp at h, fun data h => by simp at h⟩
    · exact ⟨fun h => by simp at h, fun data h => by simp at h⟩
    · split
      · exact ⟨fun h => by simp at h, fun data h => by simp at h⟩
      · exact ⟨fun h => by simp at h, fun data h => by simp at h⟩
    · refine ⟨fun h => by simp [hstep] at h, fun data h => ?_⟩
      rcases TextInput.Update_cmd L m.pathInput (.key k) with h2 | h2 <;> simp [h2] at h
  case authStepTokenInput =>
    simp only []
    split_ifs
    · exact ⟨fun h => by simp at h, fun data h => by simp at h⟩
    · exact ⟨fun h => by simp at h, fun data h => by simp at h⟩
    · exact ⟨fun h => by simp at h, fun data h => by simp [teaBatch] at h⟩
    · refine ⟨fun h => by simp [hstep] at h, fun data h => ?_⟩
      rcases TextInput.Update_cmd L m.tokenInput (.key k) with h2 | h2 <;> simp [h2] at h
  case authStepValidating =>
    simp only []
    exact ⟨fun h => by rw [ht.1, hstep] at h; exact absurd h (by decide),
      fun data h => absurd h (ht.2 data)⟩
  case authStepSuccess =>
    simp only []
    split_ifs
    · refine ⟨fun _ => by trivial, fun data h => ?_⟩
      simp only [List.mem_singleton, CmdAtom.emit.injEq, Msg.authDone.injEq] at h
      simp [h]
    · exact ⟨fun _ => by trivial, fun data h => absurd h (ht.2 data)⟩
  case authStepError =>
    simp only []
    split_ifs
    · exact ⟨fun h => by simp at h, fun data h => by simp at h⟩
    · exact ⟨fun h => by simp at h, fun data h => by simp at h⟩
    · exact ⟨fun h => by rw [ht.1, hstep] at h; exact absurd h (by decide),
      fun data h => absurd h (ht.2 data)⟩

/-- C15: the wizard's step becomes Success only by handling a
token-validation result without error for which `persistAuth` succeeds; when
`persistAuth` fails for such a result the step becomes Error with the
persistence error as error text and no command; and the auth-completed event
is emitted only from the Success step. -/
theorem auth_success_needs_persist (L : Lib) (E : Env) (m : AuthModel) (msg : Msg) :
    (m.step ≠ .authStepSuccess → (m.Update L E msg).1.step = .authStepSuccess →
      ∃ tv, msg = .tokenValidated tv ∧ tv.err = none ∧ persistAuth E tv.token tv.data = none) ∧
    (∀ tv e, msg = .tokenValidated tv → tv.err = none → persistAuth E tv.token tv.data = some e →
      (m.Update L E msg).1.step = .authStepError ∧ (m.Update L E msg).1.errMsg = e ∧
        (m.Update L E msg).2 = []) ∧
    (∀ data, CmdAtom.emit (.authDone data) ∈ (m.Update L E msg).2 →
      m.step = .authStepSuccess) := by
  refine ⟨?_, ?_, ?_⟩
  · intro hne hs
    unfold AuthModel.Update at hs
    split at hs
    · exact absurd ((AuthModel.updateKey_step L E m _).1 hs) hne
    · rename_i tv
      refine ⟨tv, rfl, ?_⟩
      cases he : tv.err with
      | some e => simp [he] at hs
      | none =>
        refine ⟨rfl, ?_⟩
        cases hp : persistAuth E tv.token tv.data with
        | some e => simp [he, hp] at hs
        | none => rfl
    · split_ifs at hs with hv
      · simp only [] at hs
        exact absurd (hv.symm.trans hs) (by decide)
      · exact absurd ((AuthModel.updateTail_step L m _).1.symm.trans hs) hne
    · exact absurd ((AuthModel.updateTail_step L m _).1.symm.trans hs) hne
  · rintro tv e rfl he hp
    unfold AuthModel.Update
    simp [he, hp]
  · intro data h
    unfold AuthModel.Update at h
    split at h
    · exact ((AuthModel.updateKey_step L E m _).2 data h).1
    · split at h
      · simp at h
      · split at h <;> simp at h
    · rename_i payload
      split_ifs at h
      · rcases spinnerUpdate_cmd L m.spinner payload with h2 | h2 <;> simp [h2] at h
      · exact absurd h ((AuthModel.updateTail_step L m _).2 data)
    · exact absurd h ((AuthModel.updateTail_step L m _).2 data)

/-! ## Theorems: the Shell -/

theorem DomainDashboardModel.updateModal_no_quit (L : Lib) (m : DomainDashboardModel) (msg : Msg) :
    CmdAtom.quit ∉ (m.updateModal L msg).2 := by
  unfold DomainDashboardModel.updateModal
  split
  · rename_i k
    split_ifs
    · simp
    · simp
    · simp [teaBatch, DomainDashboardModel.mutationCmd]
    · rcases TextInput.Update_cmd L m.modal.input (.key k) with h | h <;> simp [h]
  · rename_i payload
    split_ifs
    · rcases spinnerUpdate_cmd L m.spinner payload with h | h <;> simp [h]
    · simp
  · simp

theorem BrowserModel.updateSearchModal_no_quit (L : Lib) (m : BrowserModel) (k : KeyMsg)
    (r : BrowserModel × Cmd) (h : m.updateSearchModal L k = some r) : CmdAtom.quit ∉ r.2 := by
  unfold BrowserModel.updateSearchModal at h
  split_ifs at h
  any_goals (simp only [Option.some.injEq] at h; subst h; simp)
  · split at h
    · simp at h
    · simp only [] at h
      split_ifs at h
      · rename_i mt _ _
        cases hi : index? (({ m with selected := mt.itemIndex }).closeSearchModal).items
            (({ m with selected := mt.itemIndex }).closeSearchModal).selected with
        | none => simp [hi] at h
        | some item =>
          simp only [hi, Option.map_some', Option.some.injEq] at h
          subst h
          simp [BrowserModel.openDashboard, DomainDashboardModel.Init, teaBatch,
            DomainDashboardModel.loadDashboardCmd]
      · simp only [Option.some.injEq] at h
        subst h
        simp
  · rcases TextInput.Update_cmd L m.search.input (.key k) with h2 | h2 <;> simp [h2]

/-- A browser that blocks global keys never answers a key with `tea.Quit`. -/
theorem BrowserModel.blocked_key_no_quit (L : Lib) (m : BrowserModel) (k : KeyMsg)
    (hb : m.BlocksGlobalKeys = true) (r : BrowserModel × Cmd)
    (h : m.Update L (.key k) = some r) : CmdAtom.quit ∉ r.2 := by
  unfold BrowserModel.Update at h
  cases hv : m.search.visible with
  | true =>
    simp only [hv] at h
    exact BrowserModel.updateSearchModal_no_quit L m k r h
  | false =>
    unfold BrowserModel.BlocksGlobalKeys at hb
    simp only [hv, Bool.false_eq_true, if_false, Bool.and_eq_true, decide_eq_true_eq,
      DomainDashboardModel.ModalVisible] at hb
    simp only [hv, hb.1.1, hb.1.2, and_self, if_true] at h
    unfold DomainDashboardModel.Update at h
    simp only [hb.2, if_true, Option.map_some', Option.some.injEq] at h
    subst h
    exact DomainDashboardModel.updateModal_no_quit L m.domainDash _

/-- Delegating a message to the active tab changes the model of that tab
only: active tab, initialized set, size and every other tab model stay. -/
theorem ShellModel.updateActive_frame (L : Lib) (m : ShellModel) (msg : Msg)
    (r : ShellModel × Cmd) (h : m.updateActive L msg = some r) :
    r.1.active = m.active ∧ r.1.initialized = m.initialized ∧ r.1.help = m.help ∧
      (m.active ≠ .tabHome → r.1.home = m.home) ∧
      (m.active ≠ .tabDomains → r.1.domains = m.domains) ∧
      (m.active ≠ .tabZones → r.1.zones = m.zones) ∧
      (m.active ≠ .tabRecords → r.1.records = m.records) := by
  unfold ShellModel.updateActive at h
  split at h
  · rename_i ha
    cases hu : m.domains.Update L msg with
    | none => simp [hu] at h
    | some u =>
      simp only [hu, Option.map_some', Option.some.injEq] at h
      subst h
      simp [ha]
  · rename_i ha
    cases hu : m.zones.Update L msg with
    | none => simp [hu] at h
    | some u =>
      simp only [hu, Option.map_some', Option.some.injEq] at h
      subst h
      simp [ha]
  · rename_i ha
    cases hu : m.records.Update L msg with
    | none => simp [hu] at h
    | some u =>
      simp only [hu, Option.map_some', Option.some.injEq] at h
      subst h
      simp [ha]
  · simp only [Option.some.injEq] at h
    subst h
    simp
  · rename_i ha
    cases hu : m.home.Update L msg with
    | none => simp [hu] at h
    | some u =>
      simp only [hu, Option.map_some', Option.some.injEq] at h
      subst h
      simp [ha]

/-- While the active tab blocks global keys, the command its `Update`
answers a key with never holds `tea.Quit`. -/
theorem ShellModel.blocked_shell_key_no_quit (L : Lib) (m : ShellModel) (k : KeyMsg)
    (hb : m.BlocksGlobalKeys = true) (r : ShellModel × Cmd)
    (h : m.updateActive L (.key k) = some r) : CmdAtom.quit ∉ r.2 := by
  unfold ShellModel.BlocksGlobalKeys at hb
  unfold ShellModel.updateActive at h
  split at h
  · rename_i ha
    simp only [ha] at hb
    cases hu : m.domains.Update L (.key k) with
    | none => simp [hu] at h
    | some u =>
      simp only [hu, Option.map_some', Option.some.injEq] at h
      subst h
      exact BrowserModel.blocked_key_no_quit L m.domains k hb u hu
  · rename_i ha
    simp only [ha] at hb
    cases hu : m.zones.Update L (.key k) with
    | none => simp [hu] at h
    | some u =>
      simp only [hu, Option.map_some', Option.some.injEq] at h
      subst h
      exact BrowserModel.blocked_key_no_quit L m.zones k hb u hu
  · rename_i ha
    simp only [ha] at hb
    cases hu : m.records.Update L (.key k) with
    | none => simp [hu] at h
    | some u =>
      simp only [hu, Option.map_some', Option.some.injEq] at h
      subst h
      exact BrowserModel.blocked_key_no_quit L m.records k hb u hu
  · rename_i ha
    simp [ha] at hb
  · rename_i ha
    simp [ha] at hb

/-- C13: `ctrl+c` yields Quit in every state.  Whenever the Shell is the
route and its active tab blocks global keys, every other key event is handed
to the `Update` of the active tab and to nothing else: the route, the active
tab, the initialized set and the models of the other tabs are unchanged, and
the returned command does not hold Quit (also for `q`, `/` and the tab
keys). -/
theorem blocked_keys_stay_in_tab (L : Lib) (E : Env) (m : AppModel) (k : KeyMsg) :
    (k.name = "ctrl+c" → m.Update L E (.key k) = some (m, [CmdAtom.quit])) ∧
    (m.route = .routeShell → m.shell.BlocksGlobalKeys = true → k.name ≠ "ctrl+c" →
      m.Update L E (.key k) =
        (m.shell.updateActive L (.key k)).map (fun r => ({ m with shell := r.1 }, r.2)) ∧
      ∀ r, m.Update L E (.key k) = some r →
        r.1.route = .routeShell ∧ r.1.shell.active = m.shell.active ∧
        r.1.shell.initialized = m.shell.initialized ∧ CmdAtom.quit ∉ r.2 ∧
        r.1.shell.help = m.shell.help ∧
        (m.shell.active ≠ .tabHome → r.1.shell.home = m.shell.home) ∧
        (m.shell.active ≠ .tabDomains → r.1.shell.domains = m.shell.domains) ∧
        (m.shell.active ≠ .tabZones → r.1.shell.zones = m.shell.zones) ∧
        (m.shell.active ≠ .tabRecords → r.1.shell.records = m.shell.records)) := by
  constructor
  · intro hk
    unfold AppModel.Update
    simp [hk]
  · intro hr hb hk
    have heq : m.Update L E (.key k) =
        (m.shell.updateActive L (.key k)).map (fun r => ({ m with shell := r.1 }, r.2)) := by
      unfold AppModel.Update
      simp only [hk, if_false, hr, hb, and_self, not_true_eq_false, and_false]
      unfold AppModel.dispatch
      simp only [hr]
      unfold ShellModel.Update
      simp only [hb, Bool.true_eq_false, if_false]
      rfl
    refine ⟨heq, ?_⟩
    intro r h
    rw [heq] at h
    cases hu : m.shell.updateActive L (.key k) with
    | none => simp [hu] at h
    | some u =>
      simp only [hu, Option.map_some', Option.some.injEq] at h
      subst h
      obtain ⟨f1, f2, f3, f4, f5, f6, f7⟩ := ShellModel.updateActive_frame L m.shell _ u hu
      exact ⟨hr, f1, f2, ShellModel.blocked_shell_key_no_quit L m.shell k hb u hu, f3, f4, f5, f6, f7⟩

theorem ShellModel.initModel_frame (m : ShellModel) (tab : shellTab) :
    (m.initModel tab).1.initialized = m.initialized ∧ (m.initModel tab).1.active = m.active := by
  unfold ShellModel.initModel
  cases tab <;> exact ⟨rfl, rfl⟩

/-- The initialized set after `initTab(tab)`: the old set plus `tab`. -/
theorem ShellModel.initTab_initialized (m : ShellModel) (tab t : shellTab) :
    (m.initTab tab).1.initialized t = (m.initialized t || decide (t = tab)) := by
  unfold ShellModel.initTab
  by_cases hi : m.initialized tab = true
  · rw [if_pos hi]
    by_cases ht : t = tab
    · subst ht
      simp [hi]
    · simp [ht]
  · rw [if_neg hi, (ShellModel.initModel_frame _ tab).1]
    by_cases ht : t = tab
    · simp [ht]
    · simp [ht]

/-- The initialized set after one activation: the old set plus its target. -/
theorem ShellModel.applyActivation_initialized (L : Lib) (m : ShellModel) (a : Activation)
    (t : shellTab) :
    (m.applyActivation L a).1.initialized t = (m.initialized t || decide (t = a.target)) := by
  cases a with
  | tab tb =>
    simp only [ShellModel.applyActivation, ShellModel.activate, Activation.target]
    rw [ShellModel.initTab_initialized]
  | search =>
    simp only [ShellModel.applyActivation, ShellModel.openGlobalDomainSearch, Activation.target]
    rw [ShellModel.initTab_initialized]

/-- The initialized set after a sequence of activations: the old set plus
every tab the sequence activated. -/
theorem ShellModel.runActivations_initialized (L : Lib) (m : ShellModel)
    (acts : List Activation) (t : shellTab) :
    (m.runActivations L acts).initialized t =
      (m.initialized t || acts.any (fun a => decide (t = a.target))) := by
  induction acts generalizing m with
  | nil => simp [ShellModel.runActivations]
  | cons a rest ih =>
    simp only [ShellModel.runActivations, List.any_cons]
    rw [ih, ShellModel.applyActivation_initialized, Bool.or_assoc]

/-- C12 (as stated, refuted): on a Shell whose Domains tab is already
initialized, activating it again through the global search issues a command
(the blink command of the search input); only the tab-key activation issues
none. -/
theorem search_activation_issues_command_counterexample :
    shellOnDomains.initialized .tabDomains = true ∧
      (shellOnDomains.applyActivation refLib .search).2 = [CmdAtom.textinputBlink] ∧
      (shellOnDomains.applyActivation refLib (.tab .tabDomains)).2 = [] := by
  decide

/-- C12 (amended): along every sequence of tab activations, the initialized
set never loses a member and holds every tab activated so far.  An
activation whose target is already initialized (in particular every
activation after the first one of that tab) runs no `Init`: by `activate` it
only sets the active tab and issues no command, by global search it sets the
active tab and opens the search, issuing only the command of `OpenSearch`.
An activation whose target is not yet initialized (the first one of a tab
not initialized at the start) marks it initialized and runs the `Init` of
that tab's model: by `activate` it returns the command of `Init`, by global
search it runs `Init` of the Domains model, opens the search on the result
and returns the command of `Init` followed by the command of `OpenSearch`. -/
theorem lazy_init (L : Lib) (m : ShellModel) (acts : List Activation) (b : Activation) :
    (∀ t, m.initialized t = true → (m.runActivations L acts).initialized t = true) ∧
    (∀ a ∈ acts, (m.runActivations L acts).initialized a.target = true) ∧
    ((m.initialized b.target = true ∨ ∃ a ∈ acts, a.target = b.target) →
      (m.runActivations L acts).initialized b.target = true ∧
      (∀ t, b = .tab t →
        (m.runActivations L acts).applyActivation L b =
          ({ m.runActivations L acts with active := t }, [])) ∧
      (b = .search →
        (m.runActivations L acts).applyActivation L b =
          ({ m.runActivations L acts with
              active := .tabDomains,
              domains := ((m.runActivations L acts).domains.OpenSearch L).1 },
            ((m.runActivations L acts).domains.OpenSearch L).2))) ∧
    ((m.initialized b.target = false ∧ ∀ a ∈ acts, a.target ≠ b.target) →
      (m.runActivations L acts).initialized b.target = false ∧
      ((m.runActivations L acts).applyActivation L b).1.initialized b.target = true ∧
      (∀ t, b = .tab t →
        (m.runActivations L acts).applyActivation L b =
          ({ m.runActivations L acts with
              active := t,
              initialized := fun x =>
                if x = t then true else (m.runActivations L acts).initialized x }).initModel t) ∧
      (b = .search →
        (m.runActivations L acts).applyActivation L b =
          ({ m.runActivations L acts with
              active := .tabDomains,
              initialized := fun x =>
                if x = .tabDomains then true else (m.runActivations L acts).initialized x,
              domains := ((m.runActivations L acts).domains.Init.1.OpenSearch L).1 },
            (m.runActivations L acts).domains.Init.2 ++
              ((m.runActivations L acts).domains.Init.1.OpenSearch L).2))) := by
  have hinit := ShellModel.runActivations_initialized L m acts
  refine ⟨?_, ?_, ?_, ?_⟩
  · intro t ht
    rw [hinit, ht]
    rfl
  · intro a ha
    rw [hinit]
    simp only [Bool.or_eq_true, List.any_eq_true, decide_eq_true_eq]
    exact Or.inr ⟨a, ha, rfl⟩
  · intro h
    have hb : (m.runActivations L acts).initialized b.target = true := by
      rw [hinit]
      simp only [Bool.or_eq_true, List.any_eq_true, decide_eq_true_eq]
      rcases h with h | ⟨a, ha, hat⟩
      · exact Or.inl h
      · exact Or.inr ⟨a, ha, hat.symm⟩
    refine ⟨hb, ?_, ?_⟩
    · rintro t rfl
      simp only [Activation.target] at hb
      simp only [ShellModel.applyActivation, ShellModel.activate, ShellModel.initTab, hb, if_true]
    · rintro rfl
      simp only [Activation.target] at hb
      simp only [ShellModel.applyActivation, ShellModel.openGlobalDomainSearch, ShellModel.initTab,
        hb, if_true, teaBatch, List.flatten_cons, List.nil_append, List.flatten_nil,
        List.append_nil]
  · rintro ⟨h0, hno⟩
    have hb : (m.runActivations L acts).initialized b.target = false := by
      rw [hinit, h0]
      simp only [Bool.false_or, List.any_eq_false, decide_eq_true_eq]
      intro a ha heq
      exact hno a ha heq.symm
    refine ⟨hb, ?_, ?_, ?_⟩
    · rw [ShellModel.applyActivation_initialized]
      simp
    · rintro t rfl
      simp only [Activation.target] at hb
      simp only [ShellModel.applyActivation, ShellModel.activate, ShellModel.initTab, hb,
        Bool.false_eq_true, if_false]
    · rintro rfl
      simp only [Activation.target] at hb
      simp only [ShellModel.applyActivation, ShellModel.openGlobalDomainSearch, ShellModel.initTab,
        hb, Bool.false_eq_true, if_false, ShellModel.initModel, teaBatch, List.flatten_cons,
        List.flatten_nil, List.append_nil]

/-! ## Theorems: the fixture backend -/

theorem mapGet_mem {V : Type} (m : List (String × V)) (k : String) (v : V)
    (h : mapGet m k = some v) : (k, v) ∈ m := by
  unfold mapGet at h
  induction m with
  | nil => simp at h
  | cons e rest ih =>
    obtain ⟨k2, v2⟩ := e
    by_cases hk : k = k2
    · subst hk
      simp only [List.lookup_cons, beq_self_eq_true, Option.some.injEq] at h
      subst h
      exact List.mem_cons_self _ _
    · have hb : (k == k2) = false := by simpa using hk
      simp only [List.lookup_cons, hb] at h
      exact List.mem_cons_of_mem _ (ih h)

theorem mapGet_none {V : Type} (m : List (String × V)) (k : String)
    (h : k ∉ m.map (fun e => e.1)) : mapGet m k = none := by
  unfold mapGet
  induction m with
  | nil => rfl
  | cons e rest ih =>
    obtain ⟨k2, v2⟩ := e
    simp only [List.map_cons, List.mem_cons, not_or] at h
    have hb : (k == k2) = false := by simpa using h.1
    simp only [List.lookup_cons, hb]
    exact ih h.2

theorem mapGet_mapDelete_self {V : Type} (m : List (String × V)) (k : String) :
    mapGet (mapDelete m k) k = none := by
  apply mapGet_none
  unfold mapDelete
  simp only [List.mem_map, List.mem_filter, decide_eq_true_eq, not_exists, not_and]
  rintro e ⟨_, hne⟩ heq
  exact hne heq

theorem mapGet_mapDelete_ne {V : Type} (m : List (String × V)) (k other : String)
    (h : other ≠ k) : mapGet (mapDelete m k) other = mapGet m other := by
  unfold mapGet mapDelete
  induction m with
  | nil => rfl
  | cons e rest ih =>
    obtain ⟨k2, v2⟩ := e
    by_cases hk : k2 = k
    · subst hk
      have hb : (other == k2) = false := by simpa using h
      simp only [List.filter_cons, ne_eq, not_true_eq_false, decide_False, Bool.false_eq_true,
        if_false, List.lookup_cons, hb]
      exact ih
    · by_cases ho : other = k2
      · subst ho
        simp [List.filter_cons, hk, List.lookup_cons]
      · have hb : (other == k2) = false := by simpa using ho
        simp only [List.filter_cons, ne_eq, hk, not_false_eq_true, decide_True, if_true,
          List.lookup_cons, hb]
        exact ih

theorem mapDelete_keys_nodup {V : Type} (m : List (String × V)) (k : String)
    (h : (m.map (fun e => e.1)).Nodup) : ((mapDelete m k).map (fun e => e.1)).Nodup := by
  unfold mapDelete
  exact h.sublist ((List.filter_sublist m).map _)

theorem mapSet_keys {V : Type} (m : List (String × V)) (k : String) (v : V)
    (h : (m.lookup k).isSome = true) :
    (mapSet m k v).map (fun e => e.1) = m.map (fun e => e.1) := by
  unfold mapSet
  rw [if_pos h, List.map_map]
  apply List.map_congr_left
  intro e _
  simp only [Function.comp]
  split_ifs with he
  · exact he.symm
  · rfl

theorem mem_mapSet {V : Type} (m : List (String × V)) (k : String) (v : V)
    (h : (m.lookup k).isSome = true) (e : String × V) (he : e ∈ mapSet m k v) :
    e ∈ m ∨ e = (k, v) := by
  unfold mapSet at he
  rw [if_pos h] at he
  obtain ⟨x, hx, rfl⟩ := List.mem_map.mp he
  split_ifs
  · exact Or.inr rfl
  · exact Or.inl hx

theorem newDemoBackend_wellFormed : newDemoBackend.WellFormed := by
  unfold demoBackend.WellFormed
  decide

theorem mem_mapDelete {V : Type} (m : List (String × V)) (k : String) (e : String × V) :
    e ∈ mapDelete m k ↔ e ∈ m ∧ e.1 ≠ k := by
  unfold mapDelete
  simp [List.mem_filter]

theorem demoBackend.DeleteDomain_wellFormed (b : demoBackend) (name : String)
    (h : b.WellFormed) : (b.DeleteDomain name).1.WellFormed := by
  unfold demoBackend.DeleteDomain
  cases hg : mapGet b.domains name with
  | none => exact h
  | some d =>
    obtain ⟨h1, h2, h3, h4, h5⟩ := h
    refine ⟨mapDelete_keys_nodup _ _ h1, mapDelete_keys_nodup _ _ h2,
      mapDelete_keys_nodup _ _ h3, ?_, ?_⟩
    · intro e he
      exact h4 e ((mem_mapDelete _ _ e).mp he).1
    · intro e he
      exact h5 e ((mem_mapDelete _ _ e).mp he).1

theorem demoBackend.setActive_wellFormed (b : demoBackend) (name : String) (z : Zone)
    (active : Bool) (h : b.WellFormed) (hg : mapGet b.zones name = some z) :
    ({ b with zones := mapSet b.zones name { z with Active := active } } : demoBackend).WellFormed := by
  obtain ⟨h1, h2, h3, h4, h5⟩ := h
  have hsome : (b.zones.lookup name).isSome = true := by
    unfold mapGet at hg
    rw [hg]
    rfl
  refine ⟨h1, ?_, h3, h4, ?_⟩
  · show ((mapSet b.zones name { z with Active := active }).map (fun e => e.1)).Nodup
    rw [mapSet_keys _ _ _ hsome]
    exact h2
  · intro e he
    rcases mem_mapSet _ _ _ hsome e he with hm | rfl
    · exact h5 e hm
    · exact h5 (name, z) (mapGet_mem _ _ _ hg)

theorem demoBackend.ActivateZoneDNS_wellFormed (b : demoBackend) (name : String)
    (h : b.WellFormed) : (b.ActivateZoneDNS name).1.WellFormed := by
  unfold demoBackend.ActivateZoneDNS
  cases hg : mapGet b.zones name with
  | none => exact h
  | some z => exact demoBackend.setActive_wellFormed b name z true h hg

theorem demoBackend.DeactivateZoneDNS_wellFormed (b : demoBackend) (name : String)
    (h : b.WellFormed) : (b.DeactivateZoneDNS name).1.WellFormed := by
  unfold demoBackend.DeactivateZoneDNS
  cases hg : mapGet b.zones name with
  | none => exact h
  | some z => exact demoBackend.setActive_wellFormed b name z false h hg

theorem demoBackend.DeleteRecord_wellFormed (b : demoBackend) (zone : String) (recordID : Int)
    (h : b.WellFormed) : (b.DeleteRecord zone recordID).1.WellFormed := by
  unfold demoBackend.DeleteRecord
  cases hg : mapGet b.records zone with
  | none => exact h
  | some recs =>
    simp only []
    split_ifs
    · obtain ⟨h1, h2, h3, h4, h5⟩ := h
      have hsome : (b.records.lookup zone).isSome = true := by
        unfold mapGet at hg
        rw [hg]
        rfl
      refine ⟨h1, h2, ?_, h4, h5⟩
      show ((mapSet b.records zone _).map (fun e => e.1)).Nodup
      rw [mapSet_keys _ _ _ hsome]
      exact h3
    · exact h

/-- Every state of the fixture backend is well formed. -/
theorem demoBackend.Reachable.wellFormed (b : demoBackend) (h : b.Reachable) : b.WellFormed := by
  induction h with
  | seeded => exact newDemoBackend_wellFormed
  | deleteDomain b name _ ih => exact demoBackend.DeleteDomain_wellFormed b name ih
  | activate b name _ ih => exact demoBackend.ActivateZoneDNS_wellFormed b name ih
  | deactivate b name _ ih => exact demoBackend.DeactivateZoneDNS_wellFormed b name ih
  | deleteRecord b zone recordID _ ih => exact demoBackend.DeleteRecord_wellFormed b zone recordID ih

theorem runesLt_trichotomy (a b : List Char) : runesLt a b ∨ a = b ∨ runesLt b a :=
  @trichotomous (List Char) (List.Lex (· < ·)) _ a b

/-- Sorting by a name that no two elements share gives a permutation in
strictly ascending name order. -/
theorem sortSlice_by_name {α : Type} (name : α → List Char) (xs : List α)
    (hn : (xs.map name).Nodup) :
    (sortSlice (fun a b => decide (runesLt (name a) (name b))) xs).Perm xs ∧
      (sortSlice (fun a b => decide (runesLt (name a) (name b))) xs).Pairwise
        (fun a b => runesLt (name a) (name b)) := by
  have hperm : (sortSlice (fun a b => decide (runesLt (name a) (name b))) xs).Perm xs :=
    List.perm_insertionSort _ xs
  refine ⟨hperm, ?_⟩
  haveI : IsTotal α (fun a b => decide (runesLt (name b) (name a)) = false) := by
    refine ⟨fun a b => ?_⟩
    show decide (runesLt (name b) (name a)) = false ∨ decide (runesLt (name a) (name b)) = false
    simp only [decide_eq_false_iff_not]
    by_cases h : runesLt (name b) (name a)
    · exact Or.inr (runesLt_asymm _ _ h)
    · exact Or.inl h
  haveI : IsTrans α (fun a b => decide (runesLt (name b) (name a)) = false) := by
    refine ⟨fun a b c => ?_⟩
    show decide (runesLt (name b) (name a)) = false → decide (runesLt (name c) (name b)) = false →
      decide (runesLt (name c) (name a)) = false
    simp only [decide_eq_false_iff_not]
    intro h1 h2 h3
    rcases runesLt_conn _ (name b) _ h3 with h | h
    · exact h2 h
    · exact h1 h
  have hs := List.sorted_insertionSort (fun a b => decide (runesLt (name b) (name a)) = false) xs
  have hnd : ((sortSlice (fun a b => decide (runesLt (name a) (name b))) xs).map name).Nodup :=
    ((hperm.map name).nodup_iff).mpr hn
  have hne := List.pairwise_map.mp hnd
  have hboth := List.Pairwise.and hs hne
  refine hboth.imp ?_
  rintro a b ⟨h1, h2⟩
  simp only [decide_eq_false_iff_not] at h1
  rcases runesLt_trichotomy (name a) (name b) with h | h | h
  · exact h
  · exact absurd h h2
  · exact absurd h h1

/-- Two permutations of each other that are both in strictly ascending name
order are the same list. -/
theorem strict_sorted_unique {α : Type} (name : α → List Char) (l1 l2 : List α)
    (hp : l1.Perm l2) (h1 : l1.Pairwise (fun a b => runesLt (name a) (name b)))
    (h2 : l2.Pairwise (fun a b => runesLt (name a) (name b))) : l1 = l2 := by
  haveI : IsAntisymm α (fun a b => runesLt (name a) (name b)) :=
    ⟨fun a b hab hba => absurd hba (runesLt_asymm _ _ hab)⟩
  exact List.eq_of_perm_of_sorted hp h1 h2

theorem wellFormed_domain_names (b : demoBackend) (h : b.WellFormed) :
    ((b.domains.map (fun e => e.2)).map (fun d => d.Name.data)).Nodup := by
  obtain ⟨h1, _, _, h4, _⟩ := h
  have heq : (b.domains.map (fun e => e.2)).map (fun d => d.Name.data)
      = (b.domains.map (fun e => e.1)).map (fun k => k.data) := by
    rw [List.map_map, List.map_map]
    apply List.map_congr_left
    intro e he
    simp only [Function.comp, h4 e he]
  rw [heq]
  exact h1.map (fun a c hac => congrArg String.mk hac)

theorem wellFormed_zone_names (b : demoBackend) (h : b.WellFormed) :
    ((b.zones.map (fun e => e.2)).map (fun z => z.Name.data)).Nodup := by
  obtain ⟨_, h2, _, _, h5⟩ := h
  have heq : (b.zones.map (fun e => e.2)).map (fun z => z.Name.data)
      = (b.zones.map (fun e => e.1)).map (fun k => k.data) := by
    rw [List.map_map, List.map_map]
    apply List.map_congr_left
    intro e he
    simp only [Function.comp, h5 e he]
  rw [heq]
  exact h2.map (fun a c hac => congrArg String.mk hac)

/-- C16: in every state of the fixture backend, whatever order the iteration
over the domain map takes (`visited`), `listDomains` returns every stored
domain exactly once, in strictly ascending name order, without error; so the
result is the same list for every iteration order, and two calls without a
mutation in between return identical lists. -/
theorem listDomains_deterministic (b : demoBackend) (hb : b.Reachable) (visited : List Domain)
    (hv : visited.Perm (b.domains.map (fun e => e.2))) :
    (listDomainsOf visited).Perm (b.domains.map (fun e => e.2)) ∧
      (listDomainsOf visited).Nodup ∧
      (listDomainsOf visited).Pairwise (fun a c => runesLt a.Name.data c.Name.data) ∧
      listDomainsOf visited = b.ListDomains.1 ∧ b.ListDomains.2 = none := by
  have hwf := demoBackend.Reachable.wellFormed b hb
  have hn := wellFormed_domain_names b hwf
  have hnv : (visited.map (fun d => d.Name.data)).Nodup := ((hv.map _).nodup_iff).mpr hn
  obtain ⟨p1, s1⟩ := sortSlice_by_name (fun d : Domain => d.Name.data) visited hnv
  obtain ⟨p2, s2⟩ := sortSlice_by_name (fun d : Domain => d.Name.data)
    (b.domains.map (fun e => e.2)) hn
  refine ⟨p1.trans hv, ?_, s1, ?_, rfl⟩
  · have : ((listDomainsOf visited).map (fun d => d.Name.data)).Nodup :=
      ((p1.map _).nodup_iff).mpr hnv
    exact List.Nodup.of_map _ this
  · exact strict_sorted_unique (fun d : Domain => d.Name.data) _ _
      (p1.trans (hv.trans p2.symm)) s1 s2

/-- Witness for C16: on the seeded backend, iterating the map backwards
gives the same list as iterating it forwards. -/
theorem listDomains_deterministic_witness :
    (listDomainsOf ((newDemoBackend.domains.map (fun e => e.2)).reverse)).Perm
        (newDemoBackend.domains.map (fun e => e.2)) ∧
      (listDomainsOf ((newDemoBackend.domains.map (fun e => e.2)).reverse)).Nodup ∧
      (listDomainsOf ((newDemoBackend.domains.map (fun e => e.2)).reverse)).Pairwise
        (fun a c => runesLt a.Name.data c.Name.data) ∧
      listDomainsOf ((newDemoBackend.domains.map (fun e => e.2)).reverse)
        = newDemoBackend.ListDomains.1 ∧ newDemoBackend.ListDomains.2 = none :=
  listDomains_deterministic newDemoBackend demoBackend.Reachable.seeded _
    (List.reverse_perm _)

/-- Sorting by name commutes with dropping elements, when no two elements
share a name. -/
theorem sortSlice_filter {α : Type} (name : α → List Char) (p : α → Bool) (xs : List α)
    (hn : (xs.map name).Nodup) :
    sortSlice (fun a b => decide (runesLt (name a) (name b))) (xs.filter p) =
      (sortSlice (fun a b => decide (runesLt (name a) (name b))) xs).filter p := by
  have hnf : ((xs.filter p).map name).Nodup :=
    hn.sublist ((List.filter_sublist xs).map name)
  obtain ⟨p1, s1⟩ := sortSlice_by_name name (xs.filter p) hnf
  obtain ⟨p2, s2⟩ := sortSlice_by_name name xs hn
  exact strict_sorted_unique name _ _ (p1.trans (p2.filter p).symm) s1
    (s2.sublist (List.filter_sublist _))

theorem mapDelete_values {V : Type} (m : List (String × V)) (k : String) (key : V → String)
    (h : ∀ e ∈ m, key e.2 = e.1) :
    (mapDelete m k).map (fun e => e.2) =
      (m.map (fun e => e.2)).filter (fun v => decide (key v ≠ k)) := by
  unfold mapDelete
  rw [List.filter_map]
  congr 1
  apply List.filter_congr
  intro e he
  simp only [Function.comp, h e he]

/-- C17: in every state of the fixture backend, `deleteDomain(name)` of a
stored name succeeds; afterwards no listed domain and no listed zone carries
that name, `listRecords(name)` yields no records, the domain and zone lists
are the former lists without that name, and the domain, zone and record
answers for every other name are unchanged.  `deleteDomain` of a name that is
not stored fails and leaves the state unchanged. -/
theorem deleteDomain_effect (b : demoBackend) (hb : b.Reachable) (name : String) :
    (∀ d, mapGet b.domains name = some d →
      (b.DeleteDomain name).2 = none ∧
      (∀ x ∈ (b.DeleteDomain name).1.ListDomains.1, x.Name ≠ name) ∧
      (∀ z ∈ (b.DeleteDomain name).1.ListZones.1, z.Name ≠ name) ∧
      ((b.DeleteDomain name).1.ListRecords name).1 = [] ∧
      (b.DeleteDomain name).1.ListDomains.1
        = b.ListDomains.1.filter (fun x => decide (x.Name ≠ name)) ∧
      (b.DeleteDomain name).1.ListZones.1
        = b.ListZones.1.filter (fun z => decide (z.Name ≠ name)) ∧
      (∀ other, other ≠ name →
        (b.DeleteDomain name).1.GetDomain other = b.GetDomain other ∧
        (b.DeleteDomain name).1.GetZone other = b.GetZone other ∧
        (b.DeleteDomain name).1.ListRecords other = b.ListRecords other)) ∧
    (mapGet b.domains name = none →
      b.DeleteDomain name = (b, some ("domain not found (demo): " ++ name))) := by
  have hwf := demoBackend.Reachable.wellFormed b hb
  constructor
  · intro d hd
    have hdel : b.DeleteDomain name =
        ({ b with domains := mapDelete b.domains name, zones := mapDelete b.zones name,
                  records := mapDelete b.records name }, none) := by
      unfold demoBackend.DeleteDomain
      rw [hd]
    have hD : (b.DeleteDomain name).1.ListDomains.1
        = b.ListDomains.1.filter (fun x => decide (x.Name ≠ name)) := by
      rw [hdel]
      simp only [demoBackend.ListDomains, listDomainsOf]
      rw [mapDelete_values b.domains name (fun x : Domain => x.Name) hwf.2.2.2.1]
      exact sortSlice_filter (fun x : Domain => x.Name.data) _ _ (wellFormed_domain_names b hwf)
    have hZ : (b.DeleteDomain name).1.ListZones.1
        = b.ListZones.1.filter (fun z => decide (z.Name ≠ name)) := by
      rw [hdel]
      simp only [demoBackend.ListZones, listZonesOf]
      rw [mapDelete_values b.zones name (fun x : Zone => x.Name) hwf.2.2.2.2]
      exact sortSlice_filter (fun x : Zone => x.Name.data) _ _ (wellFormed_zone_names b hwf)
    refine ⟨by rw [hdel], ?_, ?_, ?_, hD, hZ, ?_⟩
    · intro x hx
      rw [hD] at hx
      simpa using (List.mem_filter.mp hx).2
    · intro z hz
      rw [hZ] at hz
      simpa using (List.mem_filter.mp hz).2
    · rw [hdel]
      simp only [demoBackend.ListRecords, mapGet_mapDelete_self]
    · intro other ho
      rw [hdel]
      simp only [demoBackend.GetDomain, demoBackend.GetZone, demoBackend.ListRecords,
        mapGet_mapDelete_ne _ _ _ ho, and_self]
  · intro hn
    unfold demoBackend.DeleteDomain
    rw [hn]

/-- Witness for C17: deleting `acme.dev` from the seeded backend. -/
theorem deleteDomain_effect_witness :
    (newDemoBackend.DeleteDomain "acme.dev").2 = none ∧
      (∀ x ∈ (newDemoBackend.DeleteDomain "acme.dev").1.ListDomains.1, x.Name ≠ "acme.dev") ∧
      ((newDemoBackend.DeleteDomain "acme.dev").1.ListRecords "acme.dev").1 = [] ∧
      (newDemoBackend.DeleteDomain "acme.dev").1.ListDomains.1.length = 24 ∧
      newDemoBackend.DeleteDomain "nosuch.dev"
        = (newDemoBackend, some "domain not found (demo): nosuch.dev") := by
  obtain ⟨h1, h2⟩ := deleteDomain_effect newDemoBackend demoBackend.Reachable.seeded "acme.dev"
  obtain ⟨a1, a2, _, a4, _, _, _⟩ := h1 (seedDomain 1 "acme.dev") (by decide)
  exact ⟨a1, a2, a4, by decide,
    (deleteDomain_effect newDemoBackend demoBackend.Reachable.seeded "nosuch.dev").2 (by decide)⟩

set_option maxRecDepth 100000 in
/-- C18: on a freshly seeded fixture backend, `ListRecords` of every seeded
domain name succeeds with exactly 5 records in strictly ascending id order,
and the closure of the Records browser's list load builds exactly 5 items
with the same ids in the same order; the seeded names are the 25 listed
domains.  In the run that opens the Records tab, selects `acme.dev` and
presses Enter, the browser shows those 5 items (ids 8800011 to 8800015).  The
only MX record of `acme.dev` is record 8800013, `GetRecord` returns it with
priority 10, and selecting it in the run and pressing Enter shows a detail
whose body has the line `Priority: 10`. -/
theorem seeded_records_end_to_end :
    (∀ name ∈ demoNames,
      (newDemoBackend.ListRecords name).2 = none ∧
      (newDemoBackend.ListRecords name).1.length = 5 ∧
      ((newDemoBackend.ListRecords name).1.map (fun r => r.ID)).Pairwise (fun a c => a < c) ∧
      (runLoadList newDemoBackend.toBackend .categoryRecords .browserRecordsList name).err = none ∧
      (runLoadList newDemoBackend.toBackend .categoryRecords .browserRecordsList name).items.length
        = 5 ∧
      (runLoadList newDemoBackend.toBackend .categoryRecords .browserRecordsList name).items.map
          (fun it => it.ID) = (newDemoBackend.ListRecords name).1.map (fun r => r.ID)) ∧
    newDemoBackend.ListDomains.1.map (fun d => d.Name) = demoNames ∧
    acmeRecordsRun.map (fun m => (m.screen, m.recordsZone, m.errMsg, m.items)) =
      some (.browserRecordsList, "acme.dev", "",
        (runLoadList newDemoBackend.toBackend .categoryRecords .browserRecordsList
          "acme.dev").items) ∧
    acmeRecordsRun.map (fun m => m.items.map (fun it => it.ID)) =
      some [8800011, 8800012, 8800013, 8800014, 8800015] ∧
    (∀ r ∈ (newDemoBackend.ListRecords "acme.dev").1, r.Type_ = "MX" → r.ID = 8800013) ∧
    (newDemoBackend.GetRecord "acme.dev" 8800013).1.map (fun r => (r.Type_, r.Priority))
      = some ("MX", 10) ∧
    (newDemoBackend.GetRecord "acme.dev" 8800013).2 = none ∧
    acmeMxDetailRun.map (fun m => (index? m.items m.selected).map (fun it => it.ID))
      = some (some 8800013) ∧
    acmeMxDetailRun.map (fun m => (m.errMsg, m.detailTitle, m.detailBody)) =
      some ("", "MX @.acme.dev",
        "ID: 8800013\nType: MX\nName: @\nZone: acme.dev\nContent: mail.acme.dev.\nTTL: 3600\nPriority: 10\nSystem: false\nCreated: 2026-02-26T12:00:00Z\nUpdated: 2026-02-26T12:00:00Z") := by
  decide

/-- Witness for C20: both signals on `dashboardShown`. -/
theorem dashboard_return_witness :
    dashboardShown.category = .categoryDomains ∧
      dashboardShown.screen = .browserDomainDashboard ∧
      dashboardShown.Update refLib .domainDashboardExit =
        some ({ dashboardShown with screen := .browserDomainsList }, []) ∧
      dashboardShown.Update refLib (.domainDashboardDeleted "acme.dev") =
        some ({ dashboardShown with
                  screen := .browserDomainsList,
                  statusMsg := "Domain \x27" ++ "acme.dev" ++ "\x27 deleted.",
                  detailTitle := "", detailBody := "", loading := true },
          [CmdAtom.spinnerTick,
           CmdAtom.loadList .categoryDomains .browserDomainsList dashboardShown.recordsZone]) :=
  ⟨by decide, by decide,
    (dashboard_return refLib dashboardShown "acme.dev" (by decide) (by decide)).1,
    (dashboard_return refLib dashboardShown "acme.dev" (by decide) (by decide)).2.1⟩

/-- Witness for C12: on a new Shell, after Domains and Zones were activated,
activating Domains again issues no command, and Records is still to be
initialized and becomes so by its activation; a global search that is the
first activation of Domains issues the commands of `Init` and then the blink
command of the search input. -/
theorem lazy_init_witness :
    ((NewShellModel none).runActivations refLib
        [.tab .tabDomains, .tab .tabZones]).initialized .tabDomains = true ∧
      (((NewShellModel none).runActivations refLib
        [.tab .tabDomains, .tab .tabZones]).applyActivation refLib (.tab .tabDomains)).2 = [] ∧
      ((NewShellModel none).runActivations refLib
        [.tab .tabDomains, .tab .tabZones]).initialized .tabRecords = false ∧
      (((NewShellModel none).runActivations refLib
        [.tab .tabDomains, .tab .tabZones]).applyActivation refLib
          (.tab .tabRecords)).1.initialized .tabRecords = true ∧
      (((NewShellModel none).runActivations refLib [.tab .tabZones]).applyActivation refLib
          .search).2 =
        [CmdAtom.spinnerTick, CmdAtom.loadList .categoryDomains .browserDomainsList "",
          CmdAtom.textinputBlink] := by
  have h := lazy_init refLib (NewShellModel none) [.tab .tabDomains, .tab .tabZones]
    (.tab .tabDomains)
  have g := lazy_init refLib (NewShellModel none) [.tab .tabDomains, .tab .tabZones]
    (.tab .tabRecords)
  have s := lazy_init refLib (NewShellModel none) [.tab .tabZones] .search
  obtain ⟨h1, h2, _⟩ := h.2.2.1 (Or.inr ⟨.tab .tabDomains, by simp, rfl⟩)
  obtain ⟨g1, g2, _⟩ := g.2.2.2 ⟨rfl, by decide⟩
  obtain ⟨_, _, _, s4⟩ := s.2.2.2 ⟨rfl, by decide⟩
  refine ⟨h1, ?_, g1, g2, ?_⟩
  · rw [h2 .tabDomains rfl]
  · rw [s4 rfl]
    decide
/-- Witness for C13: `q` typed while the search modal of the Domains tab is
open. -/
theorem blocked_keys_stay_in_tab_witness :
    blockedApp.route = .routeShell ∧ blockedApp.shell.BlocksGlobalKeys = true ∧
      ∃ r, blockedApp.Update refLib okEnv (.key qKey) = some r ∧
        r.1.shell.active = .tabDomains ∧ CmdAtom.quit ∉ r.2 := by
  have h := (blocked_keys_stay_in_tab refLib okEnv blockedApp qKey).2 rfl (by decide) (by decide)
  have hs : (blockedApp.Update refLib okEnv (.key qKey)).isSome = true := by decide
  obtain ⟨r, hr⟩ := Option.isSome_iff_exists.mp hs
  obtain ⟨_, ha, _, hq, _⟩ := h.2 r hr
  exact ⟨rfl, by decide, r, hr, ha.trans (by decide), hq⟩

/-- Witness for C14: the auth-completed event on a wizard route, and a key
event on a Shell route. -/
theorem app_route_witness :
    (NewAppModel refLib false "").route = .routeAuth ∧
      (∃ r, (NewAppModel refLib false "").Update refLib okEnv (.authDone none) = some r ∧
        r.1.route = .routeShell) ∧
      (NewAppModel refLib true "").route = .routeShell ∧
      ∃ r, (NewAppModel refLib true "").Update refLib okEnv (.key downKey) = some r ∧
        r.1.route = .routeShell := by
  obtain ⟨h1, h2⟩ := app_route refLib okEnv (NewAppModel refLib false "") (.authDone none)
  obtain ⟨r, hr⟩ := h1 rfl
  have hs : ((NewAppModel refLib true "").Update refLib okEnv (.key downKey)).isSome = true := by
    decide
  obtain ⟨r2, hr2⟩ := Option.isSome_iff_exists.mp hs
  exact ⟨rfl, ⟨r, hr, ((h2 r hr).2 rfl).2 ⟨none, rfl⟩⟩, rfl, r2, hr2,
    ((app_route refLib okEnv (NewAppModel refLib true "") (.key downKey)).2 r2 hr2).1 rfl⟩

/-- Witness for C15: the same validation result handled where the token
cannot be written, and where it can. -/
theorem auth_success_needs_persist_witness :
    persistAuth failSaveEnv goodToken.token goodToken.data
        = some "failed to save token: disk full" ∧
      (validatingAuth.Update refLib failSaveEnv (.tokenValidated goodToken)).1.step
        = .authStepError ∧
      (validatingAuth.Update refLib failSaveEnv (.tokenValidated goodToken)).1.errMsg
        = "failed to save token: disk full" ∧
      (validatingAuth.Update refLib okEnv (.tokenValidated goodToken)).1.step
        = .authStepSuccess ∧
      ∃ tv, Msg.tokenValidated goodToken = .tokenValidated tv ∧ tv.err = none ∧
        persistAuth okEnv tv.token tv.data = none := by
  have hp : persistAuth failSaveEnv goodToken.token goodToken.data
      = some "failed to save token: disk full" := by decide
  have h := (auth_success_needs_persist refLib failSaveEnv validatingAuth
    (.tokenValidated goodToken)).2.1 goodToken _ rfl rfl hp
  have hs : (validatingAuth.Update refLib okEnv (.tokenValidated goodToken)).1.step
      = .authStepSuccess := by decide
  exact ⟨hp, h.1, h.2.1, hs,
    (auth_success_needs_persist refLib okEnv validatingAuth (.tokenValidated goodToken)).1
      (by decide) hs⟩

/-- A browser held by a load answers every key with itself and no command. -/
theorem BrowserModel.held_key_update (L : Lib) (b : BrowserModel) (k : KeyMsg)
    (h : b.LoadHoldsKeys) : b.Update L (.key k) = some (b, []) := by
  obtain ⟨hv, h | h⟩ := h
  · unfold BrowserModel.Update
    simp only [hv, h.2, if_false]
    unfold BrowserModel.updateKey
    rw [if_pos h.1]
  · obtain ⟨hc, hs, hl, hm⟩ := h
    have hd : b.domainDash.Update L (.key k) = some (b.domainDash, []) := by
      unfold DomainDashboardModel.Update
      simp only [hm, Bool.false_eq_true, if_false]
      unfold DomainDashboardModel.updateKey
      rw [if_pos hl]
    unfold BrowserModel.Update
    simp only [hv]
    rw [if_pos ⟨hc, hs⟩]
    simp only [hd, Option.map_some']

/-- A key handed to the active tab leaves every browser held by a load as it
is, and the held browser of the active tab answers with no command. -/
theorem ShellModel.updateActive_held (L : Lib) (m : ShellModel) (k : KeyMsg)
    (r : ShellModel × Cmd) (h : m.updateActive L (.key k) = some r) (t : shellTab)
    (b : BrowserModel) (hb : m.browserFor t = some b) (hh : b.LoadHoldsKeys) :
    r.1.browserFor t = some b ∧ (m.active = t → r.2 = []) := by
  obtain ⟨_, _, _, _, f5, f6, f7⟩ := ShellModel.updateActive_frame L m _ r h
  by_cases ha : m.active = t
  · unfold ShellModel.updateActive at h
    cases t with
    | tabDomains =>
      simp only [ShellModel.browserFor, Option.some.injEq] at hb
      subst hb
      simp only [ha, BrowserModel.held_key_update L _ k hh, Option.map_some',
        Option.some.injEq] at h
      subst h
      exact ⟨rfl, fun _ => rfl⟩
    | tabZones =>
      simp only [ShellModel.browserFor, Option.some.injEq] at hb
      subst hb
      simp only [ha, BrowserModel.held_key_update L _ k hh, Option.map_some',
        Option.some.injEq] at h
      subst h
      exact ⟨rfl, fun _ => rfl⟩
    | tabRecords =>
      simp only [ShellModel.browserFor, Option.some.injEq] at hb
      subst hb
      simp only [ha, BrowserModel.held_key_update L _ k hh, Option.map_some',
        Option.some.injEq] at h
      subst h
      exact ⟨rfl, fun _ => rfl⟩
    | tabHelp => simp [ShellModel.browserFor] at hb
    | tabHome => simp [ShellModel.browserFor] at hb
  · refine ⟨?_, fun h => absurd h ha⟩
    cases t with
    | tabDomains => simp only [ShellModel.browserFor] at hb ⊢; rw [f5 ha]; exact hb
    | tabZones => simp only [ShellModel.browserFor] at hb ⊢; rw [f6 ha]; exact hb
    | tabRecords => simp only [ShellModel.browserFor] at hb ⊢; rw [f7 ha]; exact hb
    | tabHelp => simp [ShellModel.browserFor] at hb
    | tabHome => simp [ShellModel.browserFor] at hb

/-- What `activate(tab)` does to the browser of an initialized tab `t`:
nothing; and activating `t` itself only sets the active tab. -/
theorem ShellModel.activate_held (m : ShellModel) (tab t : shellTab) (b : BrowserModel)
    (hb : m.browserFor t = some b) (hi : m.initialized t = true) :
    (m.activate tab).1.browserFor t = some b ∧ (m.activate tab).1.active = tab ∧
      (tab = t → (m.activate tab).2 = []) := by
  unfold ShellModel.activate ShellModel.initTab
  by_cases h : m.initialized tab = true
  · rw [if_pos h]
    exact ⟨hb, rfl, fun _ => rfl⟩
  · rw [if_neg h]
    have hne : tab ≠ t := fun e => h (e ▸ hi)
    refine ⟨?_, (ShellModel.initModel_frame _ tab).2, fun e => absurd e hne⟩
    unfold ShellModel.initModel
    cases tab <;> cases t <;> first
      | exact hb
      | exact absurd rfl hne
      | fail

/-- A global key other than `/` does nothing or activates a tab. -/
theorem ShellModel.handleGlobalKeys_cases (L : Lib) (m : ShellModel) (k : KeyMsg)
    (hk : k.name ≠ "/") :
    m.handleGlobalKeys L k = (m, []) ∨ ∃ tab, m.handleGlobalKeys L k = m.activate tab := by
  unfold ShellModel.handleGlobalKeys
  rw [if_neg hk]
  split_ifs
  all_goals first
    | exact Or.inl rfl
    | exact Or.inr ⟨_, rfl⟩
    | fail

/-- The global search key is no tab key: its handler is
`openGlobalDomainSearch`. -/
theorem ShellModel.handleGlobalKeys_slash (L : Lib) (m : ShellModel) (k : KeyMsg)
    (hk : k.name = "/") : m.handleGlobalKeys L k = m.openGlobalDomainSearch L := by
  unfold ShellModel.handleGlobalKeys
  simp [keyMatches, keys, hk]

/-- The global search leaves the Zones and Records browsers as they are. -/
theorem ShellModel.openGlobalDomainSearch_held (L : Lib) (m : ShellModel) (t : shellTab)
    (b : BrowserModel) (hb : m.browserFor t = some b) (ht : t ≠ .tabDomains) :
    (m.openGlobalDomainSearch L).1.browserFor t = some b ∧
      (m.openGlobalDomainSearch L).1.active = .tabDomains := by
  unfold ShellModel.openGlobalDomainSearch ShellModel.initTab
  by_cases h : m.initialized .tabDomains = true
  · simp only [h, if_true]
    refine ⟨?_, by first | rfl | trivial⟩
    cases t <;> first
      | exact hb
      | exact absurd rfl ht
      | fail
  · simp only [h, if_false, ShellModel.initModel]
    refine ⟨?_, by first | rfl | trivial⟩
    cases t <;> first
      | exact hb
      | exact absurd rfl ht
      | fail

/-- A key event through the Shell and a browser held by a load. -/
theorem ShellModel.key_keeps_held (L : Lib) (m : ShellModel) (k : KeyMsg)
    (r : ShellModel × Cmd) (h : m.Update L (.key k) = some r) (t : shellTab)
    (b : BrowserModel) (hb : m.browserFor t = some b) (hh : b.LoadHoldsKeys)
    (hi : m.initialized t = true) (hs : t = .tabDomains → k.name ≠ "/") :
    r.1.browserFor t = some b ∧ (m.active = t → r.1.active = t → r.2 = []) := by
  have rest : ∀ s : ShellModel, s.updateRest L (.key k) = s.updateActive L (.key k) :=
    fun _ => rfl
  unfold ShellModel.Update at h
  simp only [rest] at h
  by_cases hbl : m.BlocksGlobalKeys = false
  · simp only [hbl, if_true] at h
    by_cases hk : k.name = "/"
    · have ht : t ≠ .tabDomains := fun e => hs e hk
      obtain ⟨s1, s2⟩ := ShellModel.openGlobalDomainSearch_held L m t b hb ht
      rw [ShellModel.handleGlobalKeys_slash L m k hk] at h
      split_ifs at h
      · simp only [Option.some.injEq] at h
        subst h
        exact ⟨s1, fun _ ha => absurd (s2.symm.trans ha).symm ht⟩
      · obtain ⟨f1, _⟩ := ShellModel.updateActive_frame L _ _ r h
        refine ⟨(ShellModel.updateActive_held L _ k r h t b s1 hh).1, fun _ ha => ?_⟩
        exact absurd ((f1.trans s2).symm.trans ha).symm ht
    · rcases ShellModel.handleGlobalKeys_cases L m k hk with hg | ⟨tab, hg⟩
      · rw [hg] at h
        simp only [ne_eq, not_true_eq_false, if_false] at h
        obtain ⟨u1, u2⟩ := ShellModel.updateActive_held L m k r h t b hb hh
        exact ⟨u1, fun ha _ => u2 ha⟩
      · obtain ⟨a1, a2, a3⟩ := ShellModel.activate_held m tab t b hb hi
        rw [hg] at h
        split_ifs at h
        · simp only [Option.some.injEq] at h
          subst h
          exact ⟨a1, fun _ ha => a3 (a2.symm.trans ha)⟩
        · obtain ⟨f1, _⟩ := ShellModel.updateActive_frame L _ _ r h
          obtain ⟨u1, u2⟩ := ShellModel.updateActive_held L _ k r h t b a1 hh
          exact ⟨u1, fun _ ha => u2 (f1.symm.trans ha)⟩
  · simp only [hbl, if_false] at h
    obtain ⟨u1, u2⟩ := ShellModel.updateActive_held L m k r h t b hb hh
    exact ⟨u1, fun ha _ => u2 ha⟩

/-- What `OpenSearch` does to a Domains browser: the list is shown under the
visible search modal; the loading flag and the dashboard are not touched. -/
theorem BrowserModel.OpenSearch_effect (L : Lib) (b : BrowserModel)
    (hc : b.category = .categoryDomains) :
    (b.OpenSearch L).2 = [CmdAtom.textinputBlink] ∧
      (b.OpenSearch L).1.search.visible = true ∧
      (b.OpenSearch L).1.screen = .browserDomainsList ∧
      (b.OpenSearch L).1.loading = b.loading ∧
      (b.OpenSearch L).1.domainDash = b.domainDash := by
  unfold BrowserModel.OpenSearch
  rw [if_neg (by rw [hc]; decide)]
  unfold BrowserModel.openSearchModal BrowserModel.updateSearchMatches
  simp only []
  split_ifs <;> refine ⟨?_, ?_, ?_, ?_, ?_⟩ <;> first
    | rfl
    | trivial
    | fail

/-- The global search key on a Shell whose Domains tab is initialized. -/
theorem ShellModel.slash_opens_search (L : Lib) (m : ShellModel) (k : KeyMsg)
    (hk : k.name = "/") (hbl : m.BlocksGlobalKeys = false)
    (hi : m.initialized .tabDomains = true) (hc : m.domains.category = .categoryDomains) :
    m.Update L (.key k) =
      some ({ m with active := .tabDomains, domains := (m.domains.OpenSearch L).1 },
        [CmdAtom.textinputBlink]) := by
  have e := (BrowserModel.OpenSearch_effect L m.domains hc).1
  unfold ShellModel.Update
  simp only [hbl, if_true]
  rw [ShellModel.handleGlobalKeys_slash L m k hk]
  have hg : m.openGlobalDomainSearch L =
      ({ m with active := .tabDomains, domains := (m.domains.OpenSearch L).1 },
        [CmdAtom.textinputBlink]) := by
    unfold ShellModel.openGlobalDomainSearch ShellModel.initTab
    simp only [hi, if_true, teaBatch, List.flatten_cons, List.nil_append, List.flatten_nil,
      List.append_nil, e]
  rw [hg]
  simp

/-- `(*HomeModel).Update` always returns. -/
theorem HomeModel.Update_returns (L : Lib) (m : HomeModel) (msg : Msg) :
    ∃ r, m.Update L msg = some r := by
  unfold HomeModel.Update
  cases msg <;> simp only [] <;> first
    | exact ⟨_, rfl⟩
    | (split_ifs <;> exact ⟨_, rfl⟩)
    | (split <;> exact ⟨_, rfl⟩)
    | fail

theorem ite_isSome {α : Type} {c : Prop} {inst : Decidable c} {a b : Option α}
    (ha : c → a.isSome = true) (hb : ¬ c → b.isSome = true) :
    (@ite (Option α) c inst a b).isSome = true := by
  split_ifs with h
  · exact ha h
  · exact hb h

/-- `Update` of a dashboard returns on every key other than Enter. -/
theorem DomainDashboardModel.dashboard_key_returns (L : Lib) (d : DomainDashboardModel) (k : KeyMsg)
    (he : keyMatches k keys.Enter = false) : (d.Update L (.key k)).isSome = true := by
  unfold DomainDashboardModel.Update
  simp only []
  refine ite_isSome (fun _ => rfl) (fun _ => ?_)
  unfold DomainDashboardModel.updateKey
  repeat' first
    | rfl
    | (refine ite_isSome (fun h => ?_) (fun _ => ?_))
    | (split <;> rfl)
    | exact absurd (he.symm.trans ‹keyMatches k keys.Enter = true›) (by decide)
    | fail

/-- `Update` of a browser returns on every key other than Enter, `f` and
`x`, the keys whose arms read `m.items[m.selected]`. -/
theorem BrowserModel.browser_key_returns (L : Lib) (b : BrowserModel) (k : KeyMsg)
    (he : keyMatches k keys.Enter = false) (hf : k.name ≠ "f") (hx : k.name ≠ "x") :
    (b.Update L (.key k)).isSome = true := by
  have hd := DomainDashboardModel.dashboard_key_returns L b.domainDash k he
  unfold BrowserModel.Update
  cases hv : b.search.visible
  · simp only []
    refine ite_isSome (fun _ => ?_) (fun _ => ?_)
    · obtain ⟨r, hr⟩ := Option.isSome_iff_exists.mp hd
      rw [hr]
      rfl
    · unfold BrowserModel.updateKey
      repeat' first
        | rfl
        | exact absurd ‹k.name = "f"› hf
        | exact absurd ‹k.name = "x"› hx
        | exact absurd (he.symm.trans ‹keyMatches k keys.Enter = true›) (by decide)
        | (refine ite_isSome (fun h => ?_) (fun _ => ?_))
        | fail
  · simp only []
    unfold BrowserModel.updateSearchModal
    repeat' first
      | rfl
      | exact absurd (he.symm.trans ‹keyMatches k keys.Enter = true›) (by decide)
      | (refine ite_isSome (fun h => ?_) (fun _ => ?_))
      | fail

/-- A global key that activates a tab is not Enter, `f` or `x`. -/
theorem ShellModel.handleGlobalKeys_key (L : Lib) (m : ShellModel) (k : KeyMsg)
    (hk : k.name ≠ "/") :
    m.handleGlobalKeys L k = (m, []) ∨
      ((∃ tab, m.handleGlobalKeys L k = m.activate tab) ∧
        keyMatches k keys.Enter = false ∧ k.name ≠ "f" ∧ k.name ≠ "x") := by
  unfold ShellModel.handleGlobalKeys
  rw [if_neg hk]
  split_ifs with h1 h2 h3 h4 h5 h6 h7
  · refine Or.inr ⟨⟨_, rfl⟩, ?_⟩
    simp only [keyMatches, keys, List.contains_cons, List.contains_nil, Bool.or_false,
      Bool.or_eq_true, beq_iff_eq] at h1
    rcases h1 with h | h <;> simp [keyMatches, keys, h]
  · refine Or.inr ⟨⟨_, rfl⟩, ?_⟩
    simp only [keyMatches, keys, List.contains_cons, List.contains_nil, Bool.or_false,
      Bool.or_eq_true, beq_iff_eq] at h2
    rcases h2 with h | h <;> simp [keyMatches, keys, h]
  · refine Or.inr ⟨⟨_, rfl⟩, ?_⟩
    rcases h3 with h | h <;> simp [keyMatches, keys, h]
  · refine Or.inr ⟨⟨_, rfl⟩, ?_⟩
    rcases h4 with h | h <;> simp [keyMatches, keys, h]
  · refine Or.inr ⟨⟨_, rfl⟩, ?_⟩
    rcases h5 with h | h <;> simp [keyMatches, keys, h]
  · refine Or.inr ⟨⟨_, rfl⟩, ?_⟩
    rcases h6 with h | h <;> simp [keyMatches, keys, h]
  · refine Or.inr ⟨⟨_, rfl⟩, ?_⟩
    rcases h7 with h | h <;> simp [keyMatches, keys, h]
  · exact Or.inl rfl

/-- The active tab answers every key other than Enter, `f` and `x`. -/
theorem ShellModel.updateActive_key_returns (L : Lib) (m : ShellModel) (k : KeyMsg)
    (he : keyMatches k keys.Enter = false) (hf : k.name ≠ "f") (hx : k.name ≠ "x") :
    ∃ r, m.updateActive L (.key k) = some r := by
  unfold ShellModel.updateActive
  cases m.active <;> simp only []
  · obtain ⟨r, hr⟩ := HomeModel.Update_returns L m.home (.key k)
    exact ⟨_, by rw [hr]; rfl⟩
  · obtain ⟨r, hr⟩ := Option.isSome_iff_exists.mp (BrowserModel.browser_key_returns L m.domains k he hf hx)
    exact ⟨_, by rw [hr]; rfl⟩
  · obtain ⟨r, hr⟩ := Option.isSome_iff_exists.mp (BrowserModel.browser_key_returns L m.zones k he hf hx)
    exact ⟨_, by rw [hr]; rfl⟩
  · obtain ⟨r, hr⟩ := Option.isSome_iff_exists.mp (BrowserModel.browser_key_returns L m.records k he hf hx)
    exact ⟨_, by rw [hr]; rfl⟩
  · exact ⟨_, rfl⟩

/-- A key typed while the browser of the active tab is held by a load either
leaves the whole Shell as it is and issues no command, or makes another tab
the active one. -/
theorem ShellModel.held_active_key (L : Lib) (m : ShellModel) (k : KeyMsg) (t : shellTab)
    (b : BrowserModel) (hb : m.browserFor t = some b) (hh : b.LoadHoldsKeys)
    (hi : m.initialized t = true) (hs : t = .tabDomains → k.name ≠ "/") (ha : m.active = t) :
    m.Update L (.key k) = some (m, []) ∨
      ∃ r, m.Update L (.key k) = some r ∧ r.1.active ≠ t := by
  have rest : ∀ s : ShellModel, s.updateRest L (.key k) = s.updateActive L (.key k) :=
    fun _ => rfl
  have same : m.updateActive L (.key k) = some (m, []) := by
    unfold ShellModel.updateActive
    cases t with
    | tabDomains =>
      simp only [ShellModel.browserFor, Option.some.injEq] at hb
      subst hb
      simp only [ha, BrowserModel.held_key_update L _ k hh, Option.map_some']
      rw [← ha]
    | tabZones =>
      simp only [ShellModel.browserFor, Option.some.injEq] at hb
      subst hb
      simp only [ha, BrowserModel.held_key_update L _ k hh, Option.map_some']
      rw [← ha]
    | tabRecords =>
      simp only [ShellModel.browserFor, Option.some.injEq] at hb
      subst hb
      simp only [ha, BrowserModel.held_key_update L _ k hh, Option.map_some']
      rw [← ha]
    | tabHelp => simp [ShellModel.browserFor] at hb
    | tabHome => simp [ShellModel.browserFor] at hb
  unfold ShellModel.Update
  simp only [rest]
  by_cases hbl : m.BlocksGlobalKeys = false
  · simp only [hbl, if_true]
    by_cases hk : k.name = "/"
    · have ht : t ≠ .tabDomains := fun e => hs e hk
      obtain ⟨_, s2⟩ := ShellModel.openGlobalDomainSearch_held L m t b hb ht
      rw [ShellModel.handleGlobalKeys_slash L m k hk]
      right
      have he : keyMatches k keys.Enter = false ∧ k.name ≠ "f" ∧ k.name ≠ "x" := by
        simp [keyMatches, keys, hk]
      split_ifs
      · exact ⟨_, rfl, fun e => ht (e.symm.trans s2)⟩
      · obtain ⟨r, hr⟩ := ShellModel.updateActive_key_returns L
          (m.openGlobalDomainSearch L).1 k he.1 he.2.1 he.2.2
        obtain ⟨f1, _⟩ := ShellModel.updateActive_frame L _ _ r hr
        exact ⟨r, hr, fun e => ht (e.symm.trans (f1.trans s2))⟩
    · rcases ShellModel.handleGlobalKeys_key L m k hk with hg | ⟨⟨tab, hg⟩, he, hf, hx⟩
      · rw [hg]
        simp only [ne_eq, not_true_eq_false, if_false]
        exact Or.inl same
      · obtain ⟨_, a2, a3⟩ := ShellModel.activate_held m tab t b hb hi
        rw [hg]
        by_cases htab : tab = t
        · left
          have hact : m.activate tab = (m, []) := by
            unfold ShellModel.activate ShellModel.initTab
            rw [if_pos (by rw [htab]; exact hi), htab, ← ha]
          rw [hact]
          simp only [ne_eq, not_true_eq_false, if_false]
          exact same
        · right
          split_ifs
          · exact ⟨_, rfl, fun e => htab (a2.symm.trans e)⟩
          · obtain ⟨r, hr⟩ := ShellModel.updateActive_key_returns L (m.activate tab).1 k he hf hx
            obtain ⟨f1, _⟩ := ShellModel.updateActive_frame L _ _ r hr
            exact ⟨r, hr, fun e => htab ((f1.trans a2).symm.trans e)⟩
  · simp only [hbl, if_false]
    exact Or.inl same

/-- C23 (as stated, refuted): key `2` on a new Shell opens the Domains tab,
whose list load is then in flight (loading flag set, search modal hidden,
list on show).  The key event `/` changes this loading browser: the Shell
answers it with `OpenSearch`, the search modal becomes visible and the blink
command of the search input is issued. -/
theorem global_search_on_loading_browser_counterexample :
    ((NewShellModel none).Init.1.Update refLib (.key (runeKey (Char.ofNat 50)))).map
        (fun r => (r.1.active, r.1.domains)) = some (.tabDomains, loadingDomainsShell.domains) ∧
      (loadingDomainsShell.active, loadingDomainsShell.domains.loading,
        loadingDomainsShell.domains.search.visible, loadingDomainsShell.domains.screen)
        = (.tabDomains, true, false, .browserDomainsList) ∧
      (loadingDomainsShell.Update refLib (.key slashKey)).map
        (fun r => (r.1.domains.loading, r.1.domains.search.visible, r.2))
        = some (true, true, [CmdAtom.textinputBlink]) := by
  decide

/-- C23 (amended): a key event handed to the `Update` of a Resource Browser
whose loading flag is set (search modal hidden, not showing the dashboard),
or of a Domain Dashboard whose loading flag is set (confirmation modal
hidden), returns the same state and no command.  The same holds for the key
events that reach the component through the Shell, but for the global search
key `/` on the Domains browser: a browser of an initialized tab that such a
load holds is left as it is by every other key event, and while it is on the
active tab the key either leaves the whole Shell as it is and issues no
command, or makes another tab the active one.  The key `/`, typed
while the active tab does not block global keys and the Domains tab is
initialized, makes Domains the active tab and runs `OpenSearch` on its
browser, also while its load is in flight: the list is shown under the
visible search modal and the blink command is issued; the loading flag and
the dashboard are not touched. -/
theorem loading_blocks_keys (L : Lib) (k : KeyMsg) :
    (∀ m : BrowserModel, m.loading = true → m.search.visible = false →
      ¬ (m.category = .categoryDomains ∧ m.screen = .browserDomainDashboard) →
      m.Update L (.key k) = some (m, [])) ∧
    (∀ d : DomainDashboardModel, d.loading = true → d.modal.visible = false →
      d.Update L (.key k) = some (d, [])) ∧
    (∀ (m : ShellModel) (t : shellTab) (b : BrowserModel),
      m.browserFor t = some b → b.LoadHoldsKeys → m.initialized t = true →
      (t = .tabDomains → k.name ≠ "/") →
      (∀ r, m.Update L (.key k) = some r → r.1.browserFor t = some b) ∧
      (m.active = t →
        m.Update L (.key k) = some (m, []) ∨
          ∃ r, m.Update L (.key k) = some r ∧ r.1.active ≠ t)) ∧
    (∀ m : ShellModel, k.name = "/" → m.BlocksGlobalKeys = false →
      m.initialized .tabDomains = true → m.domains.category = .categoryDomains →
      m.Update L (.key k) =
          some ({ m with active := .tabDomains, domains := (m.domains.OpenSearch L).1 },
            [CmdAtom.textinputBlink]) ∧
        (m.domains.OpenSearch L).1.search.visible = true ∧
        (m.domains.OpenSearch L).1.screen = .browserDomainsList ∧
        (m.domains.OpenSearch L).1.loading = m.domains.loading ∧
        (m.domains.OpenSearch L).1.domainDash = m.domains.domainDash) := by
  refine ⟨?_, ?_, ?_, ?_⟩
  · intro m hl hv hd
    unfold BrowserModel.Update
    simp only [hv, hd, if_false]
    unfold BrowserModel.updateKey
    rw [if_pos hl]
  · intro d hl hv
    unfold DomainDashboardModel.Update
    simp only [hv, Bool.false_eq_true, if_false]
    unfold DomainDashboardModel.updateKey
    rw [if_pos hl]
  · intro m t b hb hh hi hs
    exact ⟨fun r h => (ShellModel.key_keeps_held L m k r h t b hb hh hi hs).1,
      ShellModel.held_active_key L m k t b hb hh hi hs⟩
  · intro m hk hbl hi hc
    exact ⟨ShellModel.slash_opens_search L m k hk hbl hi hc,
      (BrowserModel.OpenSearch_effect L m.domains hc).2⟩

/-- Witness for C23: Enter on a browser and on a dashboard whose load is in
flight; Enter and `/` on the Shell whose Domains tab is loading its list. -/
theorem loading_blocks_keys_witness :
    loadingBrowser.loading = true ∧
      loadingBrowser.Update refLib (.key enterKey) = some (loadingBrowser, []) ∧
      loadingDashboard.loading = true ∧
      loadingDashboard.Update refLib (.key enterKey) = some (loadingDashboard, []) ∧
      loadingDomainsShell.domains.LoadHoldsKeys ∧
      loadingDomainsShell.Update refLib (.key enterKey) = some (loadingDomainsShell, []) ∧
      loadingDomainsShell.Update refLib (.key slashKey) =
        some ({ loadingDomainsShell with
                active := .tabDomains,
                domains := (loadingDomainsShell.domains.OpenSearch refLib).1 },
          [CmdAtom.textinputBlink]) ∧
      (loadingDomainsShell.domains.OpenSearch refLib).1.search.visible = true := by
  have hh : loadingDomainsShell.domains.LoadHoldsKeys := by decide
  have e := ((loading_blocks_keys refLib enterKey).2.2.1 loadingDomainsShell .tabDomains
    loadingDomainsShell.domains rfl hh (by decide) (fun _ => by decide)).2 (by decide)
  have s := (loading_blocks_keys refLib slashKey).2.2.2 loadingDomainsShell (by decide)
    (by decide) (by decide) (by decide)
  refine ⟨by decide,
    (loading_blocks_keys refLib enterKey).1 loadingBrowser (by decide) (by decide) (by decide),
    by decide,
    (loading_blocks_keys refLib enterKey).2.1 loadingDashboard (by decide) (by decide),
    hh, ?_, s.1, s.2.1⟩
  rcases e with e | ⟨r, hr, hne⟩
  · exact e
  · have ha : (loadingDomainsShell.Update refLib (.key enterKey)).map (fun r => r.1.active)
        = some .tabDomains := by decide
    rw [hr] at ha
    simp only [Option.map_some', Option.some.injEq] at ha
    exact absurd ha hne

/-- C28: a message that is not a key event, a navigate-category message or a
browser-back message is handed by `ShellModel.Update` to the `Update` of the
active tab's model and to nothing else: the active tab, the initialized
set and the models of the inactive tabs are unchanged (the Help tab has no
state to change), whichever tab issued the load the message answers. -/
theorem non_key_goes_to_active_tab (L : Lib) (m : ShellModel) (msg : Msg)
    (hk : ∀ k, msg ≠ .key k) (hn : ∀ c, msg ≠ .navigateCategory c) (hb : msg ≠ .browserBack) :
    m.Update L msg = m.updateActive L msg ∧
    (m.active = .tabHome →
      m.Update L msg = (m.home.Update L msg).map (fun r => ({ m with home := r.1 }, r.2))) ∧
    (m.active = .tabDomains →
      m.Update L msg = (m.domains.Update L msg).map (fun r => ({ m with domains := r.1 }, r.2))) ∧
    (m.active = .tabZones →
      m.Update L msg = (m.zones.Update L msg).map (fun r => ({ m with zones := r.1 }, r.2))) ∧
    (m.active = .tabRecords →
      m.Update L msg = (m.records.Update L msg).map (fun r => ({ m with records := r.1 }, r.2))) ∧
    (m.active = .tabHelp → m.Update L msg = some (m, [])) ∧
    ∀ r, m.Update L msg = some r →
      r.1.active = m.active ∧ r.1.initialized = m.initialized ∧ r.1.help = m.help ∧
      (m.active ≠ .tabHome → r.1.home = m.home) ∧
      (m.active ≠ .tabDomains → r.1.domains = m.domains) ∧
      (m.active ≠ .tabZones → r.1.zones = m.zones) ∧
      (m.active ≠ .tabRecords → r.1.records = m.records) := by
  have heq : m.Update L msg = m.updateActive L msg := by
    unfold ShellModel.Update ShellModel.updateRest
    cases msg with
    | key k => exact absurd rfl (hk k)
    | navigateCategory c => exact absurd rfl (hn c)
    | browserBack => exact absurd rfl hb
    | _ => rfl
  refine ⟨heq, ?_, ?_, ?_, ?_, ?_, ?_⟩
  · intro ha
    rw [heq]
    unfold ShellModel.updateActive
    simp only [ha]
  · intro ha
    rw [heq]
    unfold ShellModel.updateActive
    simp only [ha]
  · intro ha
    rw [heq]
    unfold ShellModel.updateActive
    simp only [ha]
  · intro ha
    rw [heq]
    unfold ShellModel.updateActive
    simp only [ha]
  · intro ha
    rw [heq]
    unfold ShellModel.updateActive
    simp only [ha]
  · intro r h
    rw [heq] at h
    exact ShellModel.updateActive_frame L m msg r h

/-- Witness for C28: the list answer to the load of the Zones tab arrives
while the Records tab is active; it becomes the item list of the Records
browser and the Zones browser is left as it was, still loading. -/
theorem non_key_goes_to_active_tab_witness :
    shellOnRecords.active = .tabRecords ∧ shellOnRecords.zones.loading = true ∧
      ∃ r, shellOnRecords.Update refLib (.browserListLoaded zonesResult) = some r ∧
        r.1.records.items = zonesResult.items ∧ r.1.records.listHeader = "Zones (25)" ∧
        r.1.zones = shellOnRecords.zones ∧ r.1.active = .tabRecords := by
  have h := non_key_goes_to_active_tab refLib shellOnRecords (.browserListLoaded zonesResult)
    (by intro k; simp) (by intro c; simp) (by simp)
  have hs : (shellOnRecords.records.Update refLib (.browserListLoaded zonesResult)).isSome
      = true := by decide
  obtain ⟨u, hu⟩ := Option.isSome_iff_exists.mp hs
  have hr := h.2.2.2.2.1 rfl
  rw [hu] at hr
  have hi : (shellOnRecords.records.Update refLib (.browserListLoaded zonesResult)).map
      (fun r => (r.1.items, r.1.listHeader)) = some (zonesResult.items, "Zones (25)") := by
    decide
  rw [hu] at hi
  simp only [Option.map_some', Option.some.injEq, Prod.mk.injEq] at hi
  obtain ⟨f1, _, _, _, _, f6, _⟩ := h.2.2.2.2.2.2 _ hr
  exact ⟨rfl, by decide, _, hr, hi.1, hi.2, f6 (by decide), f1⟩

/-- The browser that blocks global keys always returns on the key `q`: the
search modal takes it as text, and so does the confirmation modal. -/
theorem BrowserModel.blocked_q_browser_returns (L : Lib) (m : BrowserModel) (k : KeyMsg)
    (hk : k.name = "q") (hb : m.BlocksGlobalKeys = true) :
    ∃ u, m.Update L (.key k) = some u := by
  unfold BrowserModel.Update
  cases hv : m.search.visible with
  | true =>
    simp only []
    unfold BrowserModel.updateSearchModal
    simp [hk, keyMatches, keys]
  | false =>
    unfold BrowserModel.BlocksGlobalKeys at hb
    simp only [hv, Bool.false_eq_true, if_false, Bool.and_eq_true, decide_eq_true_eq,
      DomainDashboardModel.ModalVisible] at hb
    simp only [hb.1.1, hb.1.2, and_self, if_true]
    unfold DomainDashboardModel.Update
    simp [hb.2]

/-- The Shell whose active tab blocks global keys always returns on `q`. -/
theorem ShellModel.blocked_q_returns (L : Lib) (m : ShellModel) (k : KeyMsg)
    (hk : k.name = "q") (hb : m.BlocksGlobalKeys = true) :
    ∃ u, m.updateActive L (.key k) = some u := by
  unfold ShellModel.BlocksGlobalKeys at hb
  unfold ShellModel.updateActive
  cases ha : m.active <;> simp only [ha] at hb ⊢
  · simp at hb
  · obtain ⟨u, hu⟩ := BrowserModel.blocked_q_browser_returns L m.domains k hk hb
    exact ⟨_, by rw [hu]; rfl⟩
  · obtain ⟨u, hu⟩ := BrowserModel.blocked_q_browser_returns L m.zones k hk hb
    exact ⟨_, by rw [hu]; rfl⟩
  · obtain ⟨u, hu⟩ := BrowserModel.blocked_q_browser_returns L m.records k hk hb
    exact ⟨_, by rw [hu]; rfl⟩
  · simp at hb

/-- C29: a `backspace` key event is handled as Back where text is entered
outside the search modal.  On the wizard's token step and config-directory
step it returns the wizard to Welcome, only blurring the input of that step;
in a confirmation modal that is not busy it closes the modal, clearing the
modal's error text and blurring its input.  No command is issued, and in
each case the text of the input (and its cursor) is as before. -/
theorem backspace_is_back (L : Lib) (E : Env) (k : KeyMsg) (hk : k.name = "backspace") :
    (∀ m : AuthModel, m.step = .authStepTokenInput →
      m.Update L E (.key k) =
        ({ m with step := .authStepWelcome, tokenInput := m.tokenInput.Blur }, []) ∧
      (m.Update L E (.key k)).1.tokenInput.value = m.tokenInput.value ∧
      (m.Update L E (.key k)).1.tokenInput.pos = m.tokenInput.pos) ∧
    (∀ m : AuthModel, m.step = .authStepConfigDir →
      m.Update L E (.key k) =
        ({ m with step := .authStepWelcome, pathInput := m.pathInput.Blur }, []) ∧
      (m.Update L E (.key k)).1.pathInput.value = m.pathInput.value ∧
      (m.Update L E (.key k)).1.pathInput.pos = m.pathInput.pos) ∧
    (∀ d : DomainDashboardModel, d.modal.visible = true → d.modal.busy = false →
      d.Update L (.key k) =
        some ({ d with modal := { d.modal with visible := false, errMsg := "",
                                               input := d.modal.input.Blur } }, []) ∧
      ∀ r, d.Update L (.key k) = some r →
        r.1.modal.visible = false ∧ r.1.modal.input.value = d.modal.input.value ∧
        r.1.modal.input.pos = d.modal.input.pos) := by
  have hback : keyMatches k keys.Back = true := by
    simp [keyMatches, keys, hk]
  refine ⟨?_, ?_, ?_⟩
  · intro m hs
    have h : m.Update L E (.key k) =
        ({ m with step := .authStepWelcome, tokenInput := m.tokenInput.Blur }, []) := by
      simp only [AuthModel.Update, AuthModel.updateKey, hs, hback, if_true]
    rw [h]
    exact ⟨rfl, rfl, rfl⟩
  · intro m hs
    have h : m.Update L E (.key k) =
        ({ m with step := .authStepWelcome, pathInput := m.pathInput.Blur }, []) := by
      simp only [AuthModel.Update, AuthModel.updateKey, hs, hback, if_true]
    rw [h]
    exact ⟨rfl, rfl, rfl⟩
  · intro d hv hb
    have h : d.Update L (.key k) =
        some ({ d with modal := { d.modal with visible := false, errMsg := "",
                                               input := d.modal.input.Blur } }, []) := by
      simp only [DomainDashboardModel.Update, hv, if_true, DomainDashboardModel.updateModal,
        hback, hb, and_self]
    refine ⟨h, ?_⟩
    intro r hr
    rw [h] at hr
    simp only [Option.some.injEq] at hr
    subst hr
    exact ⟨rfl, rfl, rfl⟩

/-- Witness for C29: backspace on the token step with `tok` typed, on the
config-directory step, and in the open confirmation modal with `conf` typed;
the texts stay although each input has the focus. -/
theorem backspace_is_back_witness :
    tokenTyped.tokenInput.focus = true ∧
      (tokenTyped.Update refLib okEnv (.key backspaceKey)).1.step = .authStepWelcome ∧
      (tokenTyped.Update refLib okEnv (.key backspaceKey)).1.tokenInput.value = "tok".data ∧
      (pathTyped.Update refLib okEnv (.key backspaceKey)).1.step = .authStepWelcome ∧
      (pathTyped.Update refLib okEnv (.key backspaceKey)).1.pathInput.value
        = "/home/u/.config/dnsimple".data ∧
      (confirmOpen "conf").modal.input.focus = true ∧
      ∃ r, (confirmOpen "conf").Update refLib (.key backspaceKey) = some r ∧
        r.1.modal.visible = false ∧ r.1.modal.input.value = "conf".data := by
  obtain ⟨h1, h2, h3⟩ := backspace_is_back refLib okEnv backspaceKey rfl
  obtain ⟨a1, a2, _⟩ := h1 tokenTyped rfl
  obtain ⟨b1, b2, _⟩ := h2 pathTyped rfl
  obtain ⟨c1, c2⟩ := h3 (confirmOpen "conf") (by decide) (by decide)
  refine ⟨by decide, ?_, a2.trans (by decide), ?_, b2.trans (by decide), by decide, _, c1,
    (c2 _ c1).1, (c2 _ c1).2.1.trans (by decide)⟩
  · rw [a1]
  · rw [b1]

/-- C30: on the wizard route a `q` key event makes `AppModel.Update` return
Quit with the state unchanged, whatever the wizard step (so the key does not
reach a text input).  On the Shell route `q` returns Quit, state unchanged,
when the Shell does not block global keys; when it does, `Update` returns and
its command holds no Quit. -/
theorem q_quits (L : Lib) (E : Env) (m : AppModel) (k : KeyMsg) (hk : k.name = "q") :
    (m.route = .routeAuth → m.Update L E (.key k) = some (m, [CmdAtom.quit])) ∧
    (m.route = .routeShell → m.shell.BlocksGlobalKeys = false →
      m.Update L E (.key k) = some (m, [CmdAtom.quit])) ∧
    (m.route = .routeShell → m.shell.BlocksGlobalKeys = true →
      ∃ r, m.Update L E (.key k) = some r ∧ CmdAtom.quit ∉ r.2) := by
  have hq : keyMatches k keys.Quit = true := by
    simp [keyMatches, keys, hk]
  have hc : k.name ≠ "ctrl+c" := by
    rw [hk]
    decide
  refine ⟨?_, ?_, ?_⟩
  · intro hr
    unfold AppModel.Update
    simp [hc, hq, hr]
  · intro hr hb
    unfold AppModel.Update
    simp [hc, hq, hr, hb]
  · intro hr hb
    have heq : m.Update L E (.key k) =
        (m.shell.updateActive L (.key k)).map (fun r => ({ m with shell := r.1 }, r.2)) := by
      unfold AppModel.Update
      simp only [hc, if_false, hr, hb, and_self, not_true_eq_false, and_false]
      unfold AppModel.dispatch
      simp only [hr]
      unfold ShellModel.Update
      simp only [hb, Bool.true_eq_false, if_false]
      rfl
    have hsome : ∃ u, m.shell.updateActive L (.key k) = some u :=
      ShellModel.blocked_q_returns L m.shell k hk hb
    obtain ⟨u, hu⟩ := hsome
    refine ⟨({ m with shell := u.1 }, u.2), ?_, ?_⟩
    · rw [heq, hu]
      rfl
    · exact ShellModel.blocked_shell_key_no_quit L m.shell k hb u hu

/-- Witness for C30: `q` on the token step of the wizard with `tok` typed, on
a Shell that does not block, and while the search modal is open. -/
theorem q_quits_witness :
    ({ NewAppModel refLib false "" with auth := tokenTyped }).Update refLib okEnv (.key qKey)
        = some ({ NewAppModel refLib false "" with auth := tokenTyped }, [CmdAtom.quit]) ∧
      (NewAppModel refLib true "").shell.BlocksGlobalKeys = false ∧
      (NewAppModel refLib true "").Update refLib okEnv (.key qKey)
        = some (NewAppModel refLib true "", [CmdAtom.quit]) ∧
      blockedApp.shell.BlocksGlobalKeys = true ∧
      ∃ r, blockedApp.Update refLib okEnv (.key qKey) = some r ∧ CmdAtom.quit ∉ r.2 :=
  ⟨(q_quits refLib okEnv _ qKey rfl).1 rfl, by decide,
    (q_quits refLib okEnv _ qKey rfl).2.1 rfl (by decide), by decide,
    (q_quits refLib okEnv blockedApp qKey rfl).2.2 rfl (by decide)⟩

/-- C21 (the code at a failing input): the Domains browser receives its
list of 25 domains, the selection is moved down to index 2, `r` starts a
reload and the reload fails.  The failure arm empties the item list and
leaves the selected index alone: the list is empty and the selected index is
2, not 0. -/
theorem failed_reload_keeps_selection :
    failedReloadRun.map (fun m => (m.items.length, m.selected, m.errMsg))
      = some (0, 2, "network down") := by
  decide

/-- The list-load arm of `Update` never reads the screen tag of the message:
the result is the same whatever the tag. -/
theorem BrowserModel.listLoaded_ignores_tag (L : Lib) (m : BrowserModel)
    (msg : browserListLoadedMsg) (screen : browserScreen) :
    m.Update L (.browserListLoaded { msg with screen := screen })
      = m.Update L (.browserListLoaded msg) := by
  unfold BrowserModel.Update
  cases m.search.visible <;> rfl

/-- C24 (the code at a failing input): the Records browser shows its zone
picker (25 zones, selected index 2) and receives a list result tagged for
the Zones list.  The tag differs from the current screen, and the result is
applied all the same: item list, list header and selection are replaced. -/
theorem stale_list_result_is_applied :
    recordsPickerMoved.map (fun m => (m.screen, m.items.length, m.listHeader, m.selected))
        = some (.browserRecordsZones, 25, "Records / Zones (25)", 2) ∧
      staleZonesMsg.screen = .browserZonesList ∧
      recordsPickerMoved.bind (fun m =>
          (m.Update refLib (.browserListLoaded staleZonesMsg)).map
            (fun r => (r.1.screen, r.1.items, r.1.listHeader, r.1.selected)))
        = some (.browserRecordsZones, staleZonesMsg.items, "Zones (1)", 0) := by
  decide

/-- C25 (the code at a failing input): the Shell has the Domains tab active,
showing the loaded dashboard of `absurdophile.com` (not loading, no modal,
section Overview).  The dashboard itself would answer `z` by showing the Zone
section and `R` by a refresh; through the Shell, `z` activates the Zones tab
and `R` the Records tab (starting their first loads), and the dashboard keeps
its section and starts no refresh. -/
theorem footer_keys_taken_by_shell :
    dashboardShell.map (fun m => (m.active, m.domains.screen, m.BlocksGlobalKeys))
      = some (.tabDomains, .browserDomainDashboard, false) ∧
    dashboardShell.map (fun m => (m.domains.domainDash.loading,
        m.domains.domainDash.modal.visible, m.domains.domainDash.sectionId))
      = some (false, false, .domainSectionOverview) ∧
    dashboardShell.bind (fun m =>
        (m.domains.domainDash.Update refLib (.key (runeKey (Char.ofNat 122)))).map
          (fun r => (r.1.sectionId, r.2)))
      = some (.domainSectionZone, []) ∧
    dashboardShell.bind (fun m =>
        (m.domains.domainDash.Update refLib (.key (runeKey (Char.ofNat 82)))).map
          (fun r => (r.1.loading, r.2)))
      = some (true, [CmdAtom.spinnerTick, CmdAtom.loadDashboard "absurdophile.com"]) ∧
    dashboardShell.bind (fun m =>
        (m.Update refLib (.key (runeKey (Char.ofNat 122)))).map
          (fun r => (r.1.active, r.1.domains.domainDash.sectionId, r.2)))
      = some (.tabZones, .domainSectionOverview,
          [CmdAtom.spinnerTick, CmdAtom.loadList .categoryZones .browserZonesList ""]) ∧
    dashboardShell.bind (fun m =>
        (m.Update refLib (.key (runeKey (Char.ofNat 82)))).map
          (fun r => (r.1.active, r.1.domains.domainDash.loading, r.2)))
      = some (.tabRecords, false,
          [CmdAtom.spinnerTick, CmdAtom.loadList .categoryRecords .browserRecordsZones ""]) := by
  decide

/-- C26 (the code at a failing input): in the run `deleteRecordShell` the
delete-record modal of the dashboard of `acme.dev` is opened while the
dashboard shows the records of an earlier load; its target summary names
record 8800001.  While the modal stays open the load of `acme.dev` arrives
and the user types `confirm`; the summary still names 8800001, and Enter
issues the deletion of record 8800011, the record now at the selected index,
which the fixture backend carries out. -/
theorem confirmed_delete_uses_current_selection :
    deleteRecordShell.map (fun m => (m.domains.domainDash.domain,
        m.domains.domainDash.modal.visible, m.domains.domainDash.modal.action,
        m.domains.domainDash.modal.body))
      = some ("acme.dev", true, .mutationDeleteRecord,
          "This will permanently delete the selected record from the zone.\n\nTarget record:\n  A @.acme.dev\n  ID: 8800001") ∧
    deleteRecordTyped.map (fun m => (m.domains.domainDash.modal.visible,
        m.domains.domainDash.modal.body, m.domains.domainDash.modal.input.value))
      = some (true,
          "This will permanently delete the selected record from the zone.\n\nTarget record:\n  A @.acme.dev\n  ID: 8800001",
          "confirm".data) ∧
    deleteRecordTyped.bind (fun m =>
        (m.Update refLib (.key enterKey)).map (fun r => r.2))
      = some [CmdAtom.spinnerTick,
          CmdAtom.mutation .mutationDeleteRecord "acme.dev" 8800011] ∧
    (runMutation newDemoBackend.toBackend .mutationDeleteRecord "acme.dev" 8800011).err = none := by
  decide

/-- C27 (the code at a failing input): in the run `staleSearchShell` the
global search is opened while a reload of the Domains list is in flight, and
the reload fails.  The search modal is still visible with its 25 matches,
the item list is empty, so every match's item index is out of range, and
building the rows of the search modal view panics. -/
theorem stale_matches_break_search_view :
    staleSearchShell.map (fun m => (m.active, m.domains.screen, m.domains.search.visible))
        = some (.tabDomains, .browserDomainsList, true) ∧
      staleSearchShell.map (fun m => (m.domains.items.length,
          m.domains.search.matchList.length, m.domains.search.selected))
        = some (0, 25, 0) ∧
      staleSearchShell.map (fun m => m.domains.searchModalRows) = some none := by
  decide

/-! ## Theorems: the two modals -/

theorem BrowserModel.modalsOk_of_modalState {a b : BrowserModel}
    (h : b.modalState = a.modalState) (ha : a.ModalsOk) : b.ModalsOk := by
  simp only [BrowserModel.modalState, Prod.mk.injEq] at h
  obtain ⟨h1, h2, h3, h4⟩ := h
  unfold BrowserModel.ModalsOk at ha ⊢
  rw [h1, h2, h3, h4]
  exact ha

theorem BrowserModel.updateSearchMatches_modalState (L : Lib) (m : BrowserModel) :
    (m.updateSearchMatches L).modalState = m.modalState := by
  unfold BrowserModel.updateSearchMatches
  split_ifs
  · rfl
  · simp only []
    split_ifs <;> rfl

theorem BrowserModel.openDashboard_modalsOk (m : BrowserModel) (item : browserItem)
    (hc : m.category = .categoryDomains) (hv : m.search.visible = false) :
    (m.openDashboard item).1.category = m.category ∧ (m.openDashboard item).1.ModalsOk := by
  refine ⟨rfl, ?_, ?_, ?_⟩
  · intro h
    exact absurd (show m.search.visible = true from h) (by simp [hv])
  · intro _
    exact hc
  · intro h
    exact absurd (show m.category = .categoryDomains from hc) h

theorem BrowserModel.updateSearchModal_modalsOk (L : Lib) (m : BrowserModel) (k : KeyMsg)
    (r : BrowserModel × Cmd) (h : m.updateSearchModal L k = some r) (hi : m.ModalsOk) :
    r.1.category = m.category ∧ r.1.ModalsOk := by
  have hclose : ∀ sel : Int, (({ m with selected := sel }).closeSearchModal).ModalsOk :=
    fun sel => ⟨fun hv => absurd hv (by simp [BrowserModel.closeSearchModal]), hi.2.1, hi.2.2⟩
  unfold BrowserModel.updateSearchModal at h
  split_ifs at h
  any_goals (simp only [Option.some.injEq] at h; subst h)
  · exact ⟨rfl, hi⟩
  · exact ⟨rfl, hclose m.selected⟩
  · exact ⟨rfl, BrowserModel.modalsOk_of_modalState rfl hi⟩
  · exact ⟨rfl, hi⟩
  · exact ⟨rfl, BrowserModel.modalsOk_of_modalState rfl hi⟩
  · exact ⟨rfl, hi⟩
  · exact ⟨rfl, hi⟩
  · split at h
    · simp at h
    · simp only [] at h
      split_ifs at h with hc
      · rename_i mt _
        cases hx : index? (({ m with selected := mt.itemIndex }).closeSearchModal).items
            (({ m with selected := mt.itemIndex }).closeSearchModal).selected with
        | none => simp [hx] at h
        | some item =>
          simp only [hx, Option.map_some', Option.some.injEq] at h
          subst h
          exact BrowserModel.openDashboard_modalsOk _ item hc.1 rfl
      · simp only [Option.some.injEq] at h
        subst h
        exact ⟨rfl, hclose _⟩
  · exact ⟨congrArg (fun x => x.1) (BrowserModel.updateSearchMatches_modalState L _),
      BrowserModel.modalsOk_of_modalState (BrowserModel.updateSearchMatches_modalState L _) hi⟩

theorem BrowserModel.handleEnter_modalsOk (m : BrowserModel) (r : BrowserModel × Cmd)
    (h : m.handleEnter = some r) (hv : m.search.visible = false) (hi : m.ModalsOk) :
    r.1.category = m.category ∧ r.1.ModalsOk := by
  unfold BrowserModel.handleEnter at h
  split_ifs at h with h0 h1 h2
  · simp only [Option.some.injEq] at h
    subst h
    exact ⟨rfl, hi⟩
  · cases hx : index? m.items m.selected with
    | none => simp [hx] at h
    | some item =>
      simp only [hx, Option.map_some', Option.some.injEq] at h
      subst h
      refine ⟨rfl, ?_, ?_, hi.2.2⟩
      · intro hvis
        exact absurd (show m.search.visible = true from hvis) (by simp [hv])
      · intro hs
        exact absurd hs (by simp)
  · cases hx : index? m.items m.selected with
    | none => simp [hx] at h
    | some item =>
      simp only [hx, Option.map_some', Option.some.injEq] at h
      subst h
      exact BrowserModel.openDashboard_modalsOk m item h2.1 hv
  · simp only [] at h
    cases hx : ({ m with errMsg := "", loading := true } : BrowserModel).loadDetailCmd with
    | none => simp [hx] at h
    | some c =>
      simp only [hx, Option.map_some', Option.some.injEq] at h
      subst h
      exact ⟨rfl, BrowserModel.modalsOk_of_modalState rfl hi⟩

theorem BrowserModel.openSearchModal_modalsOk (L : Lib) (m : BrowserModel)
    (hc : m.category = .categoryDomains) (hs : m.screen = .browserDomainsList)
    (hi : m.ModalsOk) :
    (m.openSearchModal L).category = m.category ∧ (m.openSearchModal L).ModalsOk := by
  have hst : (m.openSearchModal L).modalState
      = (m.category, m.screen, true, m.domainDash.modal.visible) := by
    unfold BrowserModel.openSearchModal
    rw [BrowserModel.updateSearchMatches_modalState]
    rfl
  simp only [BrowserModel.modalState, Prod.mk.injEq] at hst
  obtain ⟨h1, h2, h3, h4⟩ := hst
  refine ⟨h1, ?_, ?_, ?_⟩
  · intro _
    rw [h1, h2]
    exact ⟨hc, hs⟩
  · intro _
    rw [h1]
    exact hc
  · intro h
    rw [h1] at h
    exact absurd hc h

theorem ite_some_cases {α : Type} {c : Prop} {inst : Decidable c} {a b : Option α} {r : α}
    {P : α → Prop} (h : @ite (Option α) c inst a b = some r)
    (ha : c → a = some r → P r) (hb : ¬ c → b = some r → P r) : P r := by
  by_cases hc : c
  · rw [if_pos hc] at h
    exact ha hc h
  · rw [if_neg hc] at h
    exact hb hc h

theorem BrowserModel.updateKey_modalsOk (L : Lib) (m : BrowserModel) (k : KeyMsg)
    (r : BrowserModel × Cmd) (h : m.updateKey L k = some r) (hv : m.search.visible = false)
    (hi : m.ModalsOk) : r.1.category = m.category ∧ r.1.ModalsOk := by
  unfold BrowserModel.updateKey at h
  repeat' first
    | exact BrowserModel.handleEnter_modalsOk m r h hv hi
    | refine ite_some_cases (r := r) (P := fun x => x.1.category = m.category ∧ x.1.ModalsOk) h
        (fun hc h => ?_) (fun hc h => ?_)
    | (simp only [Option.some.injEq] at h
       subst h
       first
         | exact ⟨rfl, hi⟩
         | exact ⟨rfl, BrowserModel.modalsOk_of_modalState rfl hi⟩
         | exact BrowserModel.openSearchModal_modalsOk L m hc.1 hc.2.1 hi
         | exact ⟨rfl, fun hvis => absurd hvis (by simp [hv]), fun hs => absurd hs (by simp),
             hi.2.2⟩
         | fail)
    | (obtain ⟨c, _, rfl⟩ := Option.map_eq_some'.mp h
       exact ⟨rfl, BrowserModel.modalsOk_of_modalState rfl hi⟩)
    | fail

theorem BrowserModel.updateListLoaded_modalState (L : Lib) (m : BrowserModel)
    (msg : browserListLoadedMsg) : (m.updateListLoaded L msg).modalState = m.modalState := by
  unfold BrowserModel.updateListLoaded
  simp only []
  split
  · rfl
  · split_ifs
    all_goals first
      | rfl
      | exact BrowserModel.updateSearchMatches_modalState L _

/-- `Update` of a browser keeps the category and keeps the modals in order. -/
theorem BrowserModel.Update_modalsOk (L : Lib) (m : BrowserModel) (msg : Msg)
    (r : BrowserModel × Cmd) (h : m.Update L msg = some r) (hi : m.ModalsOk) :
    r.1.category = m.category ∧ r.1.ModalsOk := by
  by_cases hk : m.search.visible = true ∧ ∃ k, msg = .key k
  · obtain ⟨hv, k, rfl⟩ := hk
    have hU : m.Update L (.key k) = m.updateSearchModal L k := by
      unfold BrowserModel.Update
      rw [hv]
    rw [hU] at h
    exact BrowserModel.updateSearchModal_modalsOk L m k r h hi
  · by_cases hd : m.category = .categoryDomains ∧ m.screen = .browserDomainDashboard
    · have hv : m.search.visible = false := by
        cases hvv : m.search.visible with
        | false => rfl
        | true =>
          have := (hi.1 hvv).2
          rw [hd.2] at this
          exact absurd this (by decide)
      unfold BrowserModel.Update at h
      simp only [hv] at h
      rw [if_pos hd] at h
      split at h
      · simp only [Option.some.injEq] at h
        subst h
        exact ⟨rfl, fun hvis => absurd hvis (by simp [hv]), fun hs => absurd hs (by simp),
          hi.2.2⟩
      · simp only [Option.some.injEq] at h
        subst h
        exact ⟨rfl, fun hvis => absurd hvis (by simp [hv]), fun hs => absurd hs (by simp),
          hi.2.2⟩
      · obtain ⟨u, _, rfl⟩ := Option.map_eq_some'.mp h
        exact ⟨rfl, hi.1, hi.2.1, fun hne => absurd hd.1 hne⟩
    · cases msg with
      | key k =>
        have hv : m.search.visible = false := by
          cases hvv : m.search.visible with
          | false => rfl
          | true => exact absurd ⟨hvv, k, rfl⟩ hk
        unfold BrowserModel.Update at h
        simp only [hv] at h
        rw [if_neg hd] at h
        exact BrowserModel.updateKey_modalsOk L m k r h hv hi
      | browserListLoaded lm =>
        have hU : m.Update L (.browserListLoaded lm) = some (m.updateListLoaded L lm, []) := by
          unfold BrowserModel.Update
          cases m.search.visible <;> simp only [] <;> rw [if_neg hd]
        rw [hU] at h
        simp only [Option.some.injEq] at h
        subst h
        exact ⟨congrArg (fun x => x.1) (BrowserModel.updateListLoaded_modalState L m lm),
          BrowserModel.modalsOk_of_modalState (BrowserModel.updateListLoaded_modalState L m lm) hi⟩
      | browserDetailLoaded dm =>
        unfold BrowserModel.Update at h
        cases hvv : m.search.visible <;> simp only [hvv] at h <;> rw [if_neg hd] at h <;>
          split at h <;> simp only [Option.some.injEq] at h <;> subst h <;>
          exact ⟨rfl, BrowserModel.modalsOk_of_modalState rfl hi⟩
      | spinnerTick p =>
        unfold BrowserModel.Update at h
        cases hvv : m.search.visible <;> simp only [hvv] at h <;> rw [if_neg hd] at h <;>
          split_ifs at h <;> simp only [Option.some.injEq] at h <;> subst h <;>
          exact ⟨rfl, BrowserModel.modalsOk_of_modalState rfl hi⟩
      | _ =>
        unfold BrowserModel.Update at h
        cases hvv : m.search.visible <;> simp only [hvv] at h <;> rw [if_neg hd] at h <;>
          simp only [Option.some.injEq] at h <;> subst h <;> exact ⟨rfl, hi⟩

theorem BrowserModel.OpenSearch_modalsOk (L : Lib) (m : BrowserModel) (hi : m.ModalsOk) :
    (m.OpenSearch L).1.category = m.category ∧ (m.OpenSearch L).1.ModalsOk := by
  unfold BrowserModel.OpenSearch
  split_ifs with hc
  · exact ⟨rfl, hi⟩
  · have hc2 : m.category = .categoryDomains := not_not.mp hc
    exact BrowserModel.openSearchModal_modalsOk L
      { m with screen := .browserDomainsList, detailTitle := "", detailBody := "" } hc2 rfl
      ⟨fun _ => ⟨hc2, rfl⟩, fun _ => hc2, hi.2.2⟩

theorem ShellModel.shellModalsOk_of_modalState {a b : ShellModel}
    (hd : b.domains.modalState = a.domains.modalState)
    (hz : b.zones.modalState = a.zones.modalState)
    (hr : b.records.modalState = a.records.modalState) (ha : a.ModalsOk) : b.ModalsOk := by
  obtain ⟨⟨d1, d2⟩, ⟨z1, z2⟩, ⟨r1, r2⟩⟩ := ha
  have cat : ∀ {x y : BrowserModel}, y.modalState = x.modalState → y.category = x.category :=
    fun h => congrArg (fun s => s.1) h
  exact ⟨⟨(cat hd).trans d1, BrowserModel.modalsOk_of_modalState hd d2⟩,
    ⟨(cat hz).trans z1, BrowserModel.modalsOk_of_modalState hz z2⟩,
    ⟨(cat hr).trans r1, BrowserModel.modalsOk_of_modalState hr r2⟩⟩

theorem ShellModel.initTab_modalState (m : ShellModel) (tab : shellTab) :
    (m.initTab tab).1.domains.modalState = m.domains.modalState ∧
      (m.initTab tab).1.zones.modalState = m.zones.modalState ∧
      (m.initTab tab).1.records.modalState = m.records.modalState := by
  unfold ShellModel.initTab
  split_ifs
  · exact ⟨rfl, rfl, rfl⟩
  · unfold ShellModel.initModel
    cases tab <;> exact ⟨rfl, rfl, rfl⟩

theorem ShellModel.activate_modalsOk (m : ShellModel) (tab : shellTab) (hi : m.ModalsOk) :
    (m.activate tab).1.ModalsOk := by
  obtain ⟨h1, h2, h3⟩ := ShellModel.initTab_modalState { m with active := tab } tab
  exact ShellModel.shellModalsOk_of_modalState h1 h2 h3 hi

theorem ShellModel.openGlobalDomainSearch_modalsOk (L : Lib) (m : ShellModel)
    (hi : m.ModalsOk) : (m.openGlobalDomainSearch L).1.ModalsOk := by
  have h0 : (({ m with active := .tabDomains } : ShellModel).initTab .tabDomains).1.ModalsOk :=
    ShellModel.activate_modalsOk m .tabDomains hi
  obtain ⟨⟨d1, d2⟩, hz, hr⟩ := h0
  obtain ⟨c, o⟩ := BrowserModel.OpenSearch_modalsOk L _ d2
  exact ⟨⟨c.trans d1, o⟩, hz, hr⟩

theorem ShellModel.handleGlobalKeys_modalsOk (L : Lib) (m : ShellModel) (k : KeyMsg)
    (hi : m.ModalsOk) : (m.handleGlobalKeys L k).1.ModalsOk := by
  unfold ShellModel.handleGlobalKeys
  split_ifs
  all_goals first
    | exact ShellModel.activate_modalsOk m _ hi
    | exact ShellModel.openGlobalDomainSearch_modalsOk L m hi
    | exact hi

theorem ShellModel.updateActive_modalsOk (L : Lib) (m : ShellModel) (msg : Msg)
    (r : ShellModel × Cmd) (h : m.updateActive L msg = some r) (hi : m.ModalsOk) :
    r.1.ModalsOk := by
  obtain ⟨⟨d1, d2⟩, ⟨z1, z2⟩, ⟨r1, r2⟩⟩ := hi
  unfold ShellModel.updateActive at h
  split at h
  · obtain ⟨u, hu, rfl⟩ := Option.map_eq_some'.mp h
    obtain ⟨c, o⟩ := BrowserModel.Update_modalsOk L m.domains msg u hu d2
    exact ⟨⟨c.trans d1, o⟩, ⟨z1, z2⟩, ⟨r1, r2⟩⟩
  · obtain ⟨u, hu, rfl⟩ := Option.map_eq_some'.mp h
    obtain ⟨c, o⟩ := BrowserModel.Update_modalsOk L m.zones msg u hu z2
    exact ⟨⟨d1, d2⟩, ⟨c.trans z1, o⟩, ⟨r1, r2⟩⟩
  · obtain ⟨u, hu, rfl⟩ := Option.map_eq_some'.mp h
    obtain ⟨c, o⟩ := BrowserModel.Update_modalsOk L m.records msg u hu r2
    exact ⟨⟨d1, d2⟩, ⟨z1, z2⟩, ⟨c.trans r1, o⟩⟩
  · simp only [Option.some.injEq] at h
    subst h
    exact ⟨⟨d1, d2⟩, ⟨z1, z2⟩, ⟨r1, r2⟩⟩
  · obtain ⟨u, hu, rfl⟩ := Option.map_eq_some'.mp h
    exact ⟨⟨d1, d2⟩, ⟨z1, z2⟩, ⟨r1, r2⟩⟩

theorem ShellModel.updateRest_modalsOk (L : Lib) (m : ShellModel) (msg : Msg)
    (r : ShellModel × Cmd) (h : m.updateRest L msg = some r) (hi : m.ModalsOk) :
    r.1.ModalsOk := by
  unfold ShellModel.updateRest at h
  split at h
  any_goals (simp only [Option.some.injEq] at h; subst h; exact ShellModel.activate_modalsOk m _ hi)
  exact ShellModel.updateActive_modalsOk L m msg r h hi

/-- `Update` of the Shell keeps the modals of its browsers in order. -/
theorem ShellModel.shellUpdate_modalsOk (L : Lib) (m : ShellModel) (msg : Msg)
    (r : ShellModel × Cmd) (h : m.Update L msg = some r) (hi : m.ModalsOk) :
    r.1.ModalsOk := by
  unfold ShellModel.Update at h
  split at h
  · rename_i k
    split_ifs at h
    · simp only [Option.some.injEq] at h
      subst h
      exact ShellModel.handleGlobalKeys_modalsOk L m k hi
    · exact ShellModel.updateRest_modalsOk L _ _ r h (ShellModel.handleGlobalKeys_modalsOk L m k hi)
    · exact ShellModel.updateRest_modalsOk L m _ r h hi
  · exact ShellModel.updateRest_modalsOk L m msg r h hi

theorem ShellModel.SetSize_modalsOk (m : ShellModel) (width height : Int) (hi : m.ModalsOk) :
    (m.SetSize width height).ModalsOk :=
  ShellModel.shellModalsOk_of_modalState rfl rfl rfl hi

theorem NewBrowserModel_modalsOk (cat : category) : (NewBrowserModel cat).ModalsOk := by
  cases cat <;>
    exact ⟨fun h => absurd h (by decide), fun h => absurd h (by decide), fun _ => rfl⟩

theorem NewShellModel_modalsOk (whoami : Option WhoamiData) : (NewShellModel whoami).ModalsOk :=
  ⟨⟨rfl, NewBrowserModel_modalsOk _⟩, ⟨rfl, NewBrowserModel_modalsOk _⟩,
    ⟨rfl, NewBrowserModel_modalsOk _⟩⟩

/-- Every state the Shell reaches has the modals of its browsers in order. -/
theorem ShellModel.Reachable.modalsOk (L : Lib) (m : ShellModel) (hr : m.Reachable L) :
    m.ModalsOk := by
  induction hr with
  | new whoami => exact NewShellModel_modalsOk whoami
  | setSize width height _ ih => exact ShellModel.SetSize_modalsOk _ width height ih
  | init _ ih =>
    obtain ⟨h1, h2, h3⟩ := ShellModel.initTab_modalState _ .tabHome
    exact ShellModel.shellModalsOk_of_modalState h1 h2 h3 ih
  | update msg r _ h ih => exact ShellModel.shellUpdate_modalsOk L _ msg r h ih

/-- A run from a reachable Shell ends in a reachable Shell. -/
theorem ShellModel.run_reachable (L : Lib) (msgs : List Msg) :
    ∀ (m m2 : ShellModel), m.Reachable L → m.run L msgs = some m2 → m2.Reachable L := by
  induction msgs with
  | nil =>
    intro m m2 hr h
    simp only [ShellModel.run, Option.some.injEq] at h
    exact h ▸ hr
  | cons msg rest ih =>
    intro m m2 hr h
    unfold ShellModel.run at h
    split at h
    · simp at h
    · rename_i r hu
      exact ih r.1 m2 (ShellModel.Reachable.update msg r hr hu) h

/-- C22: in every state the Shell reaches, the search modal and the
confirmation modal of the dashboard are never both visible.  A confirmation
modal is visible while its dashboard is on show (`View` and
`BlocksGlobalKeys` test the screen before the flag of the modal), and the
search modal of the Domains tab is visible only over the Domains list, never
while the tab shows a dashboard.  The Zones and Records tabs never have a
visible search modal, never show a dashboard and never have a visible
confirmation modal. -/
theorem modals_never_both_visible (L : Lib) (m : ShellModel) (hr : m.Reachable L) :
    (m.domains.search.visible = true → m.domains.screen = .browserDomainsList) ∧
    ¬ (m.domains.search.visible = true ∧ m.domains.screen = .browserDomainDashboard ∧
        m.domains.domainDash.modal.visible = true) ∧
    (m.zones.search.visible = false ∧ m.zones.screen ≠ .browserDomainDashboard ∧
      m.zones.domainDash.modal.visible = false) ∧
    (m.records.search.visible = false ∧ m.records.screen ≠ .browserDomainDashboard ∧
      m.records.domainDash.modal.visible = false) := by
  obtain ⟨⟨_, d2⟩, ⟨z1, z2⟩, ⟨r1, r2⟩⟩ := ShellModel.Reachable.modalsOk L m hr
  have other : ∀ b : BrowserModel, b.category ≠ .categoryDomains → b.ModalsOk →
      b.search.visible = false ∧ b.screen ≠ .browserDomainDashboard ∧
        b.domainDash.modal.visible = false := by
    intro b hc hb
    refine ⟨?_, fun hs => hc (hb.2.1 hs), hb.2.2 hc⟩
    cases hv : b.search.visible with
    | false => rfl
    | true => exact absurd (hb.1 hv).1 hc
  refine ⟨fun hv => (d2.1 hv).2, ?_, other _ (by rw [z1]; decide) z2,
    other _ (by rw [r1]; decide) r2⟩
  rintro ⟨hv, hs, _⟩
  have := (d2.1 hv).2
  rw [hs] at this
  exact absurd this (by decide)

/-- Witness for C22: the reachable Shell of the run `deleteRecordShell`, on
which the confirmation modal of the dashboard on show is visible and the
search modal is not. -/
theorem modals_never_both_visible_witness :
    ∃ m, deleteRecordShell = some m ∧ m.Reachable refLib ∧
      m.domains.screen = .browserDomainDashboard ∧ m.domains.domainDash.modal.visible = true ∧
      m.domains.search.visible = false ∧
      (m.domains.search.visible = true → m.domains.screen = .browserDomainsList) ∧
      m.zones.search.visible = false ∧ m.records.domainDash.modal.visible = false := by
  have hs : deleteRecordShell.isSome = true := by decide
  obtain ⟨m, hm⟩ := Option.isSome_iff_exists.mp hs
  have hreach : m.Reachable refLib :=
    ShellModel.run_reachable refLib _ _ m
      (ShellModel.Reachable.init (ShellModel.Reachable.new none)) hm
  have hf : deleteRecordShell.map (fun m => (m.domains.screen,
      m.domains.domainDash.modal.visible, m.domains.search.visible))
      = some (.browserDomainDashboard, true, false) := by decide
  rw [hm] at hf
  simp only [Option.map_some', Option.some.injEq, Prod.mk.injEq] at hf
  obtain ⟨h1, _, h3, h4⟩ := modals_never_both_visible refLib m hreach
  exact ⟨m, hm, hreach, hf.1, hf.2.1, hf.2.2, h1, h3.1, h4.2.2⟩

/-- Why the invariant speaks of the dashboard on show: in the run
`lateExitShell` the exit message of the dashboard is handled after the key
that opened its confirmation modal.  The Domains tab then shows its list,
`/` opens the search modal over it, and the dashboard that was left keeps
the stored flag of its confirmation modal.  That modal is not on screen: the
tab shows the list, and `View` and `BlocksGlobalKeys` look at the flag only
while the screen is the dashboard. -/
theorem late_exit_keeps_stored_flag :
    lateExitShell.map (fun m => (m.domains.screen, m.domains.search.visible,
        m.domains.domainDash.ModalVisible))
      = some (.browserDomainsList, true, true) := by
  decide

/-! ## Theorems: well-formed selection and search state -/

theorem BrowserModel.updateSearchMatches_wellFormed (L : Lib) (m : BrowserModel) :
    (m.updateSearchMatches L).items = m.items ∧
      (m.updateSearchMatches L).selected = m.selected ∧
      (∀ mt ∈ (m.updateSearchMatches L).search.matchList,
        0 ≤ mt.itemIndex ∧ mt.itemIndex < (m.items.length : Int)) ∧
      0 ≤ (m.updateSearchMatches L).search.selected ∧
      ((m.updateSearchMatches L).search.selected
          < ((m.updateSearchMatches L).search.matchList.length : Int) ∨
        (m.updateSearchMatches L).search.selected = 0) := by
  unfold BrowserModel.updateSearchMatches
  split_ifs with hc
  · exact ⟨rfl, rfl, fun mt h => absurd h (List.not_mem_nil mt), le_refl 0, Or.inr rfl⟩
  · simp only []
    have hmem : ∀ mt ∈ sortSliceStable (searchLess L m.items)
        (collectMatches L (String.mk (trimSpace m.search.input.value)) m.items 0),
        0 ≤ mt.itemIndex ∧ mt.itemIndex < (m.items.length : Int) := by
      intro mt hmt
      have h1 := (sortSliceStable_perm _ _).mem_iff.mp hmt
      obtain ⟨j, item, hj, hidx, _⟩ := (mem_collectMatches L _ m.items 0 mt).mp h1
      have hlt := (List.getElem?_eq_some_iff.mp hj).1
      omega
    split_ifs with h0 h1 h2 h3
    · exact ⟨rfl, rfl, hmem, le_refl 0, Or.inr rfl⟩
    all_goals refine ⟨rfl, rfl, hmem, ?_, ?_⟩
    all_goals simp only []
    all_goals omega

theorem index?_mem {α : Type} {xs : List α} {i : Int} {x : α} (h : index? xs i = some x) :
    x ∈ xs ∧ 0 ≤ i ∧ i < (xs.length : Int) := by
  unfold index? at h
  split_ifs at h with hneg
  have h2 := List.getElem?_eq_some_iff.mp h
  obtain ⟨hlt, hx⟩ := h2
  exact ⟨hx ▸ List.getElem_mem _, by omega, by omega⟩

theorem index?_isSome {α : Type} (xs : List α) (i : Int) (h0 : 0 ≤ i)
    (h1 : i < (xs.length : Int)) : ∃ x, index? xs i = some x := by
  unfold index?
  rw [if_neg (by omega)]
  have hlt : i.toNat < xs.length := by omega
  exact ⟨xs[i.toNat], List.getElem?_eq_getElem hlt⟩

theorem BrowserModel.wellFormed_of_same {a b : BrowserModel} (hi : b.items = a.items)
    (hs : b.selected = a.selected) (hq : b.search = a.search)
    (ha : a.SelectionOk ∧ a.SearchOk) : b.SelectionOk ∧ b.SearchOk := by
  unfold BrowserModel.SelectionOk BrowserModel.SearchOk at ha ⊢
  rw [hi, hs, hq]
  exact ha

theorem BrowserModel.wellFormed_of_hidden {a b : BrowserModel} (hi : b.items = a.items)
    (hs : b.selected = a.selected) (hv : b.search.visible = false)
    (ha : a.SelectionOk) : b.SelectionOk ∧ b.SearchOk := by
  refine ⟨?_, fun h => absurd h (by simp [hv])⟩
  unfold BrowserModel.SelectionOk at ha ⊢
  rw [hi, hs]
  exact ha

theorem BrowserModel.updateSearchMatches_ok (L : Lib) (m : BrowserModel) (ha : m.SelectionOk) :
    (m.updateSearchMatches L).SelectionOk ∧ (m.updateSearchMatches L).SearchOk := by
  obtain ⟨h1, h2, h3, h4, h5⟩ := BrowserModel.updateSearchMatches_wellFormed L m
  refine ⟨?_, fun _ => ⟨?_, h4, h5⟩⟩
  · unfold BrowserModel.SelectionOk at ha ⊢
    rw [h1, h2]
    exact ha
  · rw [h1]
    exact h3

theorem BrowserModel.updateSearchModal_wellFormed (L : Lib) (m : BrowserModel) (k : KeyMsg)
    (r : BrowserModel × Cmd) (h : m.updateSearchModal L k = some r)
    (hv : m.search.visible = true) (hw : m.SelectionOk ∧ m.SearchOk) :
    r.1.SelectionOk ∧ r.1.SearchOk := by
  obtain ⟨hsel, hsea⟩ := hw
  obtain ⟨hm, hs0, hs1⟩ := hsea hv
  unfold BrowserModel.updateSearchModal at h
  split_ifs at h with c1 c2 c3 c4 c5 c6 c7 c8
  any_goals (simp only [Option.some.injEq] at h; subst h)
  · exact ⟨hsel, hsea⟩
  · exact BrowserModel.wellFormed_of_hidden rfl rfl rfl hsel
  · exact ⟨hsel, fun _ => ⟨hm, by simp only []; omega, by simp only []; omega⟩⟩
  · exact ⟨hsel, hsea⟩
  · exact ⟨hsel, fun _ => ⟨hm, by simp only []; omega, by simp only []; omega⟩⟩
  · exact ⟨hsel, hsea⟩
  · exact ⟨hsel, hsea⟩
  · split at h
    · simp at h
    · rename_i mt hmt
      obtain ⟨hmem, _, _⟩ := index?_mem hmt
      obtain ⟨i0, i1⟩ := hm mt hmem
      have hsel2 : ({ m with selected := mt.itemIndex } : BrowserModel).SelectionOk :=
        ⟨i0, Or.inl i1⟩
      simp only [] at h
      split_ifs at h
      · obtain ⟨item, _, rfl⟩ := Option.map_eq_some'.mp h
        exact BrowserModel.wellFormed_of_hidden rfl rfl rfl hsel2
      · simp only [Option.some.injEq] at h
        subst h
        exact BrowserModel.wellFormed_of_hidden rfl rfl rfl hsel2
  · exact BrowserModel.updateSearchMatches_ok L _ hsel

theorem BrowserModel.handleEnter_wellFormed (m : BrowserModel) (r : BrowserModel × Cmd)
    (h : m.handleEnter = some r) (hv : m.search.visible = false) (hw : m.SelectionOk) :
    r.1.SelectionOk ∧ r.1.SearchOk := by
  unfold BrowserModel.handleEnter at h
  split_ifs at h
  · simp only [Option.some.injEq] at h
    subst h
    exact BrowserModel.wellFormed_of_hidden rfl rfl hv hw
  · obtain ⟨item, _, rfl⟩ := Option.map_eq_some'.mp h
    exact ⟨⟨le_refl 0, Or.inr rfl⟩, fun hvis => absurd hvis (by simp [hv])⟩
  · obtain ⟨item, _, rfl⟩ := Option.map_eq_some'.mp h
    exact BrowserModel.wellFormed_of_hidden rfl rfl hv hw
  · simp only [] at h
    obtain ⟨c, _, rfl⟩ := Option.map_eq_some'.mp h
    exact BrowserModel.wellFormed_of_hidden rfl rfl hv hw

theorem BrowserModel.updateKey_wellFormed (L : Lib) (m : BrowserModel) (k : KeyMsg)
    (r : BrowserModel × Cmd) (h : m.updateKey L k = some r) (hv : m.search.visible = false)
    (hw : m.SelectionOk) : r.1.SelectionOk ∧ r.1.SearchOk := by
  have hw2 := hw
  obtain ⟨hw0, hw1⟩ := hw2
  unfold BrowserModel.updateKey at h
  repeat' first
    | exact BrowserModel.handleEnter_wellFormed m r h hv hw
    | refine ite_some_cases (r := r) (P := fun x => x.1.SelectionOk ∧ x.1.SearchOk) h
        (fun hc h => ?_) (fun hc h => ?_)
    | (simp only [Option.some.injEq] at h
       subst h
       first
         | exact BrowserModel.wellFormed_of_hidden rfl rfl hv hw
         | exact BrowserModel.updateSearchMatches_ok L _ hw
         | exact ⟨⟨le_refl 0, Or.inr rfl⟩, fun hvis => absurd hvis (by simp [hv])⟩
         | exact ⟨⟨by simp only []; omega, by simp only []; omega⟩,
             fun hvis => absurd hvis (by simp [hv])⟩
         | fail)
    | (obtain ⟨c, _, rfl⟩ := Option.map_eq_some'.mp h
       exact BrowserModel.wellFormed_of_hidden rfl rfl hv hw)
    | fail

theorem BrowserModel.updateListLoaded_wellFormed (L : Lib) (m : BrowserModel)
    (msg : browserListLoadedMsg) (he : msg.err = none) (hw : m.SelectionOk) :
    (m.updateListLoaded L msg).SelectionOk ∧ (m.updateListLoaded L msg).SearchOk := by
  obtain ⟨hw0, hw1⟩ := hw
  unfold BrowserModel.updateListLoaded
  simp only [he]
  by_cases hv : m.search.visible = true
  · simp only [hv, if_true]
    obtain ⟨h1, h2, h3, h4, h5⟩ := BrowserModel.updateSearchMatches_wellFormed L
      { m with loading := false, errMsg := "", items := msg.items, listHeader := msg.header,
               statusMsg := msg.statusMsg }
    simp only [] at h1 h2 h3
    split_ifs with c1 c2
    · exact ⟨⟨le_refl 0, Or.inr rfl⟩, fun _ => ⟨by simp only [h1]; exact h3, h4, h5⟩⟩
    · refine ⟨⟨?_, ?_⟩, fun _ => ⟨by simp only [h1]; exact h3, h4, h5⟩⟩
      · simp only []
        omega
      · simp only []
        omega
    · refine ⟨⟨?_, ?_⟩, fun _ => ⟨by rw [h1]; exact h3, h4, h5⟩⟩
      · rw [h2]
        exact hw0
      · left
        omega
  · have hv2 : m.search.visible = false := by simpa using hv
    simp only [hv2, Bool.false_eq_true, if_false]
    split_ifs with c1 c2
    · exact ⟨⟨le_refl 0, Or.inr rfl⟩, fun hvis => absurd hvis (by simp [hv2])⟩
    · refine ⟨⟨?_, ?_⟩, fun hvis => absurd hvis (by simp [hv2])⟩
      · simp only []
        simp only [] at c1
        omega
      · simp only []
        omega
    · refine ⟨⟨hw0, ?_⟩, fun hvis => absurd hvis (by simp [hv2])⟩
      left
      simp only [] at c2 ⊢
      omega

/-- Every step of a browser other than a failed list load keeps the selection
and the search state well formed. -/
theorem BrowserModel.Update_wellFormed (L : Lib) (m : BrowserModel) (msg : Msg)
    (r : BrowserModel × Cmd) (h : m.Update L msg = some r)
    (hne : ∀ lm, msg = .browserListLoaded lm → lm.err = none)
    (hw : m.SelectionOk ∧ m.SearchOk) : r.1.SelectionOk ∧ r.1.SearchOk := by
  by_cases hk : m.search.visible = true ∧ ∃ k, msg = .key k
  · obtain ⟨hv, k, rfl⟩ := hk
    have hU : m.Update L (.key k) = m.updateSearchModal L k := by
      unfold BrowserModel.Update
      rw [hv]
    rw [hU] at h
    exact BrowserModel.updateSearchModal_wellFormed L m k r h hv hw
  · by_cases hd : m.category = .categoryDomains ∧ m.screen = .browserDomainDashboard
    · cases msg with
      | key k =>
        have hv : m.search.visible = false := by
          cases hvv : m.search.visible with
          | false => rfl
          | true => exact absurd ⟨hvv, k, rfl⟩ hk
        unfold BrowserModel.Update at h
        simp only [hv] at h
        rw [if_pos hd] at h
        obtain ⟨u, _, rfl⟩ := Option.map_eq_some'.mp h
        exact BrowserModel.wellFormed_of_same rfl rfl rfl hw
      | domainDashboardExit =>
        unfold BrowserModel.Update at h
        cases hvv : m.search.visible <;> simp only [hvv] at h <;> rw [if_pos hd] at h <;>
          simp only [Option.some.injEq] at h <;> subst h <;>
          exact BrowserModel.wellFormed_of_same rfl rfl rfl hw
      | domainDashboardDeleted domain =>
        unfold BrowserModel.Update at h
        cases hvv : m.search.visible <;> simp only [hvv] at h <;> rw [if_pos hd] at h <;>
          simp only [Option.some.injEq] at h <;> subst h <;>
          exact BrowserModel.wellFormed_of_same rfl rfl rfl hw
      | _ =>
        unfold BrowserModel.Update at h
        cases hvv : m.search.visible <;> simp only [hvv] at h <;> rw [if_pos hd] at h <;>
          obtain ⟨u, _, rfl⟩ := Option.map_eq_some'.mp h <;>
          exact BrowserModel.wellFormed_of_same rfl rfl rfl hw
    · cases msg with
      | key k =>
        have hv : m.search.visible = false := by
          cases hvv : m.search.visible with
          | false => rfl
          | true => exact absurd ⟨hvv, k, rfl⟩ hk
        unfold BrowserModel.Update at h
        simp only [hv] at h
        rw [if_neg hd] at h
        exact BrowserModel.updateKey_wellFormed L m k r h hv hw.1
      | browserListLoaded lm =>
        have hU : m.Update L (.browserListLoaded lm) = some (m.updateListLoaded L lm, []) := by
          unfold BrowserModel.Update
          cases m.search.visible <;> simp only [] <;> rw [if_neg hd]
        rw [hU] at h
        simp only [Option.some.injEq] at h
        subst h
        exact BrowserModel.updateListLoaded_wellFormed L m lm (hne lm rfl) hw.1
      | browserDetailLoaded dm =>
        unfold BrowserModel.Update at h
        cases hvv : m.search.visible <;> simp only [hvv] at h <;> rw [if_neg hd] at h <;>
          split at h <;> simp only [Option.some.injEq] at h <;> subst h <;>
          exact BrowserModel.wellFormed_of_same rfl rfl rfl hw
      | spinnerTick p =>
        unfold BrowserModel.Update at h
        cases hvv : m.search.visible <;> simp only [hvv] at h <;> rw [if_neg hd] at h <;>
          split_ifs at h <;> simp only [Option.some.injEq] at h <;> subst h <;>
          exact BrowserModel.wellFormed_of_same rfl rfl rfl hw
      | _ =>
        unfold BrowserModel.Update at h
        cases hvv : m.search.visible <;> simp only [hvv] at h <;> rw [if_neg hd] at h <;>
          simp only [Option.some.injEq] at h <;> subst h <;> exact hw

theorem windowRange_bounds (N S C : Int) (hN : 0 < N ∧ N < 2 ^ 62)
    (hS : -(2 ^ 63) ≤ S ∧ S < 2 ^ 63) (hC : 0 < C ∧ C < 2 ^ 63) :
    0 ≤ (windowRange N S C).1 ∧ (windowRange N S C).1 ≤ (windowRange N S C).2 ∧
      (windowRange N S C).2 ≤ N := by
  have hd : Int.tdiv C 2 = C / 2 := Int.tdiv_eq_ediv (by omega) (by decide)
  rw [windowRange_no_wrap N S C hN.2 hS ⟨by omega, hC.2⟩]
  unfold windowRangeIdeal
  rw [hd]
  simp only []
  split_ifs <;> simp only [] <;> omega

theorem BrowserModel.searchRowsFrom_returns (m : BrowserModel)
    (hm : ∀ mt ∈ m.search.matchList, 0 ≤ mt.itemIndex ∧ mt.itemIndex < (m.items.length : Int)) :
    ∀ (n : Nat) (i : Int), 0 ≤ i → i + n ≤ (m.search.matchList.length : Int) →
      ∃ rows, m.searchRowsFrom n i = some rows := by
  intro n
  induction n with
  | zero =>
    intro i _ _
    exact ⟨[], rfl⟩
  | succ n ih =>
    intro i h0 h1
    obtain ⟨mt, hmt⟩ := index?_isSome m.search.matchList i h0 (by omega)
    obtain ⟨a0, a1⟩ := hm mt (index?_mem hmt).1
    obtain ⟨item, hitem⟩ := index?_isSome m.items mt.itemIndex a0 a1
    obtain ⟨rest, hrest⟩ := ih (i + 1) (by omega) (by push_cast at h1 ⊢; omega)
    unfold BrowserModel.searchRowsFrom
    simp only [hmt, hitem, hrest, Option.map_some']
    exact ⟨_, rfl⟩

/-- With a well-formed search state (and a match list of slice size) the
search modal never indexes out of bounds: its key handler returns and its
view builds its rows. -/
theorem BrowserModel.searchModal_in_bounds (L : Lib) (m : BrowserModel) (k : KeyMsg)
    (hv : m.search.visible = true) (hs : m.SearchOk)
    (hsize : (m.search.matchList.length : Int) < 2 ^ 62) :
    (∃ r, m.updateSearchModal L k = some r) ∧ ∃ rows, m.searchModalRows = some rows := by
  obtain ⟨hm, hs0, hs1⟩ := hs hv
  constructor
  · unfold BrowserModel.updateSearchModal
    split_ifs with c1 c2 c3 c4 c5 c6 c7 c8
    any_goals exact ⟨_, rfl⟩
    have hlen : 0 < m.search.matchList.length := Nat.pos_of_ne_zero c8
    obtain ⟨mt, hmt⟩ := index?_isSome m.search.matchList m.search.selected hs0 (by omega)
    simp only [hmt]
    split_ifs with c9
    · obtain ⟨item, hitem⟩ := index?_isSome _ _ c9.2.2.1 c9.2.2.2
      rw [hitem]
      exact ⟨_, rfl⟩
    · exact ⟨_, rfl⟩
  · unfold BrowserModel.searchModalRows
    split_ifs with c1
    · exact ⟨_, rfl⟩
    · have hlen : 0 < m.search.matchList.length := Nat.pos_of_ne_zero c1
      have hcap : 0 < maxInt 5 (minInt 12 (m.height - 14)) ∧
          maxInt 5 (minInt 12 (m.height - 14)) < 2 ^ 63 := by
        unfold maxInt minInt
        split_ifs <;> omega
      obtain ⟨b0, b1, b2⟩ := windowRange_bounds (m.search.matchList.length : Int)
        m.search.selected (maxInt 5 (minInt 12 (m.height - 14))) ⟨by omega, hsize⟩
        (by omega) hcap
      simp only []
      exact BrowserModel.searchRowsFrom_returns m hm _ _ b0 (by omega)

theorem NewBrowserModel_wellFormed (cat : category) :
    (NewBrowserModel cat).SelectionOk ∧ (NewBrowserModel cat).SearchOk :=
  ⟨⟨le_refl 0, Or.inr rfl⟩, fun h => absurd h (by cases cat <;> decide)⟩

/-- A run of a browser without a failed list load ends with a well-formed
selection and a well-formed search state. -/
theorem BrowserModel.run_wellFormed (L : Lib) (msgs : List Msg)
    (hne : ∀ lm, Msg.browserListLoaded lm ∈ msgs → lm.err = none) :
    ∀ (m m2 : BrowserModel), m.SelectionOk ∧ m.SearchOk → m.run L msgs = some m2 →
      m2.SelectionOk ∧ m2.SearchOk := by
  induction msgs with
  | nil =>
    intro m m2 hw h
    simp only [BrowserModel.run, Option.some.injEq] at h
    exact h ▸ hw
  | cons msg rest ih =>
    intro m m2 hw h
    unfold BrowserModel.run at h
    split at h
    · simp at h
    · rename_i r hu
      exact ih (fun lm hl => hne lm (List.mem_cons_of_mem _ hl)) r.1 m2
        (BrowserModel.Update_wellFormed L m msg r hu
          (fun lm hl => hne lm (hl ▸ List.mem_cons_self _ _)) hw) h

/-! ## Theorems: global keys over the dashboard, loads under the modal -/

theorem ShellModel.activate_other (m : ShellModel) (tab : shellTab) :
    (m.activate tab).1.active = tab ∧
      (tab ≠ .tabDomains → (m.activate tab).1.domains = m.domains) := by
  unfold ShellModel.activate ShellModel.initTab
  split_ifs
  · exact ⟨rfl, fun _ => rfl⟩
  · unfold ShellModel.initModel
    cases tab
    · exact ⟨rfl, fun _ => rfl⟩
    · exact ⟨rfl, fun h => absurd rfl h⟩
    · exact ⟨rfl, fun _ => rfl⟩
    · exact ⟨rfl, fun _ => rfl⟩
    · exact ⟨rfl, fun _ => rfl⟩

/-- A global key that activates another tab than Domains never reaches the
Domains tab: whatever the Shell returns, that tab is active and the Domains
browser, its dashboard included, is as before. -/
theorem ShellModel.tab_key_keeps_domains (L : Lib) (m : ShellModel) (k : KeyMsg)
    (tab : shellTab) (ht : tab ≠ .tabDomains)
    (hg : m.handleGlobalKeys L k = m.activate tab) (hb : m.BlocksGlobalKeys = false)
    (r : ShellModel × Cmd) (h : m.Update L (.key k) = some r) :
    r.1.active = tab ∧ r.1.domains = m.domains := by
  obtain ⟨a1, a2⟩ := ShellModel.activate_other m tab
  unfold ShellModel.Update at h
  simp only [hb, if_true, hg] at h
  split_ifs at h
  · simp only [Option.some.injEq] at h
    subst h
    exact ⟨a1, a2 ht⟩
  · have hu : (m.activate tab).1.updateRest L (.key k)
        = (m.activate tab).1.updateActive L (.key k) := rfl
    rw [hu] at h
    obtain ⟨f1, _, _, _, f5, _, _⟩ := ShellModel.updateActive_frame L _ _ r h
    exact ⟨f1.trans a1, (f5 (by rw [a1]; exact ht)).trans (a2 ht)⟩

/-- The keys `z` and `R` are global keys: `z` activates the Zones tab and `R`
the Records tab. -/
theorem ShellModel.z_and_R_are_global (L : Lib) (m : ShellModel) (k : KeyMsg) :
    (k.name = "z" → m.handleGlobalKeys L k = m.activate .tabZones) ∧
      (k.name = "R" → m.handleGlobalKeys L k = m.activate .tabRecords) := by
  constructor <;> intro hk <;> unfold ShellModel.handleGlobalKeys <;>
    simp [keyMatches, keys, hk]

/-- A dashboard load that arrives while the confirmation modal is open
replaces the records and leaves the modal, with its target summary, as it
is. -/
theorem DomainDashboardModel.load_under_modal (L : Lib) (m : DomainDashboardModel)
    (msg : domainDashboardLoadedMsg) (he : msg.err = none) :
    ∃ r, m.Update L (.domainDashboardLoaded msg) = some r ∧ r.1.modal = m.modal ∧
      r.1.records = msg.records := by
  unfold DomainDashboardModel.Update
  simp only [he]
  split_ifs <;> exact ⟨_, rfl, rfl, rfl⟩

end Tui
